import Mathlib

/-!
# PRU remoteproc driver: ownership, interrupt map, address translation

A shallow embedding of `drivers/remoteproc/pru_rproc.c`.  Machine integers are
`Nat`/`Int` with explicit reductions where the C arithmetic wraps.  Pointers
into mapped memory are (region, offset) pairs.  The collaborators of the driver
that live outside this file (PRUSS configuration, interrupt controller,
remoteproc core, device tree accessors) are modelled from the specification and
their return codes are inputs of the operations that call them.
-/

namespace PruRproc

deriving instance DecidableEq for Except

/-! ## Error numbers (errno.h) -/

def ENOMEM : Int := 12
def EBUSY : Int := 16
def ENODEV : Int := 19
def EINVAL : Int := 22
def EPROBE_DEFER : Int := 517

/-! ## Data model -/

/-- Modelled from the spec: the fixed cardinalities of the interrupt controller
(`MAX_PRU_SYS_EVENTS`, `MAX_PRU_CHANNELS`, `MAX_PRU_HOST_INT` of `pruss.h`,
which is not part of the sources at hand).  They are kept as parameters. -/
structure pruss_limits where
  MAX_PRU_SYS_EVENTS : Nat
  MAX_PRU_CHANNELS : Nat
  MAX_PRU_HOST_INT : Nat
deriving DecidableEq, Repr

/-- Modelled from the spec: `struct pruss_intc_config` of `pruss.h`, two
fixed-size arrays whose slots hold `-1` (unmapped) or an id. -/
structure pruss_intc_config where
  sysev_to_ch : List Int
  ch_to_host : List Int
deriving DecidableEq, Repr

/-- Modelled from the spec: `struct pruss_mem_region` of `pruss.h` (physical
base and byte size; the mapped base `va` is represented by the region itself). -/
structure pruss_mem_region where
  pa : Nat
  size : Nat
deriving DecidableEq, Repr

/-- Members of `enum pru_mem`. -/
def PRU_MEM_IRAM : Nat := 0
def PRU_MEM_CTRL : Nat := 1
def PRU_MEM_DEBUG : Nat := 2
def PRU_MEM_MAX : Nat := 3

/-- Fields of `struct pru_rproc` (locks and the back pointers are left out;
`mbox` records whether a mailbox channel is held). -/
structure pru_rproc where
  id : Int
  client_np : Option Nat
  mbox : Bool
  irq_vring : Int
  irq_kick : Int
  mem_iram : pruss_mem_region
  mem_ctrl : pruss_mem_region
  mem_debug : pruss_mem_region
  intc_config : pruss_intc_config
  iram_da : Nat
  pdram_da : Nat
  sdram_da : Nat
  shrdram_da : Nat
  fw_name : String
  gpmux_save : Nat
  dt_irqs : Int
  dbg_single_step : Nat
  dbg_continuous : Nat
deriving DecidableEq, Repr

/-- The array `pru->mem_regions[i]`, indexed by `enum pru_mem`. -/
def pru_rproc.mem_regions (pru : pru_rproc) (i : Nat) : pruss_mem_region :=
  if i = PRU_MEM_IRAM then pru.mem_iram
  else if i = PRU_MEM_CTRL then pru.mem_ctrl
  else pru.mem_debug

/-- Modelled from the spec: the part of the parent `struct pruss` the core acts
on: the two data RAMs and the shared RAM, the live signal-routing (GPMUX)
selector of this core, and the table the interrupt controller currently holds
(`none` when nothing is committed). -/
structure pruss where
  mem_dram0 : pruss_mem_region
  mem_dram1 : pruss_mem_region
  mem_shrd_ram2 : pruss_mem_region
  gpmux : Nat
  intc : Option pruss_intc_config
deriving DecidableEq, Repr

/-- The fields of `struct rproc` the driver touches: current firmware name,
reference count of `rproc->dev`, and whether the name of `rproc->dev.parent`
(the platform device of the core) contains "pru". -/
structure rproc where
  firmware : String
  dev_refs : Int
  parent_name_has_pru : Bool
deriving DecidableEq, Repr

/-- One core together with the collaborator state it reads and writes. -/
structure pru_state where
  pru : pru_rproc
  pruss : pruss
  rproc : rproc
deriving DecidableEq, Repr

/-! ## Hardware description of a client -/

/-- Modelled from the spec: what the device-tree accessors yield for one entry
of a client's "prus" list: whether the node is available, whether its platform
device exists, and whether driver data has been set by probe. -/
structure prus_entry where
  available : Bool
  pdev : Bool
  drvdata : Bool
deriving DecidableEq, Repr

/-- Modelled from the spec: a client `struct device_node`: its address and the
properties `prus`, `ti,pruss-gp-mux-sel`, `firmware-name` and
`ti,pru-interrupt-map` (absent, or a list of u32 cells). -/
structure device_node where
  addr : Nat
  prus : List prus_entry
  gp_mux_sel : List Nat
  firmware_name : List String
  interrupt_map : Option (List Nat)
deriving DecidableEq, Repr

/-- Modelled from the spec: `of_parse_phandle(np, "prus", index)`: the entry at
`index` of the dependency list, absent for an index outside the list. -/
def of_parse_phandle (np : device_node) (index : Int) : Option prus_entry :=
  if index < 0 then none else np.prus[index.toNat]?

/-- Modelled from the spec: `of_property_read_u32_index`: the optional
per-index signal-routing selector. -/
def of_property_read_u32_index (cells : List Nat) (index : Int) : Option Nat :=
  if index < 0 then none else cells[index.toNat]?

/-- Modelled from the spec: `of_property_read_string_index`: the optional
per-index firmware name. -/
def of_property_read_string_index (names : List String) (index : Int) : Option String :=
  if index < 0 then none else names[index.toNat]?

/-- Modelled from the spec: `of_property_count_u32_elems`: the number of u32
cells of the property. -/
def of_property_count_u32_elems (cells : List Nat) : Int :=
  (cells.length : Int)

/-! ## Collaborator primitives -/

/-- Modelled from the spec: `get_device(&rproc->dev)`. -/
def get_device (s : pru_state) : pru_state :=
  { s with rproc := { s.rproc with dev_refs := s.rproc.dev_refs + 1 } }

/-- Modelled from the spec: `put_device(&rproc->dev)`. -/
def put_device (s : pru_state) : pru_state :=
  { s with rproc := { s.rproc with dev_refs := s.rproc.dev_refs - 1 } }

/-- Modelled from the spec: `pruss_cfg_get_gpmux(pruss, id, &pru->gpmux_save)`,
the signal-routing read primitive.  With return code 0 the live selector is
stored into the `u8` field; otherwise nothing is stored. -/
def pruss_cfg_get_gpmux (ret : Int) (s : pru_state) : Int × pru_state :=
  if ret = 0 then (0, { s with pru := { s.pru with gpmux_save := s.pruss.gpmux % 256 } })
  else (ret, s)

/-- Modelled from the spec: `pruss_cfg_set_gpmux(pruss, id, mux)`, the
signal-routing write primitive.  With return code 0 the live selector becomes
`mux`; otherwise it is left as it was. -/
def pruss_cfg_set_gpmux (ret : Int) (mux : Nat) (s : pru_state) : Int × pru_state :=
  if ret = 0 then (0, { s with pruss := { s.pruss with gpmux := mux } })
  else (ret, s)

/-- Modelled from the spec: `rproc_set_firmware(rproc, fw_name)` of the
remoteproc core. -/
def rproc_set_firmware (ret : Int) (fw_name : String) (s : pru_state) : Int × pru_state :=
  if ret = 0 then (0, { s with rproc := { s.rproc with firmware := fw_name } })
  else (ret, s)

/-- Modelled from the spec: `pruss_intc_configure(pruss, &pru->intc_config)`:
with return code 0 the controller holds the table. -/
def pruss_intc_configure (ret : Int) (cfg : pruss_intc_config) (s : pru_state) :
    Int × pru_state :=
  if ret = 0 then (0, { s with pruss := { s.pruss with intc := some cfg } })
  else (ret, s)

/-- Modelled from the spec: `pruss_intc_unconfigure(pruss, &pru->intc_config)`:
the controller holds no table afterwards. -/
def pruss_intc_unconfigure (_cfg : pruss_intc_config) (s : pru_state) : pru_state :=
  { s with pruss := { s.pruss with intc := none } }

/-- Return codes of the collaborators called by `pru_rproc_put`. -/
structure put_rets where
  set_firmware : Int
  set_gpmux : Int
deriving DecidableEq, Repr

/-- Return codes of the collaborators called by `pru_rproc_get`, with those of
the release it runs on its error path. -/
structure get_rets where
  get_gpmux : Int
  set_gpmux : Int
  set_firmware : Int
  kmalloc_ok : Bool
  read_u32_array : Int
  intc_configure : Int
  put : put_rets
deriving DecidableEq, Repr

/-! ## Ownership manager -/

/-- `pru_rproc_set_firmware`: a NULL name selects the default `pru->fw_name`. -/
def pru_rproc_set_firmware (ret : Int) (fw_name : Option String) (s : pru_state) :
    Int × pru_state :=
  match fw_name with
  | none => rproc_set_firmware ret s.pru.fw_name s
  | some n => rproc_set_firmware ret n s

/-- `__pru_rproc_get`: locate the core named at `index` of the client's "prus"
list.  The platform device found is the one of this core, so its name is the
name of `rproc->dev.parent`. -/
def __pru_rproc_get (np : device_node) (index : Int) (s : pru_state) :
    Except Int Unit × pru_state :=
  match of_parse_phandle np index with
  | none => (.error (-ENODEV), s)
  | some rproc_np =>
    if !rproc_np.available then (.error (-ENODEV), s)
    else if !rproc_np.pdev then (.error (-EPROBE_DEFER), s)
    else if !s.rproc.parent_name_has_pru then (.error (-ENODEV), s)
    else if !rproc_np.drvdata then (.error (-EPROBE_DEFER), s)
    else (.ok (), get_device s)

/-- `pru_rproc_put`: release the core (called with a valid handle). -/
def pru_rproc_put (r : put_rets) (s : pru_state) : pru_state :=
  if !s.rproc.parent_name_has_pru then s
  else
    match s.pru.client_np with
    | none => s
    | some _ =>
      let s1 := if s.pru.dt_irqs ≠ 0 then pruss_intc_unconfigure s.pru.intc_config s else s
      let s2 := (pru_rproc_set_firmware r.set_firmware none s1).2
      let s3 := (pruss_cfg_set_gpmux r.set_gpmux s2.pru.gpmux_save s2).2
      let s4 := { s3 with pru := { s3.pru with client_np := none } }
      put_device s4

/-- The loop `for (i = 0; i < dt_irqs; i += 4)` of `pru_rproc_get` over the
cells `arr[i] .. arr[i + 3]`; `dt_irqs` is a multiple of 4 when the loop runs.
The tests `arr[..] < 0` are on u32 values and never fire.  The result is the
return code (0, or `-EINVAL` at the first bad tuple) and the table as written
so far. -/
def pru_rproc_get_irq_loop (L : pruss_limits) (index : Int) :
    List Nat → pruss_intc_config → Int × pruss_intc_config
  | a :: e :: c :: h :: rest, cfg =>
    if a ≠ Int.toNat (index % 4294967296) then pru_rproc_get_irq_loop L index rest cfg
    else if e ≥ L.MAX_PRU_SYS_EVENTS then (-EINVAL, cfg)
    else if c ≥ L.MAX_PRU_CHANNELS then (-EINVAL, cfg)
    else if h ≥ L.MAX_PRU_HOST_INT then (-EINVAL, cfg)
    else
      let cfg1 := { cfg with sysev_to_ch := cfg.sysev_to_ch.set e (c : Int) }
      let cfg2 := { cfg1 with ch_to_host := cfg1.ch_to_host.set c (h : Int) }
      pru_rproc_get_irq_loop L index rest cfg2
  | _, cfg => (0, cfg)

/-- The table with every slot unmapped, as written by the two initialising
loops. -/
def intc_config_unmapped (L : pruss_limits) : pruss_intc_config :=
  { sysev_to_ch := List.replicate L.MAX_PRU_SYS_EVENTS (-1),
    ch_to_host := List.replicate L.MAX_PRU_CHANNELS (-1) }

/-- The part of `pru_rproc_get` that handles a present "ti,pru-interrupt-map"
property with cells `arr`.  Returns the code `ret` (non-zero: the C code jumps
to `err`/`err_irq`) and the state reached. -/
def pru_rproc_get_irq_config (L : pruss_limits) (r : get_rets) (index : Int)
    (arr : List Nat) (s : pru_state) : Int × pru_state :=
  let dt_irqs := of_property_count_u32_elems arr
  if dt_irqs ≤ 0 ∨ dt_irqs.toNat &&& 3 ≠ 0 then (-EINVAL, s)
  else if !r.kmalloc_ok then (-ENOMEM, s)
  else if r.read_u32_array ≠ 0 then (r.read_u32_array, s)
  else
    let built := pru_rproc_get_irq_loop L index arr (intc_config_unmapped L)
    let s1 := { s with pru := { s.pru with intc_config := built.2 } }
    if built.1 ≠ 0 then (built.1, s1)
    else
      let s2 := { s1 with pru := { s1.pru with dt_irqs := dt_irqs } }
      pruss_intc_configure r.intc_configure s2.pru.intc_config s2

/-- The body of `pru_rproc_get` after ownership has been recorded, up to the
labels.  Returns the code `ret` (non-zero: jump to `err`) and the state. -/
def pru_rproc_get_body (L : pruss_limits) (r : get_rets) (np : device_node)
    (index : Int) (s : pru_state) : Int × pru_state :=
  let g := pruss_cfg_get_gpmux r.get_gpmux s
  if g.1 ≠ 0 then g
  else
    let m := match of_property_read_u32_index np.gp_mux_sel index with
      | some mux => pruss_cfg_set_gpmux r.set_gpmux mux g.2
      | none => (0, g.2)
    if m.1 ≠ 0 then m
    else
      let f := match of_property_read_string_index np.firmware_name index with
        | some fw_name => pru_rproc_set_firmware r.set_firmware (some fw_name) m.2
        | none => (0, m.2)
      if f.1 ≠ 0 then f
      else
        match np.interrupt_map with
        | none => (0, f.2)
        | some arr => pru_rproc_get_irq_config L r index arr f.2

/-- `pru_rproc_get`: acquire the core for the client node `np`.  The result is
the handle (`ok`) or `ERR_PTR(e)` (`error e`), with the state left behind. -/
def pru_rproc_get (L : pruss_limits) (r : get_rets) (np : device_node)
    (index : Int) (s : pru_state) : Except Int Unit × pru_state :=
  match __pru_rproc_get np index s with
  | (.error e, s0) => (.error e, s0)
  | (.ok _, s0) =>
    match s0.pru.client_np with
    | some _ => (.error (-EBUSY), put_device s0)
    | none =>
      let s1 := { s0 with pru := { s0.pru with client_np := some np.addr } }
      let b := pru_rproc_get_body L r np index s1
      if b.1 ≠ 0 then (.error b.1, pru_rproc_put r.put b.2)
      else (.ok (), b.2)

/-! ## Address translator -/

/-- The memory a translated address points into: the instruction RAM of the
core (`pru->mem_regions[PRU_MEM_IRAM]`) or one of the PRUSS data memories
(`pruss->mem_regions[PRUSS_MEM_DRAM0 / DRAM1 / SHRD_RAM2]`). -/
inductive mem_target where
  | IRAM
  | DRAM0
  | DRAM1
  | SHRD_RAM2
deriving DecidableEq, Repr

/-- The sum `da + len` of a `u32` and an `int`, computed in `u32`. -/
def u32_add_int (da : Nat) (len : Int) : Nat :=
  Int.toNat (((da : Int) + len) % 4294967296)

/-- The sum `base + size` of a `u32` and a `size_t`.  The SoCs the driver
matches (`ti,am3356-pru`, `ti,am4376-pru`, `ti,am5728-pru`, `ti,k2g-pru`) are
32-bit, so the sum is computed modulo 2^32. -/
def region_end (base size : Nat) : Nat :=
  (base + size) % 4294967296

/-- `pru_d_da_to_va`: translate a data-space device address.  The result is
the memory and the offset added to its mapped base, `none` for NULL. -/
def pru_d_da_to_va (pru : pru_rproc) (pruss : pruss) (da : Nat) (len : Int) :
    Option (mem_target × Nat) :=
  if len ≤ 0 then none
  else
    let dram0 := (mem_target.DRAM0, pruss.mem_dram0)
    let dram1 := (mem_target.DRAM1, pruss.mem_dram1)
    let banks := if pru.id = 1 then (dram1, dram0) else (dram0, dram1)
    let shrd_ram := (mem_target.SHRD_RAM2, pruss.mem_shrd_ram2)
    if da ≥ pru.pdram_da ∧ u32_add_int da len ≤ region_end pru.pdram_da banks.1.2.size then
      some (banks.1.1, da - pru.pdram_da)
    else if da ≥ pru.sdram_da ∧ u32_add_int da len ≤ region_end pru.sdram_da banks.2.2.size then
      some (banks.2.1, da - pru.sdram_da)
    else if da ≥ pru.shrdram_da ∧
        u32_add_int da len ≤ region_end pru.shrdram_da shrd_ram.2.size then
      some (shrd_ram.1, da - pru.shrdram_da)
    else none

/-- `pru_i_da_to_va`: translate an instruction-space device address;
`da &= ~0xf0000000u` keeps the low 28 bits. -/
def pru_i_da_to_va (pru : pru_rproc) (da : Nat) (len : Int) : Option (mem_target × Nat) :=
  let da1 := da &&& 0x0fffffff
  if len ≤ 0 then none
  else if da1 ≥ pru.iram_da ∧
      u32_add_int da1 len ≤ region_end pru.iram_da (pru.mem_regions PRU_MEM_IRAM).size then
    some (mem_target.IRAM, da1 - pru.iram_da)
  else none

/-- Modelled from the spec: the flag bits of `remoteproc.h` and `elf.h` that
`pru_da_to_va` tests. -/
structure da_flag_bits where
  RPROC_FLAGS_ELF_SHDR : Nat
  RPROC_FLAGS_ELF_PHDR : Nat
  SHF_EXECINSTR : Nat
  PF_X : Nat
deriving DecidableEq, Repr

/-- `pru_da_to_va`: the translator handed to the remoteproc core; the `u64`
address is narrowed to `u32` at the calls. -/
def pru_da_to_va (F : da_flag_bits) (pru : pru_rproc) (pruss : pruss) (da : Nat)
    (len : Int) (flags : Nat) : Option (mem_target × Nat) :=
  let exec_flag :=
    if flags &&& F.RPROC_FLAGS_ELF_SHDR ≠ 0 then flags &&& F.SHF_EXECINSTR
    else if flags &&& F.RPROC_FLAGS_ELF_PHDR ≠ 0 then flags &&& F.PF_X
    else 0
  if exec_flag ≠ 0 then pru_i_da_to_va pru (da % 4294967296) len
  else pru_d_da_to_va pru pruss (da % 4294967296) len

/-! ## Core identity -/

/-- Modelled from the spec: members of `enum pruss_pru_id` (`pruss.h`). -/
def PRUSS_PRU0 : Int := 0
def PRUSS_PRU1 : Int := 1

/-- `pru_rproc_set_id`: derive the identity from `pru->mem_regions[0].pa`.
Returns the code and the core. -/
def pru_rproc_set_id (pru : pru_rproc) : Int × pru_rproc :=
  let mask1 := 0x34000
  let mask2 := 0x38000
  if (pru.mem_regions 0).pa &&& mask1 = mask1 then (0, { pru with id := PRUSS_PRU0 })
  else if (pru.mem_regions 0).pa &&& mask2 = mask2 then (0, { pru with id := PRUSS_PRU1 })
  else (-EINVAL, pru)

/-! ## Control registers, constant table -/

/-- PRU_ICSS_PRU_CTRL register offsets and the run-enable bit `BIT(1)`. -/
def PRU_CTRL_CTRL : Nat := 0x0000
def PRU_CTRL_CTBIR0 : Nat := 0x0020
def CTRL_CTRL_EN : Nat := 2

/-- A call the driver makes into a collaborator whose effect lies outside the
core: raising a trigger line, sending a mailbox message, installing or
removing the vring interrupt handler, committing or tearing down a routing
table in the interrupt controller. -/
inductive collab_call where
  | intc_trigger (irq : Int)
  | mbox_send (msg : Int)
  | request_irq (irq : Int)
  | free_irq (irq : Int)
  | intc_configure (cfg : pruss_intc_config)
  | intc_unconfigure (cfg : pruss_intc_config)
deriving DecidableEq, Repr

/-- The core with what the lifecycle operations read and write besides
`pru_state`: the control register file behind `mem_regions[PRU_MEM_CTRL].va`
(byte offset to value), `rproc->bootaddr`, the number of entries of
`rproc->rvdevs`, and whether the vring interrupt handler is installed. -/
structure pru_machine where
  core : pru_state
  ctrl : Nat → Nat
  bootaddr : Nat
  rvdevs : Nat
  vring_handler : Bool

/-- `pru_control_read_reg`: `readl_relaxed` yields a `u32`. -/
def pru_control_read_reg (m : pru_machine) (reg : Nat) : Nat :=
  m.ctrl reg % 4294967296

/-- `pru_control_write_reg`: `writel_relaxed` of a `u32`. -/
def pru_control_write_reg (m : pru_machine) (reg : Nat) (val : Nat) : pru_machine :=
  { m with ctrl := fun r => if r = reg then val % 4294967296 else m.ctrl r }

/-- `pru_control_set_reg`: read, `val &= ~mask`, `val |= (set & mask)`, write
(under the register lock). -/
def pru_control_set_reg (m : pru_machine) (reg : Nat) (mask set : Nat) : pru_machine :=
  let val := pru_control_read_reg m reg
  let val1 := val &&& (0xFFFFFFFF ^^^ mask)
  let val2 := val1 ||| (set &&& mask)
  pru_control_write_reg m reg val2

/-- `pru_rproc_set_ctable`.  The boundary `PRU_C28` of `enum pru_ctable_idx`
(`pru_rproc.h`, not among the sources) is a parameter; `idx` and `idx_mask` are
`u16`, `reg`, `mask` and `set` are 32 bits wide. -/
def pru_rproc_set_ctable (PRU_C28 : Nat) (m : pru_machine) (c : Nat) (addr : Nat) :
    Int × pru_machine :=
  let idx_mask := if c ≥ PRU_C28 then 0xFFFF else 0xFF
  let idx := (addr >>> 8) &&& idx_mask
  let reg := (PRU_CTRL_CTBIR0 + 4 * (c >>> 1)) % 4294967296
  let mask := (idx_mask <<< (16 * (c &&& 1))) % 4294967296
  let set := (idx <<< (16 * (c &&& 1))) % 4294967296
  (0, pru_control_set_reg m reg mask set)

/-! ## Kick dispatcher and lifecycle -/

/-- `pru_rproc_kick`.  `_ret` is the return code of the notification call
made (`pruss_intc_trigger` or `mbox_send_message`); a negative code is only
logged.  The result is the state and the calls made. -/
def pru_rproc_kick (_ret : Int) (m : pru_machine) (vq_id : Int) :
    pru_machine × List collab_call :=
  if m.core.pru.irq_kick > 0 then (m, [collab_call.intc_trigger m.core.pru.irq_kick])
  else if m.core.pru.mbox then (m, [collab_call.mbox_send vq_id])
  else (m, [])

/-- The label `fail` of `pru_rproc_start`: tear the table down unless it came
from the device tree, return `ret`.  `calls` are the calls made before. -/
def pru_rproc_start_fail (ret : Int) (calls : List collab_call) (m : pru_machine) :
    Int × pru_machine × List collab_call :=
  if m.core.pru.dt_irqs = 0 then
    (ret, { m with core := pruss_intc_unconfigure m.core.pru.intc_config m.core },
      calls ++ [collab_call.intc_unconfigure m.core.pru.intc_config])
  else (ret, m, calls)

/-- The end of `pru_rproc_start`: `val = CTRL_CTRL_EN | ((bootaddr >> 2) << 16)`
in 32 bits, written to CTRL. -/
def pru_rproc_start_run (calls : List collab_call) (m : pru_machine) :
    Int × pru_machine × List collab_call :=
  let val := (CTRL_CTRL_EN ||| ((m.bootaddr >>> 2) <<< 16)) % 4294967296
  (0, pru_control_write_reg m PRU_CTRL_CTRL val, calls)

/-- `pru_rproc_start`.  `request_irq_ret` is the return code of
`request_threaded_irq` for the vring line.  The result is the return code, the
state and the calls made. -/
def pru_rproc_start (request_irq_ret : Int) (m : pru_machine) :
    Int × pru_machine × List collab_call :=
  if m.rvdevs ≠ 0 then
    if !m.core.pru.mbox && (decide (m.core.pru.irq_vring ≤ 0) ||
        decide (m.core.pru.irq_kick ≤ 0)) then
      pru_rproc_start_fail (-EINVAL) [] m
    else if !m.core.pru.mbox && decide (m.core.pru.irq_vring > 0) then
      if request_irq_ret ≠ 0 then
        pru_rproc_start_fail request_irq_ret
          [collab_call.request_irq m.core.pru.irq_vring] m
      else
        pru_rproc_start_run [collab_call.request_irq m.core.pru.irq_vring]
          { m with vring_handler := true }
    else pru_rproc_start_run [] m
  else pru_rproc_start_run [] m

/-- `pru_rproc_stop`: clear the run-enable bit, remove the vring handler,
undo the interrupt controller configuration unless it came from the device
tree. -/
def pru_rproc_stop (m : pru_machine) : Int × pru_machine × List collab_call :=
  let val := pru_control_read_reg m PRU_CTRL_CTRL
  let val1 := val &&& (0xFFFFFFFF ^^^ CTRL_CTRL_EN)
  let m1 := pru_control_write_reg m PRU_CTRL_CTRL val1
  let f := if m.rvdevs ≠ 0 && !m.core.pru.mbox && decide (m.core.pru.irq_vring > 0) then
      ({ m1 with vring_handler := false }, [collab_call.free_irq m.core.pru.irq_vring])
    else (m1, [])
  let u := if m.core.pru.dt_irqs = 0 then
      ({ f.1 with core := pruss_intc_unconfigure m.core.pru.intc_config f.1.core },
        [collab_call.intc_unconfigure m.core.pru.intc_config])
    else (f.1, [])
  (0, u.1, f.2 ++ u.2)

/-- The calls `pru_rproc_put` makes into the interrupt controller: the table
of the core is torn down when the core is owned and `dt_irqs` is non-zero. -/
def pru_rproc_put_calls (s : pru_state) : List collab_call :=
  if !s.rproc.parent_name_has_pru then []
  else
    match s.pru.client_np with
    | none => []
    | some _ =>
      if s.pru.dt_irqs ≠ 0 then [collab_call.intc_unconfigure s.pru.intc_config] else []

/-! ## Two calls of `pru_rproc_get` on one core -/

/-- The arguments of one call of `pru_rproc_get` with the return codes its
collaborators give it. -/
structure get_call where
  np : device_node
  index : Int
  rets : get_rets
deriving DecidableEq, Repr

/-- Program points of a call of `pru_rproc_get`, each in front of the named
line: the lookup, `mutex_lock(&pru->lock)`, the test `if (pru->client_np)`, the
unlock and `put_device` of the busy branch, `pru->client_np = np`, the unlock
after it, the configuration calls up to the labels, and at `err` the parts of
`pru_rproc_put` (its checks and configuration calls, `mutex_lock`,
`pru->client_np = NULL`, `mutex_unlock`, `put_device`) with the code to
return; finally the value returned. -/
inductive get_pc where
  | lookup
  | lock
  | test
  | busy_unlock
  | busy_put
  | set_owner
  | unlock
  | body
  | put_config (ret : Int)
  | put_lock (ret : Int)
  | put_clear (ret : Int)
  | put_unlock (ret : Int)
  | put_ref (ret : Int)
  | returned (r : Except Int Unit)
deriving DecidableEq, Repr

/-- One step of the call `q` made by thread `me`, from program point `pc`, on
the shared core `s` with `lock` the holder of `pru->lock`.  The result is
`none` when the thread cannot move: it waits for the lock, or it has returned.
The configuration calls between `mutex_unlock` and the labels are one step, and
so are the calls of `pru_rproc_put` in front of its `mutex_lock`. -/
def pru_rproc_get_step (L : pruss_limits) (q : get_call) (me : Bool) (pc : get_pc)
    (s : pru_state) (lock : Option Bool) : Option (get_pc × pru_state × Option Bool) :=
  match pc with
  | get_pc.lookup =>
    match __pru_rproc_get q.np q.index s with
    | (.error e, s0) => some (get_pc.returned (.error e), s0, lock)
    | (.ok _, s0) => some (get_pc.lock, s0, lock)
  | get_pc.lock =>
    match lock with
    | none => some (get_pc.test, s, some me)
    | some _ => none
  | get_pc.test =>
    match s.pru.client_np with
    | some _ => some (get_pc.busy_unlock, s, lock)
    | none => some (get_pc.set_owner, s, lock)
  | get_pc.busy_unlock => some (get_pc.busy_put, s, none)
  | get_pc.busy_put => some (get_pc.returned (.error (-EBUSY)), put_device s, lock)
  | get_pc.set_owner =>
    some (get_pc.unlock, { s with pru := { s.pru with client_np := some q.np.addr } }, lock)
  | get_pc.unlock => some (get_pc.body, s, none)
  | get_pc.body =>
    let b := pru_rproc_get_body L q.rets q.np q.index s
    if b.1 ≠ 0 then some (get_pc.put_config b.1, b.2, lock)
    else some (get_pc.returned (.ok ()), b.2, lock)
  | get_pc.put_config e =>
    if !s.rproc.parent_name_has_pru then some (get_pc.returned (.error e), s, lock)
    else
      match s.pru.client_np with
      | none => some (get_pc.returned (.error e), s, lock)
      | some _ =>
        let s1 := if s.pru.dt_irqs ≠ 0 then pruss_intc_unconfigure s.pru.intc_config s else s
        let s2 := (pru_rproc_set_firmware q.rets.put.set_firmware none s1).2
        let s3 := (pruss_cfg_set_gpmux q.rets.put.set_gpmux s2.pru.gpmux_save s2).2
        some (get_pc.put_lock e, s3, lock)
  | get_pc.put_lock e =>
    match lock with
    | none => some (get_pc.put_clear e, s, some me)
    | some _ => none
  | get_pc.put_clear e =>
    some (get_pc.put_unlock e, { s with pru := { s.pru with client_np := none } }, lock)
  | get_pc.put_unlock e => some (get_pc.put_ref e, s, none)
  | get_pc.put_ref e => some (get_pc.returned (.error e), put_device s, lock)
  | get_pc.returned _ => none

/-- Two calls of `pru_rproc_get` in progress on one core: the shared state,
the holder of `pru->lock` (`false`: the first call, `true`: the second), and
the program point of each call. -/
structure get_race where
  shared : pru_state
  lock : Option Bool
  pc_a : get_pc
  pc_b : get_pc
deriving DecidableEq, Repr

/-- The scheduler lets thread `t` run one step; a thread that cannot move
leaves everything as it is. -/
def get_race_step (L : pruss_limits) (qa qb : get_call) (t : Bool) (c : get_race) : get_race :=
  if t then
    match pru_rproc_get_step L qb true c.pc_b c.shared c.lock with
    | some (pc, s, l) => { c with shared := s, lock := l, pc_b := pc }
    | none => c
  else
    match pru_rproc_get_step L qa false c.pc_a c.shared c.lock with
    | some (pc, s, l) => { c with shared := s, lock := l, pc_a := pc }
    | none => c

/-- The interleaving given by a schedule: the list of the threads to run, one
step each. -/
def get_race_run (L : pruss_limits) (qa qb : get_call) : List Bool → get_race → get_race
  | [], c => c
  | t :: ts, c => get_race_run L qa qb ts (get_race_step L qa qb t c)

/-- Both calls in front of their first line, the lock free. -/
def get_race_init (s : pru_state) : get_race :=
  { shared := s, lock := none, pc_a := get_pc.lookup, pc_b := get_pc.lookup }

/-- The call has returned. -/
def get_pc.is_returned : get_pc → Bool
  | get_pc.returned _ => true
  | _ => false

/-- The call holds `pru->lock` at this program point. -/
def get_pc.holds_lock : get_pc → Bool
  | get_pc.test => true
  | get_pc.busy_unlock => true
  | get_pc.set_owner => true
  | get_pc.unlock => true
  | get_pc.put_clear _ => true
  | get_pc.put_unlock _ => true
  | _ => false

/-- The call has recorded itself as owner and has not cleared the record. -/
def get_pc.is_owner : get_pc → Bool
  | get_pc.unlock => true
  | get_pc.body => true
  | get_pc.put_config _ => true
  | get_pc.put_lock _ => true
  | get_pc.put_clear _ => true
  | get_pc.returned (.ok _) => true
  | _ => false

/-- An upper bound of the number of steps the call still takes. -/
def get_pc.steps_left : get_pc → Nat
  | get_pc.lookup => 11
  | get_pc.lock => 10
  | get_pc.test => 9
  | get_pc.set_owner => 8
  | get_pc.unlock => 7
  | get_pc.body => 6
  | get_pc.put_config _ => 5
  | get_pc.put_lock _ => 4
  | get_pc.put_clear _ => 3
  | get_pc.put_unlock _ => 2
  | get_pc.put_ref _ => 1
  | get_pc.busy_unlock => 2
  | get_pc.busy_put => 1
  | get_pc.returned _ => 0

/-- The call is between a successful lookup and its return. -/
def get_pc.in_progress : get_pc → Bool
  | get_pc.lookup => false
  | get_pc.returned _ => false
  | _ => true

/-- What holds of two calls in progress at every point of every interleaving:
the lock is held by the call that is between its `mutex_lock` and
`mutex_unlock`; the owner recorded in the core is the client of the call that
has recorded itself, and there is none when no call has; at most one call has
recorded itself, and none has while the other is about to record itself; the
core of a call in progress is a PRU. -/
def get_race_inv (qa qb : get_call) (c : get_race) : Prop :=
  (c.lock = some false ↔ c.pc_a.holds_lock = true) ∧
  (c.lock = some true ↔ c.pc_b.holds_lock = true) ∧
  (c.pc_a.is_owner = true → c.shared.pru.client_np = some qa.np.addr) ∧
  (c.pc_b.is_owner = true → c.shared.pru.client_np = some qb.np.addr) ∧
  (c.pc_a.is_owner = false → c.pc_b.is_owner = false → c.shared.pru.client_np = none) ∧
  (c.pc_a.is_owner = true → c.pc_b.is_owner = false) ∧
  (c.pc_a = get_pc.set_owner → c.pc_b.is_owner = false) ∧
  (c.pc_b = get_pc.set_owner → c.pc_a.is_owner = false) ∧
  (c.pc_a.in_progress = true → c.shared.rproc.parent_name_has_pru = true) ∧
  (c.pc_b.in_progress = true → c.shared.rproc.parent_name_has_pru = true)

/-- The call is on the busy branch: it has seen an owner at the test, or has
returned an error. -/
def get_pc.is_busy : get_pc → Bool
  | get_pc.busy_unlock => true
  | get_pc.busy_put => true
  | get_pc.returned (.error _) => true
  | _ => false

/-- The call is not at `err`, and has not returned an error other than
`-EBUSY`. -/
def get_pc.no_failure : get_pc → Bool
  | get_pc.put_config _ => false
  | get_pc.put_lock _ => false
  | get_pc.put_clear _ => false
  | get_pc.put_unlock _ => false
  | get_pc.put_ref _ => false
  | get_pc.returned (.error e) => decide (e = -EBUSY)
  | _ => true

/-- What holds in addition of two calls each of which locates the core and
has its configuration calls succeed: neither reaches `err`, and a call on the
busy branch has the other call as owner. -/
def get_race_inv_ok (c : get_race) : Prop :=
  c.shared.rproc.parent_name_has_pru = true ∧
  c.pc_a.no_failure = true ∧
  c.pc_b.no_failure = true ∧
  (c.pc_a.is_busy = true → c.pc_b.is_owner = true) ∧
  (c.pc_b.is_busy = true → c.pc_a.is_owner = true)

/-! ## Descriptor-form interrupt map -/

/-- Modelled from the spec: `struct pruss_event_chnl` of `pruss.h`, one
(system-event, channel) pair of two `s8`. -/
structure pruss_event_chnl where
  event : Int
  chnl : Int
deriving DecidableEq, Repr

/-- Modelled from the spec: the vendor resource `struct fw_rsc_vendor` with a
`struct fw_rsc_custom_intrmap` payload: resource type and version, number of
pairs, device address of the pair array, and the channel-to-host array of
`s8`, indexed by channel. -/
structure fw_rsc_vendor where
  st_type : Nat
  st_ver : Nat
  event_chnl_map_size : Int
  event_chnl_map : Nat
  chnl_host_intr_map : Nat → Int

/-- The first loop of `pru_handle_vendor_intrmap` over `event_chnl_map[i]`,
with `n` iterations left from index `i`.  Returns the code and the table as
written so far. -/
def pru_handle_vendor_intrmap_events (L : pruss_limits) (map : Nat → pruss_event_chnl) :
    Nat → Nat → pruss_intc_config → Int × pruss_intc_config
  | 0, _, cfg => (0, cfg)
  | n + 1, i, cfg =>
    let sys_evt := (map i).event
    let chnl := (map i).chnl
    if sys_evt < 0 ∨ sys_evt ≥ (L.MAX_PRU_SYS_EVENTS : Int) then (-EINVAL, cfg)
    else if chnl < 0 ∨ chnl ≥ (L.MAX_PRU_CHANNELS : Int) then (-EINVAL, cfg)
    else
      pru_handle_vendor_intrmap_events L map n (i + 1)
        { cfg with sysev_to_ch := cfg.sysev_to_ch.set sys_evt.toNat chnl }

/-- The second loop of `pru_handle_vendor_intrmap` over the channels, with `n`
iterations left from channel `i`. -/
def pru_handle_vendor_intrmap_hosts (L : pruss_limits) (hmap : Nat → Int) :
    Nat → Nat → pruss_intc_config → Int × pruss_intc_config
  | 0, _, cfg => (0, cfg)
  | n + 1, i, cfg =>
    let intr_no := hmap i
    if intr_no < 0 then pru_handle_vendor_intrmap_hosts L hmap n (i + 1) cfg
    else if intr_no ≥ (L.MAX_PRU_HOST_INT : Int) then (-EINVAL, cfg)
    else
      pru_handle_vendor_intrmap_hosts L hmap n (i + 1)
        { cfg with ch_to_host := cfg.ch_to_host.set i intr_no }

/-- `pru_handle_vendor_intrmap`.  `dmem va i` is the pair `event_chnl_map[i]`
found in data memory at the translated address `va`; `configure_ret` is the
return code of `pruss_intc_configure`.  A pair occupies two bytes. -/
def pru_handle_vendor_intrmap (L : pruss_limits) (configure_ret : Int)
    (dmem : mem_target × Nat → Nat → pruss_event_chnl) (rsc : fw_rsc_vendor)
    (s : pru_state) : Int × pru_state × List collab_call :=
  if rsc.st_ver ≠ 0 then (-EINVAL, s, [])
  else if rsc.event_chnl_map_size < 0 ∨
      rsc.event_chnl_map_size ≥ (L.MAX_PRU_SYS_EVENTS : Int) then (-EINVAL, s, [])
  else
    match pru_d_da_to_va s.pru s.pruss (rsc.event_chnl_map % 4294967296)
        (rsc.event_chnl_map_size * 2) with
    | none => (-EINVAL, s, [])
    | some va =>
      let ev := pru_handle_vendor_intrmap_events L (dmem va)
        rsc.event_chnl_map_size.toNat 0 (intc_config_unmapped L)
      if ev.1 ≠ 0 then (ev.1, { s with pru := { s.pru with intc_config := ev.2 } }, [])
      else
        let ho := pru_handle_vendor_intrmap_hosts L rsc.chnl_host_intr_map
          L.MAX_PRU_CHANNELS 0 ev.2
        if ho.1 ≠ 0 then (ho.1, { s with pru := { s.pru with intc_config := ho.2 } }, [])
        else
          let s1 := { s with pru := { s.pru with intc_config := ho.2 } }
          let c := pruss_intc_configure configure_ret ho.2 s1
          (c.1, c.2, [collab_call.intc_configure ho.2])

/-- `pru_rproc_handle_vendor_rsc`.  The resource type `PRUSS_RSC_INTRS`
(`pru_rproc.h`, not among the sources) is a parameter. -/
def pru_rproc_handle_vendor_rsc (L : pruss_limits) (PRUSS_RSC_INTRS : Nat)
    (configure_ret : Int) (dmem : mem_target × Nat → Nat → pruss_event_chnl)
    (rsc : fw_rsc_vendor) (s : pru_state) : Int × pru_state × List collab_call :=
  if rsc.st_type = PRUSS_RSC_INTRS then
    if s.pru.dt_irqs = 0 then pru_handle_vendor_intrmap L configure_ret dmem rsc s
    else (0, s, [])
  else (-EINVAL, s, [])

/-! ## Specification-side definitions -/

/-- One 4-tuple of the flat interrupt map. -/
structure irq_tuple where
  target : Nat
  sysev : Nat
  chnl : Nat
  host : Nat
deriving DecidableEq, Repr

/-- The flat list read as a sequence of 4-tuples. -/
def flat_tuples : List Nat → List irq_tuple
  | a :: e :: c :: h :: rest => ⟨a, e, c, h⟩ :: flat_tuples rest
  | _ => []

/-- The tuples whose target-index equals the requested index. -/
def consumed_tuples (index : Int) (arr : List Nat) : List irq_tuple :=
  (flat_tuples arr).filter (fun t => decide ((t.target : Int) = index))

/-- All three fields of a tuple lie within their bounds. -/
def irq_tuple.in_bounds (L : pruss_limits) (t : irq_tuple) : Bool :=
  decide (t.sysev < L.MAX_PRU_SYS_EVENTS) && decide (t.chnl < L.MAX_PRU_CHANNELS) &&
    decide (t.host < L.MAX_PRU_HOST_INT)

/-- The channel of the last tuple of `ts` naming system event `e`. -/
def last_channel_of (ts : List irq_tuple) (e : Nat) : Option Nat :=
  ((ts.filter (fun t => decide (t.sysev = e))).getLast?).map (fun t => t.chnl)

/-- The host interrupt of the last tuple of `ts` naming channel `c`. -/
def last_host_of (ts : List irq_tuple) (c : Nat) : Option Nat :=
  ((ts.filter (fun t => decide (t.chnl = c))).getLast?).map (fun t => t.host)

/-- A table slot: the mapped id, or `-1` for unmapped. -/
def slot_of : Option Nat → Int
  | some v => (v : Int)
  | none => -1

/-- The range `[da, da + len)` lies inside the window `[base, base + size)`,
in unbounded arithmetic. -/
def range_within (base size da : Nat) (len : Int) : Prop :=
  base ≤ da ∧ (da : Int) + len ≤ (base : Int) + (size : Int)

instance (base size da : Nat) (len : Int) : Decidable (range_within base size da len) := by
  unfold range_within; exact inferInstance

/-- The physical base matches a mask: every bit of the mask is set in it. -/
def matches_mask (pa mask : Nat) : Prop :=
  pa &&& mask = mask

instance (pa mask : Nat) : Decidable (matches_mask pa mask) := by
  unfold matches_mask; exact inferInstance

/-- The state `pru_rproc_get` has reached in front of the interrupt-map
property when the three collaborator calls before it succeeded: selector
saved, overrides of selector and firmware name applied where the client node
has them. -/
def state_before_irq_map (np : device_node) (index : Int) (s : pru_state) : pru_state :=
  { pru := { s.pru with gpmux_save := s.pruss.gpmux % 256 },
    pruss := { s.pruss with
      gpmux := (of_property_read_u32_index np.gp_mux_sel index).getD s.pruss.gpmux },
    rproc := { s.rproc with
      firmware :=
        (of_property_read_string_index np.firmware_name index).getD s.rproc.firmware } }

/-- The state right after `pru->client_np = np`, the core located. -/
def state_owned (np : device_node) (s : pru_state) : pru_state :=
  { get_device s with pru := { s.pru with client_np := some np.addr } }

/-- The state a successful `pru_rproc_get` leaves behind, as a function of the
state before the call: ownership recorded, selector saved, overrides applied,
and, when the client node has an interrupt map, the table built from it
installed in the core and committed to the controller. -/
def state_acquired (L : pruss_limits) (np : device_node) (index : Int) (s : pru_state) :
    pru_state :=
  let pre := state_before_irq_map np index (state_owned np s)
  match np.interrupt_map with
  | none => pre
  | some arr =>
    let table := (pru_rproc_get_irq_loop L index arr (intc_config_unmapped L)).2
    { pre with
      pru := { pre.pru with intc_config := table, dt_irqs := (arr.length : Int) },
      pruss := { pre.pruss with intc := some table } }

/-- The `n` pairs of a descriptor's list from index `i` on, in order. -/
def listed_pairs (map : Nat → pruss_event_chnl) (i n : Nat) : List pruss_event_chnl :=
  (List.range' i n).map map

/-- Both fields of a pair lie within their bounds. -/
def pruss_event_chnl.in_bounds (L : pruss_limits) (p : pruss_event_chnl) : Bool :=
  decide (0 ≤ p.event) && decide (p.event < (L.MAX_PRU_SYS_EVENTS : Int)) &&
    decide (0 ≤ p.chnl) && decide (p.chnl < (L.MAX_PRU_CHANNELS : Int))

/-- The channel of the last pair of `ps` listed for system event `e`. -/
def last_pair_channel (ps : List pruss_event_chnl) (e : Nat) : Option Int :=
  ((ps.filter (fun p => decide (p.event = (e : Int)))).getLast?).map (fun p => p.chnl)

/-- A table slot holding an `s8` id, or `-1` for unmapped. -/
def slot_int : Option Int → Int
  | some v => v
  | none => -1

/-- The first channel from `i` on, among `n`, whose host-interrupt entry is at
or above the bound; `i + n` when there is none. -/
def hosts_stop (L : pruss_limits) (hmap : Nat → Int) (i n : Nat) : Nat :=
  ((List.range' i n).find? (fun j => decide (hmap j ≥ (L.MAX_PRU_HOST_INT : Int)))).getD (i + n)

/-- The byte size of the memory a translated address points into. -/
def region_size (pru : pru_rproc) (ss : pruss) : mem_target → Nat
  | mem_target.IRAM => (pru.mem_regions PRU_MEM_IRAM).size
  | mem_target.DRAM0 => ss.mem_dram0.size
  | mem_target.DRAM1 => ss.mem_dram1.size
  | mem_target.SHRD_RAM2 => ss.mem_shrd_ram2.size

/-! ## Concrete instances used in the examples -/

/-- The cardinalities of the interrupt controller named in the spec. -/
def limits_spec : pruss_limits :=
  { MAX_PRU_SYS_EVENTS := 64, MAX_PRU_CHANNELS := 10, MAX_PRU_HOST_INT := 10 }

/-- A core with the device addresses written by probe (0, 0, 0x2000,
0x10000), instruction RAM at physical 0x4a334000 and no owner.  Its routing
table has every slot unmapped (`-1`), the content after a table reset; probe
itself does not write the table and leaves the zero-filled allocation. -/
def pru0_probed : pru_rproc :=
  { id := 0, client_np := none, mbox := false, irq_vring := 0, irq_kick := 0,
    mem_iram := { pa := 1244872704, size := 8192 },
    mem_ctrl := { pa := 1244798976, size := 88 },
    mem_debug := { pa := 1244800000, size := 204 },
    intc_config := intc_config_unmapped limits_spec,
    iram_da := 0, pdram_da := 0, sdram_da := 8192, shrdram_da := 65536,
    fw_name := "am335x-pru0-fw", gpmux_save := 0, dt_irqs := 0,
    dbg_single_step := 0, dbg_continuous := 0 }

/-- The PRUSS seen by the example core: 8 KiB data RAMs, 12 KiB shared RAM,
live signal-routing selector 3, nothing committed to the controller. -/
def pruss_example : pruss :=
  { mem_dram0 := { pa := 1244659712, size := 8192 },
    mem_dram1 := { pa := 1244667904, size := 8192 },
    mem_shrd_ram2 := { pa := 1244725248, size := 12288 },
    gpmux := 3, intc := none }

/-- The example core with its collaborators. -/
def state_example : pru_state :=
  { pru := pru0_probed, pruss := pruss_example,
    rproc := { firmware := "am335x-pru0-fw", dev_refs := 1, parent_name_has_pru := true } }

/-- Every collaborator call succeeds. -/
def rets_ok : get_rets :=
  { get_gpmux := 0, set_gpmux := 0, set_firmware := 0, kmalloc_ok := true,
    read_u32_array := 0, intc_configure := 0, put := { set_firmware := 0, set_gpmux := 0 } }

/-- A client node naming the core at index 0, with a signal-routing override
and a two-tuple interrupt map for index 0 and one tuple for index 1. -/
def client_example : device_node :=
  { addr := 4096, prus := [{ available := true, pdev := true, drvdata := true }],
    gp_mux_sel := [1], firmware_name := ["client-fw"],
    interrupt_map := some [0, 16, 2, 3, 1, 99, 99, 99, 0, 17, 2, 4] }

/-- A client node like `client_example` whose second tuple for index 0 names
system event 64, one past the last event. -/
def client_bad_event : device_node :=
  { addr := 4096, prus := [{ available := true, pdev := true, drvdata := true }],
    gp_mux_sel := [1], firmware_name := ["client-fw"],
    interrupt_map := some [0, 16, 2, 3, 0, 64, 0, 0] }

/-- A client node whose interrupt map has five cells. -/
def client_bad_length : device_node :=
  { addr := 4096, prus := [{ available := true, pdev := true, drvdata := true }],
    gp_mux_sel := [1], firmware_name := ["client-fw"],
    interrupt_map := some [0, 16, 2, 3, 0] }

/-- The example core while owned by the client at address 8192, with the
selector saved at acquisition being 3. -/
def state_owned_example : pru_state :=
  { state_example with
    pru := { pru0_probed with client_np := some 8192, gpmux_save := 3 } }

/-- As `rets_ok`, but the remoteproc core refuses the firmware name and the
release fails to write the selector back. -/
def rets_fw_fails_no_restore : get_rets :=
  { rets_ok with set_firmware := -EINVAL, put := { set_firmware := 0, set_gpmux := -EINVAL } }

/-- As `rets_ok`, but reading the selector fails. -/
def rets_read_fails : get_rets :=
  { rets_ok with get_gpmux := -EINVAL }

/-- The release fails to write the selector back. -/
def put_rets_no_restore : put_rets :=
  { set_firmware := 0, set_gpmux := -EINVAL }

/-- The example core as the second core of the pair. -/
def pru1_probed : pru_rproc :=
  { pru0_probed with id := 1, mem_iram := { pa := 1244889088, size := 8192 } }

/-- A core whose region 0 (instruction RAM) lies at physical 0x3C000, an
address with every bit of both masks set; its identity field holds 7. -/
def pru_both_masks : pru_rproc :=
  { pru0_probed with id := 7, mem_iram := { pa := 0x3C000, size := 8192 } }

/-- A core whose control region lies at physical 0x34000 while its region 0
(instruction RAM) lies at physical 0; its identity field holds 7. -/
def pru_ctrl_at_mask : pru_rproc :=
  { pru0_probed with
    id := 7
    mem_iram := { pa := 0, size := 8192 }
    mem_ctrl := { pa := 0x34000, size := 88 } }

/-- The example core with a control register file in which CTRL holds
0x0000800B (running, enabled), the register at 0x34 holds 0xABCD5678, the one
at 0x5C holds 0xFFFFFFFF and the others 0; one virtio device, entry point
0x100. -/
def machine_example : pru_machine :=
  { core := state_example,
    ctrl := fun r =>
      if r = 0 then 0x0000800B else if r = 0x34 then 0xABCD5678
      else if r = 0x5C then 0xFFFFFFFF else 0,
    bootaddr := 0x100, rvdevs := 1, vring_handler := false }

/-- The example machine with vring line 50 and kick line 51 configured. -/
def machine_irq_lines : pru_machine :=
  { machine_example with
    core := { state_example with
      pru := { pru0_probed with irq_vring := 50, irq_kick := 51 } } }

/-- The example machine with a mailbox channel and no interrupt lines. -/
def machine_mbox : pru_machine :=
  { machine_example with
    core := { state_example with pru := { pru0_probed with mbox := true } } }

/-- The example machine stopped: CTRL holds 0x00008009. -/
def machine_stopped : pru_machine :=
  { machine_example with ctrl := fun r => if r = 0 then 0x00008009 else 0 }

/-- Data memory in which every pair array reads (16, 2), (17, 2) and then
(0, 0). -/
def dmem_example : mem_target × Nat → Nat → pruss_event_chnl :=
  fun _ i => if i = 0 then ⟨16, 2⟩ else if i = 1 then ⟨17, 2⟩ else ⟨0, 0⟩

/-- Data memory in which every pair array reads (16, 2) and then (64, 0):
system event 64 is one past the last event. -/
def dmem_bad_event : mem_target × Nat → Nat → pruss_event_chnl :=
  fun _ i => if i = 0 then ⟨16, 2⟩ else ⟨64, 0⟩

/-- A version-0 interrupt-map resource (type 1) with two pairs at device
address 0x100 and channel 2 routed to host interrupt 4. -/
def rsc_example : fw_rsc_vendor :=
  { st_type := 1, st_ver := 0, event_chnl_map_size := 2, event_chnl_map := 256,
    chnl_host_intr_map := fun c => if c = 2 then 4 else -1 }

/-- The same resource tagged with version 1. -/
def rsc_version_one : fw_rsc_vendor :=
  { rsc_example with st_ver := 1 }

/-- The example core after the example client has acquired it: owned,
`dt_irqs = 12`, the flat-list table installed and committed. -/
def state_flat_installed : pru_state :=
  (pru_rproc_get limits_spec rets_ok client_example 0 state_example).2

/-- The example machine around `state_flat_installed`, with both interrupt
lines configured. -/
def machine_flat_installed : pru_machine :=
  { machine_example with
    core := { state_flat_installed with
      pru := { state_flat_installed.pru with irq_vring := 50, irq_kick := 51 } } }

/-- A client node at address 8192 naming the core at index 0, without
overrides and without an interrupt map. -/
def client_no_map : device_node :=
  { addr := 8192, prus := [{ available := true, pdev := true, drvdata := true }],
    gp_mux_sel := [], firmware_name := [], interrupt_map := none }

/-- The core after the example client, which had installed its flat-list
table, has released it. -/
def state_flat_released : pru_state :=
  pru_rproc_put rets_ok.put state_flat_installed

/-- The released core acquired by the client that has no interrupt map. -/
def state_second_owner : pru_state :=
  (pru_rproc_get limits_spec rets_ok client_no_map 0 state_flat_released).2

/-- As `rets_ok`, but the interrupt controller refuses the table. -/
def rets_commit_refused : get_rets :=
  { rets_ok with intc_configure := -EINVAL }

/-- The example machine without virtio devices. -/
def machine_no_devices : pru_machine :=
  { machine_example with rvdevs := 0 }

/-- The example core after the example descriptor has been committed. -/
def state_descriptor_installed : pru_state :=
  (pru_rproc_handle_vendor_rsc limits_spec 1 0 dmem_example rsc_example state_example).2.1

/-- The core of `state_descriptor_installed` after a second descriptor, the
one with the bad second pair, has been refused. -/
def state_descriptor_refused : pru_state :=
  (pru_rproc_handle_vendor_rsc limits_spec 1 0 dmem_bad_event rsc_example
    state_descriptor_installed).2.1

/-- The example resource with 64 pairs announced, one more than the largest
count accepted. -/
def rsc_count_out_of_range : fw_rsc_vendor :=
  { rsc_example with event_chnl_map_size := 64 }

/-- The example resource with its pair array at device address 0x20000,
which lies in none of the three data windows. -/
def rsc_unresolvable : fw_rsc_vendor :=
  { rsc_example with event_chnl_map := 0x20000 }

/-- The example machine without virtio devices, its core owned by the client
at 8192 with no flat list (`dt_irqs = 0`) and the example descriptor
committed. -/
def machine_owned_descriptor : pru_machine :=
  { machine_no_devices with
    core := (pru_rproc_handle_vendor_rsc limits_spec 1 0 dmem_example rsc_example
      state_owned_example).2.1 }

/-- The call of the example client with the bad second tuple for index 0,
every collaborator call succeeding. -/
def call_bad_event : get_call :=
  { np := client_bad_event, index := 0, rets := rets_ok }

/-- The call of the example client for index 0, every collaborator call
succeeding. -/
def call_example : get_call :=
  { np := client_example, index := 0, rets := rets_ok }

/-- The call of the client at 8192 for index 0, every collaborator call
succeeding. -/
def call_no_map : get_call :=
  { np := client_no_map, index := 0, rets := rets_ok }

/-! ## Theorems -/

theorem getLast?_filter_cons {α : Type} (p : α → Bool) (t : α) (ts : List α) :
    ((t :: ts).filter p).getLast? =
      match (ts.filter p).getLast? with
      | some x => some x
      | none => if p t then some t else none := by
  cases hp : p t
  · simp only [List.filter_cons, hp, Bool.false_eq_true, if_false]
    cases (ts.filter p).getLast? <;> rfl
  · simp only [List.filter_cons, hp, if_true]
    cases hl : ts.filter p with
    | nil => rfl
    | cons x l =>
      rw [List.getLast?_cons_cons]
      cases h2 : (x :: l).getLast? with
      | none => simp at h2
      | some y => rfl

theorem last_channel_of_cons (t : irq_tuple) (ts : List irq_tuple) (e : Nat) :
    last_channel_of (t :: ts) e =
      match last_channel_of ts e with
      | some c => some c
      | none => if t.sysev = e then some t.chnl else none := by
  unfold last_channel_of
  rw [getLast?_filter_cons]
  cases (ts.filter (fun t => decide (t.sysev = e))).getLast? with
  | some x => rfl
  | none =>
    by_cases h : t.sysev = e <;> simp [h]

theorem last_host_of_cons (t : irq_tuple) (ts : List irq_tuple) (c : Nat) :
    last_host_of (t :: ts) c =
      match last_host_of ts c with
      | some h => some h
      | none => if t.chnl = c then some t.host else none := by
  unfold last_host_of
  rw [getLast?_filter_cons]
  cases (ts.filter (fun t => decide (t.chnl = c))).getLast? with
  | some x => rfl
  | none =>
    by_cases h : t.chnl = c <;> simp [h]

theorem target_matches_iff (index : Int) (h0 : 0 ≤ index) (h1 : index < 4294967296) (a : Nat) :
    a = Int.toNat (index % 4294967296) ↔ (a : Int) = index := by
  rw [Int.emod_eq_of_lt h0 h1]
  omega

theorem consumed_tuples_cons_match (index : Int) (a e c h : Nat) (rest : List Nat)
    (hm : (a : Int) = index) :
    consumed_tuples index (a :: e :: c :: h :: rest) =
      ⟨a, e, c, h⟩ :: consumed_tuples index rest := by
  simp [consumed_tuples, flat_tuples, List.filter_cons, hm]

theorem consumed_tuples_cons_skip (index : Int) (a e c h : Nat) (rest : List Nat)
    (hm : ¬ (a : Int) = index) :
    consumed_tuples index (a :: e :: c :: h :: rest) = consumed_tuples index rest := by
  simp [consumed_tuples, flat_tuples, List.filter_cons, hm]

theorem consumed_tuples_short (index : Int) (t : List Nat)
    (ht : ∀ (a e c h : Nat) (rest : List Nat), t = a :: e :: c :: h :: rest → False) :
    consumed_tuples index t = [] := by
  unfold consumed_tuples
  rw [flat_tuples]
  · rfl
  · exact ht

/-- The table the loop leaves behind, slot by slot, and its return code. -/
theorem irq_loop_spec (L : pruss_limits) (index : Int) (h0 : 0 ≤ index)
    (h1 : index < 4294967296) :
    ∀ (arr : List Nat) (cfg : pruss_intc_config),
      cfg.sysev_to_ch.length = L.MAX_PRU_SYS_EVENTS →
      cfg.ch_to_host.length = L.MAX_PRU_CHANNELS →
      ((pru_rproc_get_irq_loop L index arr cfg).1 =
          if (consumed_tuples index arr).all (irq_tuple.in_bounds L) then 0 else -EINVAL) ∧
      (pru_rproc_get_irq_loop L index arr cfg).2.sysev_to_ch.length = L.MAX_PRU_SYS_EVENTS ∧
      (pru_rproc_get_irq_loop L index arr cfg).2.ch_to_host.length = L.MAX_PRU_CHANNELS ∧
      (∀ e, (pru_rproc_get_irq_loop L index arr cfg).2.sysev_to_ch[e]? =
          match last_channel_of
              ((consumed_tuples index arr).takeWhile (irq_tuple.in_bounds L)) e with
          | some c => some (c : Int)
          | none => cfg.sysev_to_ch[e]?) ∧
      (∀ c, (pru_rproc_get_irq_loop L index arr cfg).2.ch_to_host[c]? =
          match last_host_of
              ((consumed_tuples index arr).takeWhile (irq_tuple.in_bounds L)) c with
          | some h => some (h : Int)
          | none => cfg.ch_to_host[c]?) := by
  intro arr
  induction arr using flat_tuples.induct with
  | case1 a e c h rest ih =>
    intro cfg hs hc
    by_cases hm : (a : Int) = index
    · have hm2 : a = Int.toNat (index % 4294967296) := (target_matches_iff index h0 h1 a).2 hm
      rw [consumed_tuples_cons_match index a e c h rest hm]
      by_cases hb : irq_tuple.in_bounds L ⟨a, e, c, h⟩ = true
      · have hb2 := hb
        simp only [irq_tuple.in_bounds, Bool.and_eq_true, decide_eq_true_eq] at hb2
        obtain ⟨⟨he, hc2⟩, hh⟩ := hb2
        have hloop : pru_rproc_get_irq_loop L index (a :: e :: c :: h :: rest) cfg =
            pru_rproc_get_irq_loop L index rest
              { sysev_to_ch := cfg.sysev_to_ch.set e (c : Int),
                ch_to_host := cfg.ch_to_host.set c (h : Int) } := by
          rw [pru_rproc_get_irq_loop]
          simp [← hm2, Nat.not_le.2 he, Nat.not_le.2 hc2, Nat.not_le.2 hh]
        rw [hloop]
        obtain ⟨i1, i2, i3, i4, i5⟩ := ih
          { sysev_to_ch := cfg.sysev_to_ch.set e (c : Int),
            ch_to_host := cfg.ch_to_host.set c (h : Int) } (by simpa using hs) (by simpa using hc)
        refine ⟨?_, i2, i3, ?_, ?_⟩
        · rw [i1]; simp [List.all_cons, hb]
        · intro e2
          rw [i4 e2, List.takeWhile_cons, if_pos hb, last_channel_of_cons]
          cases last_channel_of
              ((consumed_tuples index rest).takeWhile (irq_tuple.in_bounds L)) e2 with
          | some x => rfl
          | none =>
            by_cases hee : e = e2
            · subst hee
              simp [List.getElem?_set, hs, he]
            · simp [List.getElem?_set, hee]
        · intro c3
          rw [i5 c3, List.takeWhile_cons, if_pos hb, last_host_of_cons]
          cases last_host_of
              ((consumed_tuples index rest).takeWhile (irq_tuple.in_bounds L)) c3 with
          | some x => rfl
          | none =>
            by_cases hcc : c = c3
            · subst hcc
              simp [List.getElem?_set, hc, hc2]
            · simp [List.getElem?_set, hcc]
      · have hloop : pru_rproc_get_irq_loop L index (a :: e :: c :: h :: rest) cfg =
            (-EINVAL, cfg) := by
          rw [pru_rproc_get_irq_loop]
          simp only [irq_tuple.in_bounds, Bool.and_eq_true, decide_eq_true_eq] at hb
          by_cases he : e ≥ L.MAX_PRU_SYS_EVENTS
          · simp [← hm2, he]
          · by_cases hc2 : c ≥ L.MAX_PRU_CHANNELS
            · simp [← hm2, he, hc2]
            · have hh : h ≥ L.MAX_PRU_HOST_INT := by
                by_contra hcon
                exact hb ⟨⟨Nat.not_le.1 he, Nat.not_le.1 hc2⟩, Nat.not_le.1 hcon⟩
              simp [← hm2, he, hc2, hh]
        rw [hloop]
        refine ⟨?_, hs, hc, ?_, ?_⟩
        · simp [List.all_cons, hb]
        · intro e2
          rw [List.takeWhile_cons, if_neg hb]
          rfl
        · intro c3
          rw [List.takeWhile_cons, if_neg hb]
          rfl
    · have hm2 : a ≠ Int.toNat (index % 4294967296) := fun hx =>
        hm ((target_matches_iff index h0 h1 a).1 hx)
      rw [consumed_tuples_cons_skip index a e c h rest hm]
      have hloop : pru_rproc_get_irq_loop L index (a :: e :: c :: h :: rest) cfg =
          pru_rproc_get_irq_loop L index rest cfg := by
        rw [pru_rproc_get_irq_loop]
        simp [hm2]
      rw [hloop]
      exact ih cfg hs hc
  | case2 t ht =>
    intro cfg hs hc
    have hloop : pru_rproc_get_irq_loop L index t cfg = (0, cfg) := by
      rw [pru_rproc_get_irq_loop]
      exact ht
    rw [hloop, consumed_tuples_short index t ht]
    refine ⟨by simp, hs, hc, ?_, ?_⟩
    · intro e; rfl
    · intro c; rfl

theorem lookup_ok_facts (np : device_node) (index : Int) (s : pru_state)
    (h : (__pru_rproc_get np index s).1 = .ok ()) :
    0 ≤ index ∧ s.rproc.parent_name_has_pru = true ∧
      __pru_rproc_get np index s = (.ok (), get_device s) := by
  unfold __pru_rproc_get at h ⊢
  unfold of_parse_phandle at h ⊢
  by_cases hi : index < 0
  · simp [hi] at h
  · simp only [hi, if_false] at h ⊢
    cases he : np.prus[index.toNat]? with
    | none => simp [he] at h
    | some ent =>
      simp only [he] at h ⊢
      split_ifs at h ⊢ with h1 h2 h3 h4
      all_goals first
        | (simp at h; done)
        | (refine ⟨by omega, ?_, rfl⟩; simpa using h3)

theorem get_unowned_eq (L : pruss_limits) (r : get_rets) (np : device_node) (index : Int)
    (s : pru_state) (hl : (__pru_rproc_get np index s).1 = .ok ())
    (hf : s.pru.client_np = none) :
    pru_rproc_get L r np index s =
      (if (pru_rproc_get_body L r np index (state_owned np s)).1 ≠ 0 then
        (.error (pru_rproc_get_body L r np index (state_owned np s)).1,
          pru_rproc_put r.put (pru_rproc_get_body L r np index (state_owned np s)).2)
      else (.ok (), (pru_rproc_get_body L r np index (state_owned np s)).2)) := by
  obtain ⟨_, _, he⟩ := lookup_ok_facts np index s hl
  unfold pru_rproc_get
  rw [he]
  simp [get_device, hf, state_owned]

theorem body_reaches_irq_map (L : pruss_limits) (r : get_rets) (np : device_node)
    (index : Int) (s : pru_state) (hget : r.get_gpmux = 0)
    (hmux : (of_property_read_u32_index np.gp_mux_sel index).isSome → r.set_gpmux = 0)
    (hfw : (of_property_read_string_index np.firmware_name index).isSome →
      r.set_firmware = 0) :
    pru_rproc_get_body L r np index s =
      match np.interrupt_map with
      | none => (0, state_before_irq_map np index s)
      | some arr => pru_rproc_get_irq_config L r index arr (state_before_irq_map np index s) := by
  unfold pru_rproc_get_body state_before_irq_map
  cases hm : of_property_read_u32_index np.gp_mux_sel index with
  | none =>
    cases hf : of_property_read_string_index np.firmware_name index with
    | none =>
      simp [pruss_cfg_get_gpmux, hget]
    | some fw =>
      have := hfw (by simp [hf])
      simp [pruss_cfg_get_gpmux, hget, pru_rproc_set_firmware, rproc_set_firmware, this]
  | some mux =>
    have h1 := hmux (by simp [hm])
    cases hf : of_property_read_string_index np.firmware_name index with
    | none =>
      simp [pruss_cfg_get_gpmux, hget, pruss_cfg_set_gpmux, h1]
    | some fw =>
      have := hfw (by simp [hf])
      simp [pruss_cfg_get_gpmux, hget, pru_rproc_set_firmware, rproc_set_firmware, this,
        pruss_cfg_set_gpmux, h1]

theorem body_ok_early (L : pruss_limits) (r : get_rets) (np : device_node)
    (index : Int) (s : pru_state) (h : (pru_rproc_get_body L r np index s).1 = 0) :
    r.get_gpmux = 0 ∧
    ((of_property_read_u32_index np.gp_mux_sel index).isSome → r.set_gpmux = 0) ∧
    ((of_property_read_string_index np.firmware_name index).isSome → r.set_firmware = 0) := by
  unfold pru_rproc_get_body at h
  by_cases hget : r.get_gpmux = 0
  · refine ⟨hget, ?_, ?_⟩
    · intro hm
      by_contra hne
      obtain ⟨mux, hmux⟩ := Option.isSome_iff_exists.1 hm
      simp [pruss_cfg_get_gpmux, hget, hmux, pruss_cfg_set_gpmux, hne] at h
    · intro hf
      by_contra hne
      obtain ⟨fw, hfw⟩ := Option.isSome_iff_exists.1 hf
      cases hm : of_property_read_u32_index np.gp_mux_sel index with
      | none =>
        simp [pruss_cfg_get_gpmux, hget, hm, hfw, pru_rproc_set_firmware,
          rproc_set_firmware, hne] at h
      | some mux =>
        by_cases hs : r.set_gpmux = 0
        · simp [pruss_cfg_get_gpmux, hget, hm, hfw, pru_rproc_set_firmware,
            rproc_set_firmware, hne, pruss_cfg_set_gpmux, hs] at h
        · simp [pruss_cfg_get_gpmux, hget, hm, pruss_cfg_set_gpmux, hs] at h
  · simp [pruss_cfg_get_gpmux, hget] at h

theorem irq_config_bad_length (L : pruss_limits) (r : get_rets) (index : Int)
    (arr : List Nat) (s : pru_state) (h : arr.length = 0 ∨ arr.length % 4 ≠ 0) :
    pru_rproc_get_irq_config L r index arr s = (-EINVAL, s) := by
  unfold pru_rproc_get_irq_config of_property_count_u32_elems
  have h3 : (arr.length : Int).toNat &&& 3 = arr.length % 4 := by
    rw [Int.toNat_natCast]
    exact Nat.and_pow_two_sub_one_eq_mod arr.length 2
  simp only [h3]
  rw [if_pos]
  rcases h with h | h
  · left; omega
  · right; exact h

theorem irq_config_good_length (L : pruss_limits) (r : get_rets) (index : Int)
    (arr : List Nat) (s : pru_state) (hlen : 0 < arr.length) (h4 : arr.length % 4 = 0)
    (hmem : r.kmalloc_ok = true) (hread : r.read_u32_array = 0) :
    pru_rproc_get_irq_config L r index arr s =
      if (pru_rproc_get_irq_loop L index arr (intc_config_unmapped L)).1 ≠ 0 then
        ((pru_rproc_get_irq_loop L index arr (intc_config_unmapped L)).1,
          { s with pru := { s.pru with
              intc_config := (pru_rproc_get_irq_loop L index arr (intc_config_unmapped L)).2 } })
      else
        pruss_intc_configure r.intc_configure
          (pru_rproc_get_irq_loop L index arr (intc_config_unmapped L)).2
          { s with pru := { s.pru with
              intc_config := (pru_rproc_get_irq_loop L index arr (intc_config_unmapped L)).2,
              dt_irqs := (arr.length : Int) } } := by
  unfold pru_rproc_get_irq_config of_property_count_u32_elems
  have h3 : (arr.length : Int).toNat &&& 3 = arr.length % 4 := by
    rw [Int.toNat_natCast]
    exact Nat.and_pow_two_sub_one_eq_mod arr.length 2
  simp only [h3]
  rw [if_neg (by omega)]
  simp [hmem, hread]

theorem put_frame (p : put_rets) (s : pru_state) :
    (pru_rproc_put p s).pru.intc_config = s.pru.intc_config ∧
    (pru_rproc_put p s).pru.dt_irqs = s.pru.dt_irqs ∧
    (pru_rproc_put p s).pru.fw_name = s.pru.fw_name ∧
    (pru_rproc_put p s).pru.gpmux_save = s.pru.gpmux_save ∧
    (pru_rproc_put p s).rproc.parent_name_has_pru = s.rproc.parent_name_has_pru := by
  unfold pru_rproc_put
  cases hn : s.rproc.parent_name_has_pru
  · simp [hn]
  · cases hc : s.pru.client_np with
    | none => simp [hn]
    | some o =>
      simp only [pruss_intc_unconfigure, pru_rproc_set_firmware, rproc_set_firmware,
        pruss_cfg_set_gpmux, put_device]
      split_ifs <;> simp [hn]

theorem put_owned (p : put_rets) (s : pru_state) (o : Nat)
    (hn : s.rproc.parent_name_has_pru = true) (hc : s.pru.client_np = some o) :
    pru_rproc_put p s =
      { pru := { s.pru with client_np := none },
        pruss := { s.pruss with
          gpmux := if p.set_gpmux = 0 then s.pru.gpmux_save else s.pruss.gpmux,
          intc := if s.pru.dt_irqs ≠ 0 then none else s.pruss.intc },
        rproc := { s.rproc with
          firmware := if p.set_firmware = 0 then s.pru.fw_name else s.rproc.firmware,
          dev_refs := s.rproc.dev_refs - 1 } } := by
  unfold pru_rproc_put
  simp only [hn, hc, pruss_intc_unconfigure, pru_rproc_set_firmware, rproc_set_firmware,
    pruss_cfg_set_gpmux, put_device, Bool.not_true, Bool.false_eq_true, if_false]
  split_ifs <;> simp [hn]

theorem takeWhile_all {α : Type} (p : α → Bool) (l : List α) (h : l.all p = true) :
    l.takeWhile p = l := by
  induction l with
  | nil => rfl
  | cons x xs ih =>
    simp only [List.all_cons, Bool.and_eq_true] at h
    rw [List.takeWhile_cons, if_pos h.1, ih h.2]

/-- C1: for a flat interrupt map of positive length divisible by 4 whose tuples
addressed to the requested index are all within bounds, `pru_rproc_get` (core
located and unowned, collaborator calls before the map succeed, list
readable) leaves a table in which `sysev_to_ch[e]` is the channel of the last
consumed tuple naming `e`, `ch_to_host[c]` the host interrupt of the last
consumed tuple naming `c`, and every other slot is `-1`; tuples with another
target index do not enter.  If the controller accepts the table the call
succeeds and the controller holds exactly this table. -/
theorem pru_rproc_get_builds_specified_table (L : pruss_limits) (r : get_rets)
    (np : device_node) (index : Int) (s : pru_state) (arr : List Nat)
    (hidx : index < 2147483648)
    (hlookup : (__pru_rproc_get np index s).1 = .ok ())
    (hfree : s.pru.client_np = none)
    (hget : r.get_gpmux = 0)
    (hmux : (of_property_read_u32_index np.gp_mux_sel index).isSome → r.set_gpmux = 0)
    (hfw : (of_property_read_string_index np.firmware_name index).isSome →
      r.set_firmware = 0)
    (hmap : np.interrupt_map = some arr)
    (hmem : r.kmalloc_ok = true) (hread : r.read_u32_array = 0)
    (hlen : 0 < arr.length) (h4 : arr.length % 4 = 0)
    (hbound : ∀ t ∈ consumed_tuples index arr,
      t.sysev < L.MAX_PRU_SYS_EVENTS ∧ t.chnl < L.MAX_PRU_CHANNELS ∧
        t.host < L.MAX_PRU_HOST_INT) :
    (r.intc_configure = 0 →
      (pru_rproc_get L r np index s).1 = .ok () ∧
      (pru_rproc_get L r np index s).2.pruss.intc =
        some (pru_rproc_get L r np index s).2.pru.intc_config) ∧
    (pru_rproc_get L r np index s).2.pru.intc_config.sysev_to_ch.length =
      L.MAX_PRU_SYS_EVENTS ∧
    (pru_rproc_get L r np index s).2.pru.intc_config.ch_to_host.length =
      L.MAX_PRU_CHANNELS ∧
    (∀ e, e < L.MAX_PRU_SYS_EVENTS →
      (pru_rproc_get L r np index s).2.pru.intc_config.sysev_to_ch[e]? =
        some (slot_of (last_channel_of (consumed_tuples index arr) e))) ∧
    (∀ c, c < L.MAX_PRU_CHANNELS →
      (pru_rproc_get L r np index s).2.pru.intc_config.ch_to_host[c]? =
        some (slot_of (last_host_of (consumed_tuples index arr) c))) := by
  obtain ⟨h0, _, _⟩ := lookup_ok_facts np index s hlookup
  have hall : (consumed_tuples index arr).all (irq_tuple.in_bounds L) = true := by
    rw [List.all_eq_true]
    intro t ht
    obtain ⟨b1, b2, b3⟩ := hbound t ht
    simp [irq_tuple.in_bounds, b1, b2, b3]
  obtain ⟨l1, l2, l3, l4, l5⟩ := irq_loop_spec L index h0 (by omega) arr
    (intc_config_unmapped L) (by simp [intc_config_unmapped]) (by simp [intc_config_unmapped])
  rw [takeWhile_all _ _ hall] at l4 l5
  rw [hall, if_pos rfl] at l1
  have hbody : pru_rproc_get_body L r np index (state_owned np s) =
      pruss_intc_configure r.intc_configure
        (pru_rproc_get_irq_loop L index arr (intc_config_unmapped L)).2
        { state_before_irq_map np index (state_owned np s) with
          pru := { (state_before_irq_map np index (state_owned np s)).pru with
            intc_config := (pru_rproc_get_irq_loop L index arr (intc_config_unmapped L)).2,
            dt_irqs := (arr.length : Int) } } := by
    rw [body_reaches_irq_map L r np index _ hget hmux hfw, hmap]
    simp only []
    rw [irq_config_good_length L r index arr _ hlen h4 hmem hread, if_neg (by simp [l1])]
  have htable : (pru_rproc_get L r np index s).2.pru.intc_config =
      (pru_rproc_get_irq_loop L index arr (intc_config_unmapped L)).2 := by
    rw [get_unowned_eq L r np index s hlookup hfree, hbody]
    unfold pruss_intc_configure
    by_cases hc : r.intc_configure = 0
    · simp [hc]
    · simp [hc, (put_frame r.put _).1]
  refine ⟨?_, ?_, ?_, ?_, ?_⟩
  · intro hc
    rw [get_unowned_eq L r np index s hlookup hfree, hbody]
    simp [pruss_intc_configure, hc]
  · rw [htable]; exact l2
  · rw [htable]; exact l3
  · intro e he
    rw [htable, l4 e]
    cases last_channel_of (consumed_tuples index arr) e with
    | some x => rfl
    | none => simp [intc_config_unmapped, slot_of, he]
  · intro c hc
    rw [htable, l5 c]
    cases last_host_of (consumed_tuples index arr) c with
    | some x => rfl
    | none => simp [intc_config_unmapped, slot_of, hc]

/-- C1 (witness): the example client acquires the example core; events 16 and 17
both map to channel 2, whose host interrupt is that of the later tuple, and
the tuple for index 1 leaves no trace. -/
theorem pru_rproc_get_builds_specified_table_witness :
    (pru_rproc_get limits_spec rets_ok client_example 0 state_example).1 = .ok () ∧
    (pru_rproc_get limits_spec rets_ok client_example 0
        state_example).2.pru.intc_config.sysev_to_ch[17]? = some 2 ∧
    (pru_rproc_get limits_spec rets_ok client_example 0
        state_example).2.pru.intc_config.ch_to_host[2]? = some 4 ∧
    (pru_rproc_get limits_spec rets_ok client_example 0
        state_example).2.pru.intc_config.ch_to_host[9]? = some (-1) := by
  have h := pru_rproc_get_builds_specified_table limits_spec rets_ok client_example 0
    state_example [0, 16, 2, 3, 1, 99, 99, 99, 0, 17, 2, 4]
    (by decide) (by decide) (by decide) (by decide) (by decide) (by decide) (by decide)
    (by decide) (by decide) (by decide) (by decide) (by decide)
  refine ⟨(h.1 (by decide)).1, ?_, ?_, ?_⟩
  · rw [h.2.2.2.1 17 (by decide)]; decide
  · rw [h.2.2.2.2 2 (by decide)]; decide
  · rw [h.2.2.2.2 9 (by decide)]; decide

theorem irq_config_frame (L : pruss_limits) (r : get_rets) (index : Int) (arr : List Nat)
    (s : pru_state) :
    (pru_rproc_get_irq_config L r index arr s).2.pru.client_np = s.pru.client_np ∧
    (pru_rproc_get_irq_config L r index arr s).2.pru.gpmux_save = s.pru.gpmux_save ∧
    (pru_rproc_get_irq_config L r index arr s).2.pruss.gpmux = s.pruss.gpmux ∧
    (pru_rproc_get_irq_config L r index arr s).2.rproc = s.rproc := by
  unfold pru_rproc_get_irq_config pruss_intc_configure
  simp only []
  split_ifs <;> simp

theorem body_frame (L : pruss_limits) (r : get_rets) (np : device_node) (index : Int)
    (s : pru_state) :
    (pru_rproc_get_body L r np index s).2.pru.client_np = s.pru.client_np ∧
    (pru_rproc_get_body L r np index s).2.rproc.parent_name_has_pru =
      s.rproc.parent_name_has_pru ∧
    (r.get_gpmux = 0 →
      (pru_rproc_get_body L r np index s).2.pru.gpmux_save = s.pruss.gpmux % 256) := by
  unfold pru_rproc_get_body
  by_cases hget : r.get_gpmux = 0
  swap
  · simp [pruss_cfg_get_gpmux, hget]
  simp only [pruss_cfg_get_gpmux, hget, if_true, ne_eq, not_true_eq_false, if_false]
  cases hm : of_property_read_u32_index np.gp_mux_sel index <;>
  cases hf : of_property_read_string_index np.firmware_name index <;>
  cases hmap : np.interrupt_map <;>
  by_cases h1 : r.set_gpmux = 0 <;>
  by_cases h2 : r.set_firmware = 0 <;>
  simp [pruss_cfg_set_gpmux, pru_rproc_set_firmware, rproc_set_firmware, h1, h2,
    irq_config_frame]

theorem irq_config_code_indep (L : pruss_limits) (r : get_rets) (index : Int)
    (arr : List Nat) (s t : pru_state) :
    (pru_rproc_get_irq_config L r index arr s).1 =
      (pru_rproc_get_irq_config L r index arr t).1 := by
  unfold pru_rproc_get_irq_config pruss_intc_configure
  simp only []
  split_ifs <;> rfl

theorem body_code_indep (L : pruss_limits) (r : get_rets) (np : device_node) (index : Int)
    (s t : pru_state) :
    (pru_rproc_get_body L r np index s).1 = (pru_rproc_get_body L r np index t).1 := by
  unfold pru_rproc_get_body
  by_cases hget : r.get_gpmux = 0
  swap
  · simp [pruss_cfg_get_gpmux, hget]
  simp only [pruss_cfg_get_gpmux, hget, if_true, ne_eq, not_true_eq_false, if_false]
  cases hm : of_property_read_u32_index np.gp_mux_sel index <;>
  cases hf : of_property_read_string_index np.firmware_name index <;>
  cases hmap : np.interrupt_map <;>
  by_cases h1 : r.set_gpmux = 0 <;>
  by_cases h2 : r.set_firmware = 0 <;>
  simp [pruss_cfg_set_gpmux, pru_rproc_set_firmware, rproc_set_firmware, h1, h2] <;>
  apply irq_config_code_indep

theorem irq_config_ok_state (L : pruss_limits) (r : get_rets) (index : Int)
    (arr : List Nat) (s : pru_state)
    (h : (pru_rproc_get_irq_config L r index arr s).1 = 0) :
    (pru_rproc_get_irq_config L r index arr s).2 =
      { s with
        pru := { s.pru with
          intc_config := (pru_rproc_get_irq_loop L index arr (intc_config_unmapped L)).2,
          dt_irqs := (arr.length : Int) },
        pruss := { s.pruss with
          intc := some (pru_rproc_get_irq_loop L index arr (intc_config_unmapped L)).2 } } := by
  unfold pru_rproc_get_irq_config pruss_intc_configure of_property_count_u32_elems at h ⊢
  simp only [] at h ⊢
  split_ifs at h ⊢ with h1 h2 h3 h4 h5
  · exact absurd h (by simp [EINVAL])
  · exact absurd h (by simp [ENOMEM])
  · exact absurd h h3
  · exact absurd h h4
  · rfl
  · exact absurd h h5

theorem get_ok_state (L : pruss_limits) (r : get_rets) (np : device_node) (index : Int)
    (s : pru_state) (h : (pru_rproc_get L r np index s).1 = .ok ()) :
    (__pru_rproc_get np index s).1 = .ok () ∧ s.pru.client_np = none ∧
    (pru_rproc_get_body L r np index (state_owned np s)).1 = 0 ∧
    (pru_rproc_get L r np index s).2 = state_acquired L np index s := by
  have hl : (__pru_rproc_get np index s).1 = .ok () := by
    unfold pru_rproc_get at h
    split at h
    · simp at h
    · rename_i heq
      rw [heq]
  have hf : s.pru.client_np = none := by
    obtain ⟨_, _, he⟩ := lookup_ok_facts np index s hl
    unfold pru_rproc_get at h
    rw [he] at h
    simp only [get_device] at h
    cases hc : s.pru.client_np with
    | none => rfl
    | some o => simp [hc] at h
  rw [get_unowned_eq L r np index s hl hf] at h ⊢
  by_cases hb : (pru_rproc_get_body L r np index (state_owned np s)).1 = 0
  · refine ⟨hl, hf, hb, ?_⟩
    rw [if_neg (by simp [hb])]
    obtain ⟨e1, e2, e3⟩ := body_ok_early L r np index _ hb
    have hb2 := hb
    rw [body_reaches_irq_map L r np index _ e1 e2 e3] at hb2 ⊢
    unfold state_acquired
    cases hm : np.interrupt_map with
    | none => rfl
    | some arr =>
      simp only [hm] at hb2 ⊢
      exact irq_config_ok_state L r index arr _ hb2
  · rw [if_pos hb] at h
    simp at h

theorem all_in_bounds_iff (L : pruss_limits) (ts : List irq_tuple) :
    ts.all (irq_tuple.in_bounds L) = true ↔
      ¬ ∃ t ∈ ts, L.MAX_PRU_SYS_EVENTS ≤ t.sysev ∨ L.MAX_PRU_CHANNELS ≤ t.chnl ∨
        L.MAX_PRU_HOST_INT ≤ t.host := by
  rw [List.all_eq_true]
  constructor
  · rintro h ⟨t, ht, hb⟩
    have := h t ht
    simp only [irq_tuple.in_bounds, Bool.and_eq_true, decide_eq_true_eq] at this
    omega
  · intro h t ht
    simp only [irq_tuple.in_bounds, Bool.and_eq_true, decide_eq_true_eq]
    by_contra hcon
    exact h ⟨t, ht, by omega⟩

/-- C3: with the core located and unowned, the collaborator calls before the
map successful, the list readable (buffer allocated, cells read) and the
controller accepting the table, `pru_rproc_get` on a flat list fails with
`-EINVAL` exactly when the element count is not positive, or is not a multiple
of 4, or some tuple addressed to the requested index has a field at or above
its bound; in every other case it succeeds, whatever the tuples addressed to
other indices contain. -/
theorem pru_rproc_get_flat_list_einval_iff (L : pruss_limits) (r : get_rets)
    (np : device_node) (index : Int) (s : pru_state) (arr : List Nat)
    (hidx : index < 2147483648)
    (hlookup : (__pru_rproc_get np index s).1 = .ok ())
    (hfree : s.pru.client_np = none)
    (hget : r.get_gpmux = 0)
    (hmux : (of_property_read_u32_index np.gp_mux_sel index).isSome → r.set_gpmux = 0)
    (hfw : (of_property_read_string_index np.firmware_name index).isSome →
      r.set_firmware = 0)
    (hmap : np.interrupt_map = some arr)
    (hmem : r.kmalloc_ok = true) (hread : r.read_u32_array = 0)
    (hconf : r.intc_configure = 0) :
    ((pru_rproc_get L r np index s).1 = .error (-EINVAL) ↔
      (of_property_count_u32_elems arr ≤ 0 ∨ arr.length % 4 ≠ 0 ∨
        ∃ t ∈ consumed_tuples index arr,
          L.MAX_PRU_SYS_EVENTS ≤ t.sysev ∨ L.MAX_PRU_CHANNELS ≤ t.chnl ∨
            L.MAX_PRU_HOST_INT ≤ t.host)) ∧
    ((pru_rproc_get L r np index s).1 = .error (-EINVAL) ∨
      (pru_rproc_get L r np index s).1 = .ok ()) := by
  obtain ⟨h0, _, _⟩ := lookup_ok_facts np index s hlookup
  rw [get_unowned_eq L r np index s hlookup hfree,
    body_reaches_irq_map L r np index _ hget hmux hfw, hmap]
  simp only [of_property_count_u32_elems]
  by_cases hbad : arr.length = 0 ∨ arr.length % 4 ≠ 0
  · rw [irq_config_bad_length L r index arr _ hbad]
    have : (-EINVAL : Int) ≠ 0 := by simp [EINVAL]
    simp only [this, ne_eq, not_false_eq_true, if_true, true_iff, true_or, and_true]
    rcases hbad with hb | hb
    · left; omega
    · right; left; exact hb
  · have hlen : 0 < arr.length := by omega
    have h4 : arr.length % 4 = 0 := by omega
    obtain ⟨l1, -, -, -, -⟩ := irq_loop_spec L index h0 (by omega) arr
      (intc_config_unmapped L) (by simp [intc_config_unmapped])
      (by simp [intc_config_unmapped])
    rw [irq_config_good_length L r index arr _ hlen h4 hmem hread, l1]
    by_cases hall : (consumed_tuples index arr).all (irq_tuple.in_bounds L) = true
    · have hno := (all_in_bounds_iff L _).1 hall
      simp only [hall, if_true, ne_eq, not_true_eq_false, if_false, pruss_intc_configure, hconf]
      refine ⟨⟨fun h => by simp at h, ?_⟩, by simp⟩
      rintro (h | h | h)
      · omega
      · omega
      · exact absurd h hno
    · have hex : ∃ t ∈ consumed_tuples index arr,
          L.MAX_PRU_SYS_EVENTS ≤ t.sysev ∨ L.MAX_PRU_CHANNELS ≤ t.chnl ∨
            L.MAX_PRU_HOST_INT ≤ t.host := by
        by_contra hcon
        exact hall ((all_in_bounds_iff L _).2 hcon)
      have : (-EINVAL : Int) ≠ 0 := by simp [EINVAL]
      simp only [hall, Bool.false_eq_true, if_false, this, ne_eq, not_false_eq_true, if_true,
        true_iff, true_or, and_true]
      right; right; exact hex

/-- C3 (witness): the example list has no out-of-bound tuple for index 0 (the
tuple for index 1 is out of bounds) and the acquisition succeeds. -/
theorem pru_rproc_get_flat_list_einval_iff_witness :
    (pru_rproc_get limits_spec rets_ok client_example 0 state_example).1 = .ok () ∧
    ¬ (∃ t ∈ consumed_tuples 0 [0, 16, 2, 3, 1, 99, 99, 99, 0, 17, 2, 4],
        limits_spec.MAX_PRU_SYS_EVENTS ≤ t.sysev ∨ limits_spec.MAX_PRU_CHANNELS ≤ t.chnl ∨
          limits_spec.MAX_PRU_HOST_INT ≤ t.host) := by
  have h := pru_rproc_get_flat_list_einval_iff limits_spec rets_ok client_example 0
    state_example [0, 16, 2, 3, 1, 99, 99, 99, 0, 17, 2, 4]
    (by decide) (by decide) (by decide) (by decide) (by decide) (by decide) (by decide)
    (by decide) (by decide) (by decide)
  have hok : (pru_rproc_get limits_spec rets_ok client_example 0 state_example).1 = .ok () := by
    decide
  refine ⟨hok, fun hex => ?_⟩
  have := h.1.2 (Or.inr (Or.inr hex))
  rw [hok] at this
  exact absurd this (by decide)

/-- C2 (counterexample): the list `0 16 2 3  0 64 0 0` for index 0 is rejected
with `-EINVAL` for its second tuple, and the table of the core after the failed
call differs from the table before it: the first tuple has been written. -/
theorem pru_rproc_get_rejected_list_overwrites_table :
    (pru_rproc_get limits_spec rets_ok client_bad_event 0 state_example).1 =
      .error (-EINVAL) ∧
    (pru_rproc_get limits_spec rets_ok client_bad_event 0 state_example).2.pru.intc_config ≠
      state_example.pru.intc_config ∧
    (pru_rproc_get limits_spec rets_ok client_bad_event 0
      state_example).2.pru.intc_config.sysev_to_ch[16]? = some 2 ∧
    state_example.pru.intc_config.sysev_to_ch[16]? = some (-1) := by
  decide

/-- C2 (amended): a list rejected for its length leaves the table of the core
as it was.  A list rejected for a bound violation leaves the table reset and
refilled: each slot holds the mapping of the last matching tuple in front of
the first out-of-bound one, or `-1`.  In both cases `dt_irqs` is unchanged and
the rejected table is not handed to the controller, which keeps its table or,
when `dt_irqs` was already non-zero, is emptied by the release. -/
theorem pru_rproc_get_rejected_list_table (L : pruss_limits) (r : get_rets)
    (np : device_node) (index : Int) (s : pru_state) (arr : List Nat)
    (hidx : index < 2147483648)
    (hlookup : (__pru_rproc_get np index s).1 = .ok ())
    (hfree : s.pru.client_np = none)
    (hget : r.get_gpmux = 0)
    (hmux : (of_property_read_u32_index np.gp_mux_sel index).isSome → r.set_gpmux = 0)
    (hfw : (of_property_read_string_index np.firmware_name index).isSome →
      r.set_firmware = 0)
    (hmap : np.interrupt_map = some arr) :
    ((arr.length = 0 ∨ arr.length % 4 ≠ 0) →
      (pru_rproc_get L r np index s).1 = .error (-EINVAL) ∧
      (pru_rproc_get L r np index s).2.pru.intc_config = s.pru.intc_config ∧
      (pru_rproc_get L r np index s).2.pru.dt_irqs = s.pru.dt_irqs ∧
      (pru_rproc_get L r np index s).2.pruss.intc =
        if s.pru.dt_irqs ≠ 0 then none else s.pruss.intc) ∧
    (0 < arr.length → arr.length % 4 = 0 → r.kmalloc_ok = true → r.read_u32_array = 0 →
      (∃ t ∈ consumed_tuples index arr,
        L.MAX_PRU_SYS_EVENTS ≤ t.sysev ∨ L.MAX_PRU_CHANNELS ≤ t.chnl ∨
          L.MAX_PRU_HOST_INT ≤ t.host) →
      (pru_rproc_get L r np index s).1 = .error (-EINVAL) ∧
      (∀ e, e < L.MAX_PRU_SYS_EVENTS →
        (pru_rproc_get L r np index s).2.pru.intc_config.sysev_to_ch[e]? =
          some (slot_of (last_channel_of
            ((consumed_tuples index arr).takeWhile (irq_tuple.in_bounds L)) e))) ∧
      (∀ c, c < L.MAX_PRU_CHANNELS →
        (pru_rproc_get L r np index s).2.pru.intc_config.ch_to_host[c]? =
          some (slot_of (last_host_of
            ((consumed_tuples index arr).takeWhile (irq_tuple.in_bounds L)) c))) ∧
      (pru_rproc_get L r np index s).2.pru.dt_irqs = s.pru.dt_irqs ∧
      (pru_rproc_get L r np index s).2.pruss.intc =
        if s.pru.dt_irqs ≠ 0 then none else s.pruss.intc) := by
  obtain ⟨h0, hname, _⟩ := lookup_ok_facts np index s hlookup
  have hne : (-EINVAL : Int) ≠ 0 := by simp [EINVAL]
  rw [get_unowned_eq L r np index s hlookup hfree,
    body_reaches_irq_map L r np index _ hget hmux hfw, hmap]
  simp only []
  constructor
  · intro hbad
    rw [irq_config_bad_length L r index arr _ hbad]
    simp only [hne, ne_eq, not_false_eq_true, if_true]
    rw [put_owned r.put _ np.addr (by simpa [state_before_irq_map, state_owned, get_device]
      using hname) (by simp [state_before_irq_map, state_owned])]
    simp [state_before_irq_map, state_owned, get_device]
  · intro hlen h4 hmem hread hex
    have hall : ¬ (consumed_tuples index arr).all (irq_tuple.in_bounds L) = true :=
      fun h => (all_in_bounds_iff L _).1 h hex
    obtain ⟨l1, l2, l3, l4, l5⟩ := irq_loop_spec L index h0 (by omega) arr
      (intc_config_unmapped L) (by simp [intc_config_unmapped])
      (by simp [intc_config_unmapped])
    rw [if_neg hall] at l1
    rw [irq_config_good_length L r index arr _ hlen h4 hmem hread, l1]
    simp only [hne, ne_eq, not_false_eq_true, if_true]
    rw [put_owned r.put _ np.addr (by simpa [state_before_irq_map, state_owned, get_device]
      using hname) (by simp [state_before_irq_map, state_owned])]
    refine ⟨trivial, ?_, ?_, ?_, ?_⟩
    · intro e he
      simp only []
      rw [l4 e]
      cases last_channel_of
          ((consumed_tuples index arr).takeWhile (irq_tuple.in_bounds L)) e with
      | some x => rfl
      | none => simp [intc_config_unmapped, slot_of, he]
    · intro c hc
      simp only []
      rw [l5 c]
      cases last_host_of
          ((consumed_tuples index arr).takeWhile (irq_tuple.in_bounds L)) c with
      | some x => rfl
      | none => simp [intc_config_unmapped, slot_of, hc]
    · simp [state_before_irq_map, state_owned, get_device]
    · simp [state_before_irq_map, state_owned, get_device]

/-- C2 (witness): a five-cell list leaves the table as it was; the list with the
bad second tuple leaves the mapping of the first tuple in the table and
nothing in the controller. -/
theorem pru_rproc_get_rejected_list_table_witness :
    (pru_rproc_get limits_spec rets_ok client_bad_length 0 state_example).2.pru.intc_config =
      state_example.pru.intc_config ∧
    (pru_rproc_get limits_spec rets_ok client_bad_event 0
      state_example).2.pru.intc_config.sysev_to_ch[16]? = some 2 ∧
    (pru_rproc_get limits_spec rets_ok client_bad_event 0 state_example).2.pruss.intc =
      none := by
  have h1 := (pru_rproc_get_rejected_list_table limits_spec rets_ok client_bad_length 0
    state_example [0, 16, 2, 3, 0]
    (by decide) (by decide) (by decide) (by decide) (by decide) (by decide) (by decide)).1
    (by decide)
  have h2 := (pru_rproc_get_rejected_list_table limits_spec rets_ok client_bad_event 0
    state_example [0, 16, 2, 3, 0, 64, 0, 0]
    (by decide) (by decide) (by decide) (by decide) (by decide) (by decide) (by decide)).2
    (by decide) (by decide) (by decide) (by decide) (by decide)
  refine ⟨h1.2.1, ?_, ?_⟩
  · rw [h2.2.1 16 (by decide)]; decide
  · rw [h2.2.2.2.2]; decide

/-- C4: on a located core that already has an owner `pru_rproc_get` returns
`-EBUSY` and leaves the whole state (owner, saved and live selector, firmware
name, table, controller, reference count) as it was; and whenever
`pru_rproc_get` succeeds the core was unowned before and the requester is the
recorded owner afterwards. -/
theorem pru_rproc_get_busy (L : pruss_limits) (r : get_rets) (np : device_node)
    (index : Int) (s : pru_state)
    (hlookup : (__pru_rproc_get np index s).1 = .ok ()) :
    (s.pru.client_np ≠ none → pru_rproc_get L r np index s = (.error (-EBUSY), s)) ∧
    ((pru_rproc_get L r np index s).1 = .ok () →
      s.pru.client_np = none ∧
      (pru_rproc_get L r np index s).2.pru.client_np = some np.addr) := by
  constructor
  · intro howned
    obtain ⟨_, _, he⟩ := lookup_ok_facts np index s hlookup
    unfold pru_rproc_get
    rw [he]
    cases hc : s.pru.client_np with
    | none => exact absurd hc howned
    | some o =>
      simp only [get_device, hc, put_device, add_sub_cancel_right]
  · intro hok
    obtain ⟨_, hf, hb, hst⟩ := get_ok_state L r np index s hok
    refine ⟨hf, ?_⟩
    rw [get_unowned_eq L r np index s hlookup hf, if_neg (by simp [hb])]
    simp only []
    rw [(body_frame L r np index _).1]
    rfl

/-- C4 (witness): the owned example core answers `-EBUSY` unchanged, and the
unowned one records the client at address 4096. -/
theorem pru_rproc_get_busy_witness :
    pru_rproc_get limits_spec rets_ok client_example 0 state_owned_example =
      (.error (-EBUSY), state_owned_example) ∧
    (pru_rproc_get limits_spec rets_ok client_example 0 state_example).2.pru.client_np =
      some 4096 :=
  ⟨(pru_rproc_get_busy limits_spec rets_ok client_example 0 state_owned_example
      (by decide)).1 (by decide),
    ((pru_rproc_get_busy limits_spec rets_ok client_example 0 state_example
      (by decide)).2 (by decide)).2⟩

theorem lookup_congr (np : device_node) (index : Int) (s t : pru_state)
    (h : t.rproc.parent_name_has_pru = s.rproc.parent_name_has_pru) :
    (__pru_rproc_get np index t).1 = (__pru_rproc_get np index s).1 := by
  unfold __pru_rproc_get
  cases of_parse_phandle np index with
  | none => rfl
  | some ent =>
    simp only [h]
    split_ifs <;> rfl

theorem state_acquired_fields (L : pruss_limits) (np : device_node) (index : Int)
    (s : pru_state) :
    (state_acquired L np index s).pru.client_np = some np.addr ∧
    (state_acquired L np index s).rproc.parent_name_has_pru = s.rproc.parent_name_has_pru ∧
    (state_acquired L np index s).pru.gpmux_save = s.pruss.gpmux % 256 ∧
    (state_acquired L np index s).pru.fw_name = s.pru.fw_name := by
  unfold state_acquired
  cases np.interrupt_map <;> simp [state_before_irq_map, state_owned, get_device]

/-- C5 (counterexample): on the unowned example core with live selector 3 an
acquisition that applies the override 1 succeeds, and a following release
whose write of the saved selector is refused leaves the selector at 1. -/
theorem pru_rproc_put_restore_refused :
    state_example.pru.client_np = none ∧ state_example.pruss.gpmux = 3 ∧
    (pru_rproc_get limits_spec rets_ok client_example 0 state_example).1 = .ok () ∧
    (pru_rproc_put put_rets_no_restore
      (pru_rproc_get limits_spec rets_ok client_example 0 state_example).2).pruss.gpmux = 1 := by
  decide

/-- C5 (amended): for a core with live selector `v` (a `u8` value) and a
request on which `pru_rproc_get` succeeds (so the core was unowned), a
following `pru_rproc_put` whose write of the saved selector is accepted leaves
the selector equal to `v` and the core unowned; a second identical
acquire/release cycle succeeds again and ends in the very same state as the
first. -/
theorem pru_rproc_get_put_restores (L : pruss_limits) (r : get_rets) (p : put_rets)
    (np : device_node) (index : Int) (s : pru_state) (v : Nat)
    (hv : s.pruss.gpmux = v) (hu8 : v < 256)
    (hok : (pru_rproc_get L r np index s).1 = .ok ())
    (hrestore : p.set_gpmux = 0) :
    (pru_rproc_put p (pru_rproc_get L r np index s).2).pruss.gpmux = v ∧
    (pru_rproc_put p (pru_rproc_get L r np index s).2).pru.client_np = none ∧
    (pru_rproc_get L r np index
      (pru_rproc_put p (pru_rproc_get L r np index s).2)).1 = .ok () ∧
    pru_rproc_put p (pru_rproc_get L r np index
      (pru_rproc_put p (pru_rproc_get L r np index s).2)).2 =
      pru_rproc_put p (pru_rproc_get L r np index s).2 := by
  obtain ⟨hl, _, hb, hst⟩ := get_ok_state L r np index s hok
  obtain ⟨_, hname, _⟩ := lookup_ok_facts np index s hl
  obtain ⟨a1, a2, a3, a4⟩ := state_acquired_fields L np index s
  rw [hst]
  have hput := put_owned p (state_acquired L np index s) np.addr (by rw [a2, hname]) a1
  have hfree1 : (pru_rproc_put p (state_acquired L np index s)).pru.client_np = none := by
    rw [hput]
  have hname1 : (pru_rproc_put p (state_acquired L np index s)).rproc.parent_name_has_pru =
      s.rproc.parent_name_has_pru := by
    rw [(put_frame p _).2.2.2.2, a2]
  have hl1 : (__pru_rproc_get np index (pru_rproc_put p (state_acquired L np index s))).1 =
      .ok () := by
    rw [lookup_congr np index s _ hname1, hl]
  have hok1 : (pru_rproc_get L r np index
      (pru_rproc_put p (state_acquired L np index s))).1 = .ok () := by
    rw [get_unowned_eq L r np index _ hl1 hfree1,
      if_neg (by rw [body_code_indep L r np index _ (state_owned np s), hb]; simp)]
  obtain ⟨_, _, _, hst1⟩ := get_ok_state L r np index _ hok1
  obtain ⟨b1, b2, b3, b4⟩ := state_acquired_fields L np index
    (pru_rproc_put p (state_acquired L np index s))
  refine ⟨?_, hfree1, hok1, ?_⟩
  · rw [hput]
    simp only [hrestore, if_true, a3, hv]
    exact Nat.mod_eq_of_lt hu8
  · rw [hst1, put_owned p _ np.addr (by rw [b2, hname1, hname]) b1]
    rw [hput]
    unfold state_acquired
    cases hm : np.interrupt_map with
    | none =>
      simp [state_before_irq_map, state_owned, get_device, hrestore]
      refine ⟨fun h => by simp [h], ?_⟩
      cases of_property_read_string_index np.firmware_name index <;>
        by_cases hp : p.set_firmware = 0 <;> simp [hp]
    | some arr =>
      simp [state_before_irq_map, state_owned, get_device, hrestore]
      cases of_property_read_string_index np.firmware_name index <;>
        by_cases hp : p.set_firmware = 0 <;> simp [hp]

/-- C5 (witness): acquire with override 1, then release: the selector is 3
again and the core has no owner. -/
theorem pru_rproc_get_put_restores_witness :
    (pru_rproc_put rets_ok.put
      (pru_rproc_get limits_spec rets_ok client_example 0 state_example).2).pruss.gpmux = 3 ∧
    (pru_rproc_put rets_ok.put
      (pru_rproc_get limits_spec rets_ok client_example 0 state_example).2).pru.client_np =
      none :=
  ⟨(pru_rproc_get_put_restores limits_spec rets_ok rets_ok.put client_example 0
      state_example 3 (by decide) (by decide) (by decide) (by decide)).1,
   (pru_rproc_get_put_restores limits_spec rets_ok rets_ok.put client_example 0
      state_example 3 (by decide) (by decide) (by decide) (by decide)).2.1⟩

/-- C6 (counterexample): two failures of `pru_rproc_get` after ownership was
recorded that leave the live selector different from its value 3 before the
call.  First: the override 1 is applied, setting the firmware name fails, and
the release cannot write the saved selector back; the selector stays 1.
Second: reading the selector fails, and the release writes the stale
`gpmux_save` (0); the selector becomes 0. -/
theorem pru_rproc_get_failure_selector_not_restored :
    state_example.pru.client_np = none ∧ state_example.pruss.gpmux = 3 ∧
    (pru_rproc_get limits_spec rets_fw_fails_no_restore client_example 0 state_example).1 =
      .error (-EINVAL) ∧
    (pru_rproc_get limits_spec rets_fw_fails_no_restore client_example 0
      state_example).2.pruss.gpmux = 1 ∧
    (pru_rproc_get limits_spec rets_read_fails client_example 0 state_example).1 =
      .error (-EINVAL) ∧
    (pru_rproc_get limits_spec rets_read_fails client_example 0
      state_example).2.pruss.gpmux = 0 := by
  decide

/-- C6 (amended): whenever `pru_rproc_get` fails on a located, unowned core
(at any point after it has recorded the owner) it returns a non-zero error and
the core is unowned again; if the selector had been read and the release's
write of the saved selector is accepted, the live selector (a `u8` value)
equals its value before the call. -/
theorem pru_rproc_get_failure_unwinds (L : pruss_limits) (r : get_rets)
    (np : device_node) (index : Int) (s : pru_state) (e : Int)
    (hlookup : (__pru_rproc_get np index s).1 = .ok ())
    (hfree : s.pru.client_np = none)
    (hfail : (pru_rproc_get L r np index s).1 = .error e) :
    e ≠ 0 ∧
    (pru_rproc_get L r np index s).2.pru.client_np = none ∧
    (r.get_gpmux = 0 → r.put.set_gpmux = 0 → s.pruss.gpmux < 256 →
      (pru_rproc_get L r np index s).2.pruss.gpmux = s.pruss.gpmux) := by
  obtain ⟨_, hname, _⟩ := lookup_ok_facts np index s hlookup
  obtain ⟨f1, f2, f3⟩ := body_frame L r np index (state_owned np s)
  rw [get_unowned_eq L r np index s hlookup hfree] at hfail ⊢
  by_cases hb : (pru_rproc_get_body L r np index (state_owned np s)).1 = 0
  · rw [if_neg (by simp [hb])] at hfail
    simp at hfail
  · rw [if_pos hb] at hfail ⊢
    have he : (pru_rproc_get_body L r np index (state_owned np s)).1 = e := by
      simpa using hfail
    simp only []
    rw [put_owned r.put _ np.addr (by rw [f2]; simpa [state_owned, get_device] using hname)
      (by rw [f1]; rfl)]
    refine ⟨by rw [← he]; exact hb, rfl, ?_⟩
    intro hg hp hu8
    simp only [hp, if_true]
    rw [f3 hg]
    simp only [state_owned, get_device]
    exact Nat.mod_eq_of_lt hu8

/-- C6 (witness): an acquisition failing on a bad tuple leaves the example core
unowned with the selector 3 it had before. -/
theorem pru_rproc_get_failure_unwinds_witness :
    (pru_rproc_get limits_spec rets_ok client_bad_event 0 state_example).2.pru.client_np =
      none ∧
    (pru_rproc_get limits_spec rets_ok client_bad_event 0 state_example).2.pruss.gpmux = 3 := by
  have h := pru_rproc_get_failure_unwinds limits_spec rets_ok client_bad_event 0
    state_example (-EINVAL) (by decide) (by decide) (by decide)
  exact ⟨h.2.1, h.2.2 (by decide) (by decide) (by decide)⟩

theorem u32_add_int_small (da : Nat) (len : Int) (h0 : 0 ≤ len)
    (h : (da : Int) + len < 4294967296) :
    ((u32_add_int da len : Nat) : Int) = (da : Int) + len := by
  unfold u32_add_int
  omega

theorem mask_low28 (da : Nat) : da &&& 0x0fffffff = da % 268435456 :=
  Nat.and_pow_two_sub_one_eq_mod da 28

theorem pru_i_da_to_va_eq (pru : pru_rproc) (da : Nat) (len : Int)
    (hlen : len < 2147483648) (hpos : 0 < len)
    (hfit : pru.iram_da + (pru.mem_regions PRU_MEM_IRAM).size < 4294967296) :
    pru_i_da_to_va pru da len =
      if range_within pru.iram_da (pru.mem_regions PRU_MEM_IRAM).size (da % 268435456) len
      then some (mem_target.IRAM, da % 268435456 - pru.iram_da) else none := by
  unfold pru_i_da_to_va
  simp only [mask_low28, not_le.2 hpos, if_false]
  have hadd := u32_add_int_small (da % 268435456) len (by omega) (by omega)
  have hend : region_end pru.iram_da (pru.mem_regions PRU_MEM_IRAM).size =
      pru.iram_da + (pru.mem_regions PRU_MEM_IRAM).size := Nat.mod_eq_of_lt hfit
  rw [hend]
  unfold range_within
  by_cases hc : pru.iram_da ≤ da % 268435456 ∧
      ((da % 268435456 : Nat) : Int) + len ≤
        (pru.iram_da : Int) + ((pru.mem_regions PRU_MEM_IRAM).size : Int)
  · rw [if_pos hc, if_pos]
    constructor
    · exact hc.1
    · omega
  · rw [if_neg hc, if_neg]
    intro h
    apply hc
    constructor
    · exact h.1
    · omega

/-- C7: for a core whose instruction region has size `S > 0` (the window
`[iram_da, iram_da + S)` lying in the 32-bit address space) and an `int`
length, `pru_i_da_to_va` depends on `da` only through its low 28 bits, so every
high nibble gives the same result; it returns NULL when `len <= 0`; otherwise
it returns the instruction RAM at offset `da' - iram_da` exactly when
`iram_da <= da'` and `da' + len <= iram_da + S`, where `da'` is `da` without
its top four bits, and NULL in every other case.  With `len = 1` it succeeds at
offsets 0 and `S - 1` and returns NULL at offset `S`. -/
theorem pru_i_da_to_va_spec (pru : pru_rproc) (da : Nat) (len : Int)
    (hlen : len < 2147483648)
    (hS : 0 < (pru.mem_regions PRU_MEM_IRAM).size)
    (hfit : pru.iram_da + (pru.mem_regions PRU_MEM_IRAM).size < 4294967296) :
    (∀ hi, hi < 16 →
      pru_i_da_to_va pru (da % 268435456 + hi * 268435456) len = pru_i_da_to_va pru da len) ∧
    (len ≤ 0 → pru_i_da_to_va pru da len = none) ∧
    (0 < len →
      (range_within pru.iram_da (pru.mem_regions PRU_MEM_IRAM).size (da % 268435456) len →
        pru_i_da_to_va pru da len = some (mem_target.IRAM, da % 268435456 - pru.iram_da)) ∧
      (¬ range_within pru.iram_da (pru.mem_regions PRU_MEM_IRAM).size (da % 268435456) len →
        pru_i_da_to_va pru da len = none)) ∧
    (da % 268435456 = pru.iram_da → pru_i_da_to_va pru da 1 = some (mem_target.IRAM, 0)) ∧
    (da % 268435456 = pru.iram_da + ((pru.mem_regions PRU_MEM_IRAM).size - 1) →
      pru_i_da_to_va pru da 1 =
        some (mem_target.IRAM, (pru.mem_regions PRU_MEM_IRAM).size - 1)) ∧
    (da % 268435456 = pru.iram_da + (pru.mem_regions PRU_MEM_IRAM).size →
      pru_i_da_to_va pru da 1 = none) := by
  refine ⟨?_, ?_, ?_, ?_, ?_, ?_⟩
  · intro hi _
    unfold pru_i_da_to_va
    simp only [mask_low28]
    have : (da % 268435456 + hi * 268435456) % 268435456 = da % 268435456 := by omega
    rw [this]
  · intro hle
    unfold pru_i_da_to_va
    simp only [hle, if_true]
  · intro hpos
    rw [pru_i_da_to_va_eq pru da len hlen hpos hfit]
    exact ⟨fun h => if_pos h, fun h => if_neg h⟩
  · intro h
    rw [pru_i_da_to_va_eq pru da 1 (by decide) (by decide) hfit, if_pos, h, Nat.sub_self]
    unfold range_within
    omega
  · intro h
    rw [pru_i_da_to_va_eq pru da 1 (by decide) (by decide) hfit, if_pos, h,
      Nat.add_sub_cancel_left]
    unfold range_within
    omega
  · intro h
    rw [pru_i_da_to_va_eq pru da 1 (by decide) (by decide) hfit, if_neg]
    unfold range_within
    omega

/-- C7 (witness): on the example core (`iram_da = 0`, 8 KiB) the addresses
0x20000000 and 0x20001fff translate to offsets 0 and 8191, 0x20002000 does not,
and a zero length does not. -/
theorem pru_i_da_to_va_spec_witness :
    pru_i_da_to_va pru0_probed 536870912 1 = some (mem_target.IRAM, 0) ∧
    pru_i_da_to_va pru0_probed 536879103 1 = some (mem_target.IRAM, 8191) ∧
    pru_i_da_to_va pru0_probed 536879104 1 = none ∧
    pru_i_da_to_va pru0_probed 536870912 0 = none :=
  ⟨(pru_i_da_to_va_spec pru0_probed 536870912 1 (by decide) (by decide)
      (by decide)).2.2.2.1 (by decide),
   (pru_i_da_to_va_spec pru0_probed 536879103 1 (by decide) (by decide)
      (by decide)).2.2.2.2.1 (by decide),
   (pru_i_da_to_va_spec pru0_probed 536879104 1 (by decide) (by decide)
      (by decide)).2.2.2.2.2 (by decide),
   (pru_i_da_to_va_spec pru0_probed 536870912 0 (by decide) (by decide)
      (by decide)).2.1 (by decide)⟩

theorem window_check_of_within (base size da : Nat) (len : Int) (hpos : 0 < len)
    (hfit : base + size < 4294967296) (h : range_within base size da len) :
    da ≥ base ∧ u32_add_int da len ≤ region_end base size := by
  unfold range_within at h
  have hadd := u32_add_int_small da len (by omega) (by omega)
  have hend : region_end base size = base + size := Nat.mod_eq_of_lt hfit
  rw [hend]
  constructor
  · exact h.1
  · omega

theorem window_check_iff (base size da : Nat) (len : Int) (hpos : 0 < len)
    (hfit : base + size < 4294967296) (hnw : (da : Int) + len < 4294967296) :
    (da ≥ base ∧ u32_add_int da len ≤ region_end base size) ↔
      range_within base size da len := by
  unfold range_within
  have hadd := u32_add_int_small da len (by omega) hnw
  have hend : region_end base size = base + size := Nat.mod_eq_of_lt hfit
  rw [hend]
  constructor
  · rintro ⟨h1, h2⟩
    exact ⟨h1, by omega⟩
  · rintro ⟨h1, h2⟩
    exact ⟨h1, by omega⟩

/-- C8: for a positive `int` length and windows that lie in the 32-bit address
space, a range wholly inside the primary data window at `pdram_da` resolves to
Data RAM 0 on core 0 and to Data RAM 1 on core 1, at offset `da - pdram_da`;
a range wholly inside the secondary window at `sdram_da` and not inside the
primary one resolves to Data RAM 1 on core 0 and to Data RAM 0 on core 1, at
offset `da - sdram_da`.  The window sizes are those of the bank selected. -/
theorem pru_d_da_to_va_banks (pru : pru_rproc) (ss : pruss) (da : Nat) (len : Int)
    (hpos : 0 < len)
    (hp0 : pru.pdram_da + ss.mem_dram0.size < 4294967296)
    (hp1 : pru.pdram_da + ss.mem_dram1.size < 4294967296)
    (hs0 : pru.sdram_da + ss.mem_dram0.size < 4294967296)
    (hs1 : pru.sdram_da + ss.mem_dram1.size < 4294967296) :
    (pru.id = 0 → range_within pru.pdram_da ss.mem_dram0.size da len →
      pru_d_da_to_va pru ss da len = some (mem_target.DRAM0, da - pru.pdram_da)) ∧
    (pru.id = 1 → range_within pru.pdram_da ss.mem_dram1.size da len →
      pru_d_da_to_va pru ss da len = some (mem_target.DRAM1, da - pru.pdram_da)) ∧
    (pru.id = 0 → range_within pru.sdram_da ss.mem_dram1.size da len →
      ¬ range_within pru.pdram_da ss.mem_dram0.size da len →
      pru_d_da_to_va pru ss da len = some (mem_target.DRAM1, da - pru.sdram_da)) ∧
    (pru.id = 1 → range_within pru.sdram_da ss.mem_dram0.size da len →
      ¬ range_within pru.pdram_da ss.mem_dram1.size da len →
      pru_d_da_to_va pru ss da len = some (mem_target.DRAM0, da - pru.sdram_da)) := by
  refine ⟨?_, ?_, ?_, ?_⟩
  · intro hid hw
    have hc := window_check_of_within _ _ da len hpos hp0 hw
    unfold pru_d_da_to_va
    simp only [not_le.2 hpos, if_false, hid]
    rw [if_pos (by simpa using hc)]
    rfl
  · intro hid hw
    have hc := window_check_of_within _ _ da len hpos hp1 hw
    unfold pru_d_da_to_va
    simp only [not_le.2 hpos, if_false, hid, if_true]
    rw [if_pos (by simpa using hc)]
  · intro hid hw hnp
    have hc := window_check_of_within _ _ da len hpos hs1 hw
    have hnw : (da : Int) + len < 4294967296 := by
      unfold range_within at hw
      omega
    have hn := (window_check_iff pru.pdram_da ss.mem_dram0.size da len hpos hp0 hnw).not.2 hnp
    unfold pru_d_da_to_va
    simp only [not_le.2 hpos, if_false, hid]
    rw [if_neg (by simpa using hn), if_pos (by simpa using hc)]
    rfl
  · intro hid hw hnp
    have hc := window_check_of_within _ _ da len hpos hs0 hw
    have hnw : (da : Int) + len < 4294967296 := by
      unfold range_within at hw
      omega
    have hn := (window_check_iff pru.pdram_da ss.mem_dram1.size da len hpos hp1 hnw).not.2 hnp
    unfold pru_d_da_to_va
    simp only [not_le.2 hpos, if_false, hid, if_true]
    rw [if_neg (by simpa using hn), if_pos (by simpa using hc)]

/-- C8 (witness): address 0x1000 is Data RAM 0 for core 0 and Data RAM 1 for
core 1; address 0x2000 is Data RAM 1 for core 0 and Data RAM 0 for core 1. -/
theorem pru_d_da_to_va_banks_witness :
    pru_d_da_to_va pru0_probed pruss_example 4096 16 = some (mem_target.DRAM0, 4096) ∧
    pru_d_da_to_va pru1_probed pruss_example 4096 16 = some (mem_target.DRAM1, 4096) ∧
    pru_d_da_to_va pru0_probed pruss_example 8192 16 = some (mem_target.DRAM1, 0) ∧
    pru_d_da_to_va pru1_probed pruss_example 8192 16 = some (mem_target.DRAM0, 0) :=
  ⟨(pru_d_da_to_va_banks pru0_probed pruss_example 4096 16 (by decide) (by decide)
      (by decide) (by decide) (by decide)).1 (by decide) (by decide),
   (pru_d_da_to_va_banks pru1_probed pruss_example 4096 16 (by decide) (by decide)
      (by decide) (by decide) (by decide)).2.1 (by decide) (by decide),
   (pru_d_da_to_va_banks pru0_probed pruss_example 8192 16 (by decide) (by decide)
      (by decide) (by decide) (by decide)).2.2.1 (by decide) (by decide) (by decide),
   (pru_d_da_to_va_banks pru1_probed pruss_example 8192 16 (by decide) (by decide)
      (by decide) (by decide) (by decide)).2.2.2 (by decide) (by decide) (by decide)⟩

/-- Where `da + len` does not exceed the 32-bit range and the three windows
lie in it, `pru_d_da_to_va` returns NULL for `len <= 0` and otherwise tests the
primary, secondary and shared windows in this order with the containment
check, returning the first one that contains the range with the offset from
its base, and NULL when none does. -/
theorem pru_d_da_to_va_first_match (pru : pru_rproc) (ss : pruss) (da : Nat) (len : Int)
    (hnw : (da : Int) + len < 4294967296)
    (hp : pru.pdram_da +
      (if pru.id = 1 then ss.mem_dram1 else ss.mem_dram0).size < 4294967296)
    (hs : pru.sdram_da +
      (if pru.id = 1 then ss.mem_dram0 else ss.mem_dram1).size < 4294967296)
    (hsh : pru.shrdram_da + ss.mem_shrd_ram2.size < 4294967296) :
    (len ≤ 0 → pru_d_da_to_va pru ss da len = none) ∧
    (0 < len →
      pru_d_da_to_va pru ss da len =
        if range_within pru.pdram_da
            (if pru.id = 1 then ss.mem_dram1 else ss.mem_dram0).size da len then
          some (if pru.id = 1 then mem_target.DRAM1 else mem_target.DRAM0, da - pru.pdram_da)
        else if range_within pru.sdram_da
            (if pru.id = 1 then ss.mem_dram0 else ss.mem_dram1).size da len then
          some (if pru.id = 1 then mem_target.DRAM0 else mem_target.DRAM1, da - pru.sdram_da)
        else if range_within pru.shrdram_da ss.mem_shrd_ram2.size da len then
          some (mem_target.SHRD_RAM2, da - pru.shrdram_da)
        else none) := by
  constructor
  · intro hle
    unfold pru_d_da_to_va
    simp only [hle, if_true]
  · intro hpos
    have c1 := window_check_iff pru.pdram_da
      (if pru.id = 1 then ss.mem_dram1 else ss.mem_dram0).size da len hpos hp hnw
    have c2 := window_check_iff pru.sdram_da
      (if pru.id = 1 then ss.mem_dram0 else ss.mem_dram1).size da len hpos hs hnw
    have c3 := window_check_iff pru.shrdram_da ss.mem_shrd_ram2.size da len hpos hsh hnw
    unfold pru_d_da_to_va
    simp only [not_le.2 hpos, if_false]
    by_cases hid : pru.id = 1
    · simp only [hid, if_true] at c1 c2 ⊢
      simp only [c1, c2, c3]
    · simp only [hid, if_false] at c1 c2 ⊢
      simp only [c1, c2, c3]

/-- C9 (failing input): on the probed example core (windows at 0, 0x2000 and
0x10000) the two-byte range at `da = 0xFFFFFFFF` lies in none of the three
windows, yet `pru_d_da_to_va` returns Data RAM 0 at offset 0xFFFFFFFF: the sum
`da + len` wraps to 1 in `u32` and passes the primary check. -/
theorem pru_d_da_to_va_wrapped_range_accepted :
    ¬ range_within pru0_probed.pdram_da pruss_example.mem_dram0.size 4294967295 2 ∧
    ¬ range_within pru0_probed.sdram_da pruss_example.mem_dram1.size 4294967295 2 ∧
    ¬ range_within pru0_probed.shrdram_da pruss_example.mem_shrd_ram2.size 4294967295 2 ∧
    pru_d_da_to_va pru0_probed pruss_example 4294967295 2 =
      some (mem_target.DRAM0, 4294967295) := by
  decide

/-- C10 (counterexample): a core whose region 0 base has every bit of both
masks set is given identity 0 with return code 0, not an error; and a core
whose control-region base matches 0x34000 while its region 0 (instruction RAM)
base matches neither mask gets `-EINVAL` and keeps its identity field. -/
theorem pru_rproc_set_id_both_masks_and_region :
    matches_mask pru_both_masks.mem_iram.pa 0x34000 ∧
    matches_mask pru_both_masks.mem_iram.pa 0x38000 ∧
    pru_rproc_set_id pru_both_masks = (0, { pru_both_masks with id := 0 }) ∧
    matches_mask pru_ctrl_at_mask.mem_ctrl.pa 0x34000 ∧
    ¬ matches_mask pru_ctrl_at_mask.mem_ctrl.pa 0x38000 ∧
    pru_rproc_set_id pru_ctrl_at_mask = (-EINVAL, pru_ctrl_at_mask) := by
  decide

/-- C10 (amended): the identity is derived from the physical base of the
core's memory region 0, which is the instruction RAM (`PRU_MEM_IRAM`), by an
ordered test: a base with every bit of 0x34000 set gives identity 0 (also when
every bit of 0x38000 is set as well); otherwise a base with every bit of
0x38000 set gives identity 1; otherwise `pru_rproc_set_id` fails with `-EINVAL`
and leaves the core, its identity field included, as it was. -/
theorem pru_rproc_set_id_spec (pru : pru_rproc) :
    (matches_mask (pru.mem_regions PRU_MEM_IRAM).pa 0x34000 →
      pru_rproc_set_id pru = (0, { pru with id := 0 })) ∧
    (¬ matches_mask (pru.mem_regions PRU_MEM_IRAM).pa 0x34000 →
      matches_mask (pru.mem_regions PRU_MEM_IRAM).pa 0x38000 →
      pru_rproc_set_id pru = (0, { pru with id := 1 })) ∧
    (¬ matches_mask (pru.mem_regions PRU_MEM_IRAM).pa 0x34000 →
      ¬ matches_mask (pru.mem_regions PRU_MEM_IRAM).pa 0x38000 →
      pru_rproc_set_id pru = (-EINVAL, pru)) := by
  unfold matches_mask pru_rproc_set_id
  refine ⟨?_, ?_, ?_⟩
  · intro h
    simp only [PRU_MEM_IRAM] at h
    simp only [h, if_true, PRUSS_PRU0]
  · intro h1 h2
    simp only [PRU_MEM_IRAM] at h1 h2
    simp only [h1, h2, if_true, if_false, PRUSS_PRU1]
  · intro h1 h2
    simp only [PRU_MEM_IRAM] at h1 h2
    simp only [h1, h2, if_false]

/-- C10 (witness): instruction RAM at 0x4a334000 gives identity 0, at 0x4a338000
identity 1, and at 0 an error with the core unchanged. -/
theorem pru_rproc_set_id_spec_witness :
    pru_rproc_set_id pru0_probed = (0, { pru0_probed with id := 0 }) ∧
    pru_rproc_set_id pru1_probed = (0, { pru1_probed with id := 1 }) ∧
    pru_rproc_set_id pru_ctrl_at_mask = (-EINVAL, pru_ctrl_at_mask) :=
  ⟨(pru_rproc_set_id_spec pru0_probed).1 (by decide),
   (pru_rproc_set_id_spec pru1_probed).2.1 (by decide) (by decide),
   (pru_rproc_set_id_spec pru_ctrl_at_mask).2.2 (by decide) (by decide)⟩

/-! ## Constant table, lifecycle, kick and descriptor-form interrupt map -/

theorem rmw_testBit (val idx w sh i : Nat) (hw : sh + w ≤ 32) :
    ((val &&& ((2 ^ 32 - 1) ^^^ (((2 ^ w - 1) <<< sh) % 2 ^ 32))) |||
        (((idx <<< sh) % 2 ^ 32) &&& (((2 ^ w - 1) <<< sh) % 2 ^ 32))).testBit i =
      if sh ≤ i ∧ i < sh + w then idx.testBit (i - sh)
      else (decide (i < 32) && val.testBit i) := by
  simp only [Nat.testBit_or, Nat.testBit_and, Nat.testBit_xor, Nat.testBit_mod_two_pow,
    Nat.testBit_shiftLeft, Nat.testBit_two_pow_sub_one]
  by_cases h1 : sh ≤ i
  · by_cases h2 : i < sh + w
    · have h3 : i < 32 := by omega
      have h4 : i - sh < w := by omega
      simp [h1, h2, h3, h4]
    · have h4 : ¬ i - sh < w := by omega
      simp [h1, h2, h4]
      by_cases h3 : i < 32 <;> simp [h3]
  · have h2 : ¬ i ≥ sh := by omega
    simp [h1, h2]
    by_cases h3 : i < 32 <;> simp [h3]

theorem set_ctable_eq (B : Nat) (m : pru_machine) (c addr : Nat) (hc : PRU_CTRL_CTBIR0 + 4 * (c / 2) < 4294967296) :
    pru_rproc_set_ctable B m c addr =
      ((0 : Int), pru_control_write_reg m (PRU_CTRL_CTBIR0 + 4 * (c / 2))
        ((pru_control_read_reg m (PRU_CTRL_CTBIR0 + 4 * (c / 2)) &&&
            ((2 ^ 32 - 1) ^^^
              (((2 ^ (if c < B then 8 else 16) - 1) <<< (16 * (c % 2))) % 2 ^ 32))) |||
          (((((addr >>> 8) &&& (2 ^ (if c < B then 8 else 16) - 1)) <<< (16 * (c % 2))) %
              2 ^ 32) &&&
            (((2 ^ (if c < B then 8 else 16) - 1) <<< (16 * (c % 2))) % 2 ^ 32)))) := by
  unfold pru_rproc_set_ctable pru_control_set_reg
  have h1 : c >>> 1 = c / 2 := by simp [Nat.shiftRight_eq_div_pow]
  have h2 : c &&& 1 = c % 2 := Nat.and_one_is_mod c
  have h3 : (PRU_CTRL_CTBIR0 + 4 * (c / 2)) % 4294967296 = PRU_CTRL_CTBIR0 + 4 * (c / 2) :=
    Nat.mod_eq_of_lt hc
  simp only [h1, h2, h3]
  by_cases hb : c < B
  · have hb2 : ¬ c ≥ B := by omega
    simp only [hb, hb2, if_true, if_false]
    rfl
  · have hb2 : c ≥ B := by omega
    simp only [hb, hb2, if_true, if_false]
    rfl

theorem read_write_same (m : pru_machine) (reg val : Nat) :
    pru_control_read_reg (pru_control_write_reg m reg val) reg = val % 4294967296 := by
  simp [pru_control_read_reg, pru_control_write_reg]

theorem set_ctable_testBit (B : Nat) (m : pru_machine) (c addr : Nat) (hc : PRU_CTRL_CTBIR0 + 4 * (c / 2) < 4294967296)
    (i : Nat) :
    (pru_control_read_reg (pru_rproc_set_ctable B m c addr).2
        (PRU_CTRL_CTBIR0 + 4 * (c / 2))).testBit i =
      if 16 * (c % 2) ≤ i ∧ i < 16 * (c % 2) + (if c < B then 8 else 16) then
        (decide (i - 16 * (c % 2) < (if c < B then 8 else 16)) &&
          addr.testBit (8 + (i - 16 * (c % 2))))
      else (pru_control_read_reg m (PRU_CTRL_CTBIR0 + 4 * (c / 2))).testBit i := by
  rw [set_ctable_eq B m c addr hc]
  simp only [read_write_same]
  have hw : 16 * (c % 2) + (if c < B then 8 else 16) ≤ 32 := by
    split_ifs <;> omega
  have hpow : (4294967296 : Nat) = 2 ^ 32 := by norm_num
  rw [hpow, Nat.testBit_mod_two_pow, rmw_testBit _ _ _ _ _ hw]
  by_cases hin : 16 * (c % 2) ≤ i ∧ i < 16 * (c % 2) + (if c < B then 8 else 16)
  · have h32 : i < 32 := by omega
    simp only [hin, and_self, if_true, h32, decide_True, Bool.true_and, Nat.testBit_and,
      Nat.testBit_shiftRight, Nat.testBit_two_pow_sub_one]
    rw [Bool.and_comm]
  · simp only [hin, if_false]
    unfold pru_control_read_reg
    rw [hpow, Nat.testBit_mod_two_pow]
    by_cases h32 : i < 32 <;> simp [h32]

theorem set_ctable_field (B : Nat) (m : pru_machine) (c addr : Nat)
    (hc : PRU_CTRL_CTBIR0 + 4 * (c / 2) < 4294967296) :
    (pru_control_read_reg (pru_rproc_set_ctable B m c addr).2
        (PRU_CTRL_CTBIR0 + 4 * (c / 2)) >>> (16 * (c % 2))) &&&
        (2 ^ (if c < B then 8 else 16) - 1) =
      (addr >>> 8) &&& (2 ^ (if c < B then 8 else 16) - 1) := by
  apply Nat.eq_of_testBit_eq
  intro i
  simp only [Nat.testBit_and, Nat.testBit_shiftRight, Nat.testBit_two_pow_sub_one,
    set_ctable_testBit B m c addr hc]
  by_cases hi : i < (if c < B then 8 else 16)
  · have h1 : 16 * (c % 2) ≤ 16 * (c % 2) + i ∧
        16 * (c % 2) + i < 16 * (c % 2) + (if c < B then 8 else 16) := by omega
    have h2 : 16 * (c % 2) + i - 16 * (c % 2) = i := by omega
    simp only [h1, and_self, if_true, h2, hi, decide_True, Bool.true_and, Bool.and_true]
  · simp only [hi, decide_False, Bool.and_false]

/-- C11: for every slot `c` (its register offset representable), address and
prior register contents, `pru_rproc_set_ctable` returns 0 and the register at
`CTBIR0 + 4 * (c div 2)` then holds, at bit 0 for even `c` and bit 16 for odd
`c`, the 8-bit field `(addr >> 8) & 0xFF` when `c` is below `PRU_C28` and the
16-bit field `(addr >> 8) & 0xFFFF` otherwise.  Addresses that agree above
their low 8 bits give the same result.  For `addr = 0x1234` slot 10 (below the
boundary) gets 0x12 in the low byte of the low half of register 0x34 and slot
30 (at or above it) gets 0x0012 in the low half of register 0x5C. -/
theorem pru_rproc_set_ctable_spec (PRU_C28 : Nat) (m : pru_machine) (c addr : Nat)
    (hc : PRU_CTRL_CTBIR0 + 4 * (c / 2) < 4294967296) :
    (pru_rproc_set_ctable PRU_C28 m c addr).1 = 0 ∧
    (c < PRU_C28 →
      (pru_control_read_reg (pru_rproc_set_ctable PRU_C28 m c addr).2
          (PRU_CTRL_CTBIR0 + 4 * (c / 2)) >>> (16 * (c % 2))) &&& 0xFF =
        (addr >>> 8) &&& 0xFF) ∧
    (PRU_C28 ≤ c →
      (pru_control_read_reg (pru_rproc_set_ctable PRU_C28 m c addr).2
          (PRU_CTRL_CTBIR0 + 4 * (c / 2)) >>> (16 * (c % 2))) &&& 0xFFFF =
        (addr >>> 8) &&& 0xFFFF) ∧
    (∀ addr2, addr2 / 256 = addr / 256 →
      pru_rproc_set_ctable PRU_C28 m c addr2 = pru_rproc_set_ctable PRU_C28 m c addr) ∧
    (c = 10 → c < PRU_C28 → addr = 0x1234 →
      pru_control_read_reg (pru_rproc_set_ctable PRU_C28 m c addr).2 0x34 &&& 0xFF = 0x12) ∧
    (c = 30 → PRU_C28 ≤ c → addr = 0x1234 →
      pru_control_read_reg (pru_rproc_set_ctable PRU_C28 m c addr).2 0x5C &&& 0xFFFF =
        0x0012) := by
  have hf := set_ctable_field PRU_C28 m c addr hc
  refine ⟨rfl, ?_, ?_, ?_, ?_, ?_⟩
  · intro hb
    simpa [hb] using hf
  · intro hb
    have hb2 : ¬ c < PRU_C28 := by omega
    simpa [hb2] using hf
  · intro addr2 h2
    have : addr2 >>> 8 = addr >>> 8 := by
      rw [Nat.shiftRight_eq_div_pow, Nat.shiftRight_eq_div_pow]
      exact h2
    unfold pru_rproc_set_ctable
    simp only [this]
  · intro h10 hb ha
    subst h10 ha
    simpa [hb, PRU_CTRL_CTBIR0] using hf
  · intro h30 hb ha
    subst h30 ha
    have hb2 : ¬ 30 < PRU_C28 := by omega
    simpa [hb2, PRU_CTRL_CTBIR0] using hf

/-- C11 (witness): with the boundary at 28, slot 10 turns register 0x34 from
0xABCD5678 into 0xABCD5612 and slot 30 turns register 0x5C from 0xFFFFFFFF into
0xFFFF0012, for the address 0x1234. -/
theorem pru_rproc_set_ctable_spec_witness :
    pru_control_read_reg (pru_rproc_set_ctable 28 machine_example 10 0x1234).2 0x34 &&& 0xFF =
      0x12 ∧
    pru_control_read_reg (pru_rproc_set_ctable 28 machine_example 30 0x1234).2 0x5C &&&
      0xFFFF = 0x0012 ∧
    pru_control_read_reg (pru_rproc_set_ctable 28 machine_example 10 0x1234).2 0x34 =
      0xABCD5612 :=
  ⟨(pru_rproc_set_ctable_spec 28 machine_example 10 0x1234 (by decide)).2.2.2.2.1
      rfl (by decide) rfl,
   (pru_rproc_set_ctable_spec 28 machine_example 30 0x1234 (by decide)).2.2.2.2.2
      rfl (by decide) rfl,
   by decide⟩

/-- C12: `pru_rproc_set_ctable` changes only the bits of the selected index
field: every other control register keeps its value, every bit of the selected
register outside the field (8 bits wide below `PRU_C28`, 16 bits at or above
it, at bit 0 for even and bit 16 for odd `c`) reads as before, the other
half-word included, and nothing outside the control registers changes. -/
theorem pru_rproc_set_ctable_frame (PRU_C28 : Nat) (m : pru_machine) (c addr : Nat)
    (hc : PRU_CTRL_CTBIR0 + 4 * (c / 2) < 4294967296) :
    (∀ r, r ≠ PRU_CTRL_CTBIR0 + 4 * (c / 2) →
      (pru_rproc_set_ctable PRU_C28 m c addr).2.ctrl r = m.ctrl r) ∧
    (∀ i, ¬ (16 * (c % 2) ≤ i ∧ i < 16 * (c % 2) + (if c < PRU_C28 then 8 else 16)) →
      (pru_control_read_reg (pru_rproc_set_ctable PRU_C28 m c addr).2
          (PRU_CTRL_CTBIR0 + 4 * (c / 2))).testBit i =
        (pru_control_read_reg m (PRU_CTRL_CTBIR0 + 4 * (c / 2))).testBit i) ∧
    (∀ i, c % 2 = 0 → 16 ≤ i →
      (pru_control_read_reg (pru_rproc_set_ctable PRU_C28 m c addr).2
          (PRU_CTRL_CTBIR0 + 4 * (c / 2))).testBit i =
        (pru_control_read_reg m (PRU_CTRL_CTBIR0 + 4 * (c / 2))).testBit i) ∧
    (∀ i, c % 2 = 1 → i < 16 →
      (pru_control_read_reg (pru_rproc_set_ctable PRU_C28 m c addr).2
          (PRU_CTRL_CTBIR0 + 4 * (c / 2))).testBit i =
        (pru_control_read_reg m (PRU_CTRL_CTBIR0 + 4 * (c / 2))).testBit i) ∧
    (pru_rproc_set_ctable PRU_C28 m c addr).2.core = m.core ∧
    (pru_rproc_set_ctable PRU_C28 m c addr).2.bootaddr = m.bootaddr ∧
    (pru_rproc_set_ctable PRU_C28 m c addr).2.rvdevs = m.rvdevs ∧
    (pru_rproc_set_ctable PRU_C28 m c addr).2.vring_handler = m.vring_handler := by
  have hout : ∀ i, ¬ (16 * (c % 2) ≤ i ∧
      i < 16 * (c % 2) + (if c < PRU_C28 then 8 else 16)) →
      (pru_control_read_reg (pru_rproc_set_ctable PRU_C28 m c addr).2
          (PRU_CTRL_CTBIR0 + 4 * (c / 2))).testBit i =
        (pru_control_read_reg m (PRU_CTRL_CTBIR0 + 4 * (c / 2))).testBit i := by
    intro i hi
    rw [set_ctable_testBit PRU_C28 m c addr hc i, if_neg hi]
  refine ⟨?_, hout, ?_, ?_, ?_, ?_, ?_, ?_⟩
  · intro r hr
    rw [set_ctable_eq PRU_C28 m c addr hc]
    simp only [pru_control_write_reg, hr, if_false]
  · intro i he hi
    apply hout
    split_ifs <;> omega
  · intro i ho hi
    apply hout
    omega
  all_goals (rw [set_ctable_eq PRU_C28 m c addr hc]; rfl)

/-- C12 (witness): writing slot 11 (an 8-bit field in the high half) for the
address 0x1234 turns register 0x34 from 0xABCD5678 into 0xAB125678 and leaves
CTRL and register 0x5C as they were. -/
theorem pru_rproc_set_ctable_frame_witness :
    (pru_rproc_set_ctable 28 machine_example 11 0x1234).2.ctrl 0x34 = 0xAB125678 ∧
    (pru_rproc_set_ctable 28 machine_example 11 0x1234).2.ctrl 0x5C = 0xFFFFFFFF ∧
    (pru_rproc_set_ctable 28 machine_example 11 0x1234).2.ctrl 0 = 0x0000800B :=
  ⟨by decide,
   (pru_rproc_set_ctable_frame 28 machine_example 11 0x1234 (by decide)).1 0x5C (by decide),
   (pru_rproc_set_ctable_frame 28 machine_example 11 0x1234 (by decide)).1 0 (by decide)⟩

theorem start_no_rvdevs (ret : Int) (m : pru_machine) (h0 : m.rvdevs = 0) :
    pru_rproc_start ret m = pru_rproc_start_run [] m := by
  simp [pru_rproc_start, h0]

theorem start_mbox (ret : Int) (m : pru_machine) (hmb : m.core.pru.mbox = true) :
    pru_rproc_start ret m = pru_rproc_start_run [] m := by
  simp [pru_rproc_start, hmb]

theorem start_misconfigured (ret : Int) (m : pru_machine) (hr : m.rvdevs ≠ 0)
    (hmb : m.core.pru.mbox = false)
    (hl : m.core.pru.irq_vring ≤ 0 ∨ m.core.pru.irq_kick ≤ 0) :
    pru_rproc_start ret m = pru_rproc_start_fail (-EINVAL) [] m := by
  have hl2 : (decide (m.core.pru.irq_vring ≤ 0) || decide (m.core.pru.irq_kick ≤ 0)) =
      true := by simpa using hl
  simp [pru_rproc_start, hr, hmb, hl2]

theorem start_lines (ret : Int) (m : pru_machine) (hr : m.rvdevs ≠ 0)
    (hmb : m.core.pru.mbox = false)
    (hv : 0 < m.core.pru.irq_vring) (hk : 0 < m.core.pru.irq_kick) :
    pru_rproc_start ret m =
      if ret ≠ 0 then
        pru_rproc_start_fail ret [collab_call.request_irq m.core.pru.irq_vring] m
      else
        pru_rproc_start_run [collab_call.request_irq m.core.pru.irq_vring]
          { m with vring_handler := true } := by
  have hl2 : (decide (m.core.pru.irq_vring ≤ 0) || decide (m.core.pru.irq_kick ≤ 0)) =
      false := by
    simp only [Bool.or_eq_false_iff, decide_eq_false_iff_not]
    omega
  simp [pru_rproc_start, hr, hmb, hl2, hv]

theorem start_fail_facts (ret : Int) (calls : List collab_call) (m : pru_machine) :
    (pru_rproc_start_fail ret calls m).1 = ret ∧
    (pru_rproc_start_fail ret calls m).2.1.ctrl = m.ctrl ∧
    (pru_rproc_start_fail ret calls m).2.1.vring_handler = m.vring_handler ∧
    (∀ irq, collab_call.request_irq irq ∈ (pru_rproc_start_fail ret calls m).2.2 ↔
      collab_call.request_irq irq ∈ calls) := by
  unfold pru_rproc_start_fail
  split_ifs <;> simp

/-- C13: `pru_rproc_start` succeeds when the core has no virtio devices,
whatever transport is configured.  With devices present it takes the
misconfigured-transport failure (`-EINVAL`, no handler installation attempted,
control registers untouched) exactly when there is no mailbox channel and
`irq_vring <= 0` or `irq_kick <= 0`; with devices and a usable transport it
fails only if installing the vring handler fails, then with that call's code
and without writing the control registers. -/
theorem pru_rproc_start_transport (ret : Int) (m : pru_machine) :
    (m.rvdevs = 0 → (pru_rproc_start ret m).1 = 0) ∧
    (m.rvdevs ≠ 0 →
      (((pru_rproc_start ret m).1 ≠ 0 ∧
          ∀ irq, collab_call.request_irq irq ∉ (pru_rproc_start ret m).2.2) ↔
        (m.core.pru.mbox = false ∧ (m.core.pru.irq_vring ≤ 0 ∨ m.core.pru.irq_kick ≤ 0)))) ∧
    (m.rvdevs ≠ 0 →
      (m.core.pru.mbox = false ∧ (m.core.pru.irq_vring ≤ 0 ∨ m.core.pru.irq_kick ≤ 0)) →
      (pru_rproc_start ret m).1 = -EINVAL ∧ (pru_rproc_start ret m).2.1.ctrl = m.ctrl) ∧
    (m.rvdevs ≠ 0 →
      ¬ (m.core.pru.mbox = false ∧ (m.core.pru.irq_vring ≤ 0 ∨ m.core.pru.irq_kick ≤ 0)) →
      ((pru_rproc_start ret m).1 ≠ 0 ↔ (m.core.pru.mbox = false ∧ ret ≠ 0)) ∧
      ((pru_rproc_start ret m).1 ≠ 0 →
        (pru_rproc_start ret m).1 = ret ∧
        collab_call.request_irq m.core.pru.irq_vring ∈ (pru_rproc_start ret m).2.2 ∧
        (pru_rproc_start ret m).2.1.ctrl = m.ctrl)) := by
  have hne : (-EINVAL : Int) ≠ 0 := by simp [EINVAL]
  have hbad : m.rvdevs ≠ 0 →
      (m.core.pru.mbox = false ∧ (m.core.pru.irq_vring ≤ 0 ∨ m.core.pru.irq_kick ≤ 0)) →
      (pru_rproc_start ret m).1 = -EINVAL ∧ (pru_rproc_start ret m).2.1.ctrl = m.ctrl ∧
      ∀ irq, collab_call.request_irq irq ∉ (pru_rproc_start ret m).2.2 := by
    intro hr ⟨hmb, hl⟩
    rw [start_misconfigured ret m hr hmb hl]
    obtain ⟨f1, f2, -, f4⟩ := start_fail_facts (-EINVAL) [] m
    exact ⟨f1, f2, fun irq h => by simpa using (f4 irq).1 h⟩
  have hgood : m.rvdevs ≠ 0 →
      ¬ (m.core.pru.mbox = false ∧ (m.core.pru.irq_vring ≤ 0 ∨ m.core.pru.irq_kick ≤ 0)) →
      ((pru_rproc_start ret m).1 ≠ 0 ↔ (m.core.pru.mbox = false ∧ ret ≠ 0)) ∧
      ((pru_rproc_start ret m).1 ≠ 0 →
        (pru_rproc_start ret m).1 = ret ∧
        collab_call.request_irq m.core.pru.irq_vring ∈ (pru_rproc_start ret m).2.2 ∧
        (pru_rproc_start ret m).2.1.ctrl = m.ctrl) := by
    intro hr hus
    cases hmb : m.core.pru.mbox
    · have hv : 0 < m.core.pru.irq_vring := by
        by_contra hcon
        exact hus ⟨hmb, Or.inl (by omega)⟩
      have hk : 0 < m.core.pru.irq_kick := by
        by_contra hcon
        exact hus ⟨hmb, Or.inr (by omega)⟩
      rw [start_lines ret m hr hmb hv hk]
      by_cases hret : ret = 0
      · simp [hret, pru_rproc_start_run]
      · obtain ⟨f1, f2, -, f4⟩ := start_fail_facts ret
          [collab_call.request_irq m.core.pru.irq_vring] m
        rw [if_pos hret]
        refine ⟨⟨fun _ => ⟨rfl, hret⟩, fun _ => by rw [f1]; exact hret⟩, fun _ => ?_⟩
        exact ⟨f1, (f4 _).2 (by simp), f2⟩
    · rw [start_mbox ret m hmb]
      simp [pru_rproc_start_run]
  refine ⟨?_, ?_, ?_, hgood⟩
  · intro h0
    rw [start_no_rvdevs ret m h0]
    rfl
  · intro hr
    constructor
    · rintro ⟨hfail, hno⟩
      by_contra hus
      obtain ⟨-, g2⟩ := hgood hr hus
      exact hno _ (g2 hfail).2.1
    · intro hcond
      obtain ⟨b1, -, b3⟩ := hbad hr hcond
      exact ⟨by rw [b1]; exact hne, b3⟩
  · intro hr hcond
    obtain ⟨b1, b2, -⟩ := hbad hr hcond
    exact ⟨b1, b2⟩

/-- C13 (witness): the example machine has a virtio device and neither mailbox
nor interrupt lines, so start fails with `-EINVAL`; without virtio devices it
starts; with both lines configured it starts unless the handler cannot be
installed. -/
theorem pru_rproc_start_transport_witness :
    (pru_rproc_start 0 machine_example).1 = -EINVAL ∧
    (pru_rproc_start 0 { machine_example with rvdevs := 0 }).1 = 0 ∧
    ((pru_rproc_start (-EBUSY) machine_irq_lines).1 ≠ 0 ↔
      (machine_irq_lines.core.pru.mbox = false ∧ (-EBUSY : Int) ≠ 0)) :=
  ⟨((pru_rproc_start_transport 0 machine_example).2.2.1 (by decide) (by decide)).1,
   (pru_rproc_start_transport 0 { machine_example with rvdevs := 0 }).1 rfl,
   ((pru_rproc_start_transport (-EBUSY) machine_irq_lines).2.2.2 (by decide) (by decide)).1⟩

theorem start_ok_ctrl (ret : Int) (m : pru_machine) (hok : (pru_rproc_start ret m).1 = 0) :
    pru_control_read_reg (pru_rproc_start ret m).2.1 PRU_CTRL_CTRL =
      (CTRL_CTRL_EN ||| ((m.bootaddr >>> 2) <<< 16)) % 4294967296 := by
  have hrun : ∀ calls (m1 : pru_machine), m1.bootaddr = m.bootaddr →
      pru_control_read_reg (pru_rproc_start_run calls m1).2.1 PRU_CTRL_CTRL =
        (CTRL_CTRL_EN ||| ((m.bootaddr >>> 2) <<< 16)) % 4294967296 := by
    intro calls m1 hb
    simp [pru_rproc_start_run, read_write_same, hb]
  have hfail : ∀ r calls, r ≠ 0 → (pru_rproc_start_fail r calls m).1 ≠ 0 := by
    intro r calls hr
    rw [(start_fail_facts r calls m).1]
    exact hr
  by_cases h0 : m.rvdevs = 0
  · rw [start_no_rvdevs ret m h0]
    exact hrun _ _ rfl
  · cases hmb : m.core.pru.mbox
    · by_cases hl : m.core.pru.irq_vring ≤ 0 ∨ m.core.pru.irq_kick ≤ 0
      · rw [start_misconfigured ret m h0 hmb hl] at hok
        exact absurd hok (hfail _ _ (by simp [EINVAL]))
      · have hv : 0 < m.core.pru.irq_vring := by omega
        have hk : 0 < m.core.pru.irq_kick := by omega
        rw [start_lines ret m h0 hmb hv hk] at hok ⊢
        by_cases hret : ret = 0
        · rw [if_neg (by simp [hret])]
          exact hrun _ _ rfl
        · rw [if_pos hret] at hok
          exact absurd hok (hfail _ _ hret)
    · rw [start_mbox ret m hmb]
      exact hrun _ _ rfl

/-- C14: after a successful `pru_rproc_start` the control register reads
`CTRL_CTRL_EN | ((bootaddr >> 2) << 16)` in 32-bit arithmetic: bit 1 (run
enable) is set, bits 16..31 hold the low 16 bits of the entry point divided
by 4 (the entry point divided by 4 itself when that is below 2^16), and every
other bit is zero. -/
theorem pru_rproc_start_ctrl_value (ret : Int) (m : pru_machine)
    (hok : (pru_rproc_start ret m).1 = 0) :
    pru_control_read_reg (pru_rproc_start ret m).2.1 PRU_CTRL_CTRL =
      (CTRL_CTRL_EN ||| ((m.bootaddr >>> 2) <<< 16)) % 4294967296 ∧
    (pru_control_read_reg (pru_rproc_start ret m).2.1 PRU_CTRL_CTRL).testBit 1 = true ∧
    pru_control_read_reg (pru_rproc_start ret m).2.1 PRU_CTRL_CTRL >>> 16 =
      (m.bootaddr / 4) % 65536 ∧
    (m.bootaddr / 4 < 65536 →
      pru_control_read_reg (pru_rproc_start ret m).2.1 PRU_CTRL_CTRL >>> 16 =
        m.bootaddr / 4) ∧
    (∀ i, i ≠ 1 → i < 16 ∨ 32 ≤ i →
      (pru_control_read_reg (pru_rproc_start ret m).2.1 PRU_CTRL_CTRL).testBit i = false) := by
  have hv := start_ok_ctrl ret m hok
  have hpow : (4294967296 : Nat) = 2 ^ 32 := by norm_num
  have hen : CTRL_CTRL_EN = 2 ^ 1 := rfl
  have hbit : ∀ i, (pru_control_read_reg (pru_rproc_start ret m).2.1 PRU_CTRL_CTRL).testBit i =
      (decide (i < 32) && (decide (1 = i) ||
        (decide (i ≥ 16) && (m.bootaddr >>> 2).testBit (i - 16)))) := by
    intro i
    rw [hv, hpow, hen, Nat.testBit_mod_two_pow, Nat.testBit_or, Nat.testBit_two_pow,
      Nat.testBit_shiftLeft]
  have hdiv : m.bootaddr >>> 2 = m.bootaddr / 4 := by
    simp [Nat.shiftRight_eq_div_pow]
  have hhi : pru_control_read_reg (pru_rproc_start ret m).2.1 PRU_CTRL_CTRL >>> 16 =
      (m.bootaddr / 4) % 65536 := by
    apply Nat.eq_of_testBit_eq
    intro i
    have h65 : (65536 : Nat) = 2 ^ 16 := by norm_num
    rw [Nat.testBit_shiftRight, hbit, h65, Nat.testBit_mod_two_pow, ← hdiv]
    by_cases hi : i < 16
    · have h1 : 16 + i < 32 := by omega
      have h2 : ¬ 1 = 16 + i := by omega
      have h3 : 16 + i ≥ 16 := by omega
      have h4 : 16 + i - 16 = i := by omega
      simp [hi, h1, h2, h3, h4]
    · have h1 : ¬ 16 + i < 32 := by omega
      simp [hi, h1]
  refine ⟨hv, ?_, hhi, ?_, ?_⟩
  · rw [hbit]
    simp
  · intro hsmall
    rw [hhi, Nat.mod_eq_of_lt hsmall]
  · intro i h1 hr
    rw [hbit]
    rcases hr with hr | hr
    · have h2 : ¬ 1 = i := fun h => h1 h.symm
      have h3 : ¬ i ≥ 16 := by omega
      simp [h2, h3]
    · have h2 : ¬ i < 32 := by omega
      simp [h2]

/-- C14 (witness): started without virtio devices at entry point 0x100, the
example machine has CTRL = 0x00400002. -/
theorem pru_rproc_start_ctrl_value_witness :
    pru_control_read_reg (pru_rproc_start 0 { machine_example with rvdevs := 0 }).2.1
      PRU_CTRL_CTRL = 0x00400002 :=
  (pru_rproc_start_ctrl_value 0 { machine_example with rvdevs := 0 } (by decide)).1

/-- C15: `pru_rproc_stop` returns 0 and leaves the control register equal to
its prior value with bit 1 (run enable) cleared and every other bit unchanged;
on a core whose run-enable bit is already clear the register keeps its value,
and a second stop leaves the register as the first one left it. -/
theorem pru_rproc_stop_clears_enable (m : pru_machine) (v : Nat)
    (hv : pru_control_read_reg m PRU_CTRL_CTRL = v) :
    (pru_rproc_stop m).1 = 0 ∧
    (pru_control_read_reg (pru_rproc_stop m).2.1 PRU_CTRL_CTRL).testBit 1 = false ∧
    (∀ i, i ≠ 1 →
      (pru_control_read_reg (pru_rproc_stop m).2.1 PRU_CTRL_CTRL).testBit i = v.testBit i) ∧
    (v.testBit 1 = false → pru_control_read_reg (pru_rproc_stop m).2.1 PRU_CTRL_CTRL = v) ∧
    pru_control_read_reg (pru_rproc_stop (pru_rproc_stop m).2.1).2.1 PRU_CTRL_CTRL =
      pru_control_read_reg (pru_rproc_stop m).2.1 PRU_CTRL_CTRL := by
  have hpow : (4294967296 : Nat) = 2 ^ 32 := by norm_num
  have hstop : ∀ m1 : pru_machine,
      pru_control_read_reg (pru_rproc_stop m1).2.1 PRU_CTRL_CTRL =
        (pru_control_read_reg m1 PRU_CTRL_CTRL &&& (0xFFFFFFFF ^^^ CTRL_CTRL_EN)) %
          4294967296 := by
    intro m1
    unfold pru_rproc_stop
    simp only []
    split_ifs <;> simp [pru_control_read_reg, pru_control_write_reg, pruss_intc_unconfigure]
  have hbit : ∀ (m1 : pru_machine) (i : Nat),
      (pru_control_read_reg (pru_rproc_stop m1).2.1 PRU_CTRL_CTRL).testBit i =
        (decide (i ≠ 1) && (pru_control_read_reg m1 PRU_CTRL_CTRL).testBit i) := by
    intro m1 i
    have hm : (0xFFFFFFFF : Nat) = 2 ^ 32 - 1 := by norm_num
    have hen : CTRL_CTRL_EN = 2 ^ 1 := rfl
    rw [hstop, hpow, Nat.testBit_mod_two_pow, Nat.testBit_and, Nat.testBit_xor, hm,
      Nat.testBit_two_pow_sub_one, hen, Nat.testBit_two_pow]
    have hlt : ¬ i < 32 → (pru_control_read_reg m1 PRU_CTRL_CTRL).testBit i = false := by
      intro h
      unfold pru_control_read_reg
      rw [hpow, Nat.testBit_mod_two_pow]
      simp [h]
    by_cases h32 : i < 32
    · by_cases h1 : i = 1
      · subst h1; simp
      · have h2 : ¬ 1 = i := fun h => h1 h.symm
        simp [h32, h1, h2]
    · simp [h32, hlt h32]
  refine ⟨?_, ?_, ?_, ?_, ?_⟩
  · rfl
  · rw [hbit]; simp
  · intro i hi
    rw [hbit, hv]
    simp [hi]
  · intro h1
    apply Nat.eq_of_testBit_eq
    intro i
    rw [hbit, hv]
    by_cases hi : i = 1
    · subst hi; simp [h1]
    · simp [hi]
  · apply Nat.eq_of_testBit_eq
    intro i
    rw [hbit, hbit]
    by_cases hi : i = 1 <;> simp [hi]

/-- C15 (witness): stopping the running example machine turns CTRL from
0x0000800B into 0x00008009; stopping the stopped one leaves 0x00008009. -/
theorem pru_rproc_stop_clears_enable_witness :
    (pru_rproc_stop machine_example).1 = 0 ∧
    (pru_control_read_reg (pru_rproc_stop machine_example).2.1 PRU_CTRL_CTRL).testBit 1 =
      false ∧
    pru_control_read_reg (pru_rproc_stop machine_stopped).2.1 PRU_CTRL_CTRL = 0x00008009 :=
  ⟨(pru_rproc_stop_clears_enable machine_example 0x0000800B (by decide)).1,
   (pru_rproc_stop_clears_enable machine_example 0x0000800B (by decide)).2.1,
   (pru_rproc_stop_clears_enable machine_stopped 0x00008009 (by decide)).2.2.2.1
     (by decide)⟩

/-- C19: `pru_rproc_kick` makes at most one notification call: it raises the
trigger line `irq_kick` when `irq_kick > 0`; otherwise, when a mailbox channel
is held, it sends the queue id as the message; otherwise it makes no call.
Whatever code the call returns, the kick returns and the state is unchanged. -/
theorem pru_rproc_kick_paths (ret : Int) (m : pru_machine) (vq_id : Int) :
    (pru_rproc_kick ret m vq_id).2.length ≤ 1 ∧
    (0 < m.core.pru.irq_kick →
      (pru_rproc_kick ret m vq_id).2 = [collab_call.intc_trigger m.core.pru.irq_kick]) ∧
    (m.core.pru.irq_kick ≤ 0 → m.core.pru.mbox = true →
      (pru_rproc_kick ret m vq_id).2 = [collab_call.mbox_send vq_id]) ∧
    (m.core.pru.irq_kick ≤ 0 → m.core.pru.mbox = false →
      (pru_rproc_kick ret m vq_id).2 = []) ∧
    (pru_rproc_kick ret m vq_id).1 = m ∧
    (pru_rproc_kick ret m vq_id).2 = (pru_rproc_kick 0 m vq_id).2 := by
  unfold pru_rproc_kick
  refine ⟨?_, ?_, ?_, ?_, ?_, rfl⟩
  · split_ifs <;> simp
  · intro hk
    rw [if_pos hk]
  · intro hk hmb
    rw [if_neg (by omega), if_pos hmb]
  · intro hk hmb
    rw [if_neg (by omega), if_neg (by simp [hmb])]
  · split_ifs <;> rfl

/-- C19 (witness): with kick line 51 the trigger is raised even when the call
reports `-EINVAL`; with only a mailbox the queue id 1 is sent; with neither
nothing is done. -/
theorem pru_rproc_kick_paths_witness :
    (pru_rproc_kick (-EINVAL) machine_irq_lines 1).2 = [collab_call.intc_trigger 51] ∧
    (pru_rproc_kick 0 machine_mbox 1).2 = [collab_call.mbox_send 1] ∧
    (pru_rproc_kick 0 machine_example 1).2 = [] :=
  ⟨(pru_rproc_kick_paths (-EINVAL) machine_irq_lines 1).2.1 (by decide),
   (pru_rproc_kick_paths 0 machine_mbox 1).2.2.1 (by decide) (by decide),
   (pru_rproc_kick_paths 0 machine_example 1).2.2.2.1 (by decide) (by decide)⟩

theorem last_pair_channel_cons (p : pruss_event_chnl) (ps : List pruss_event_chnl) (e : Nat) :
    last_pair_channel (p :: ps) e =
      match last_pair_channel ps e with
      | some c => some c
      | none => if p.event = (e : Int) then some p.chnl else none := by
  unfold last_pair_channel
  rw [getLast?_filter_cons]
  cases (ps.filter (fun p => decide (p.event = (e : Int)))).getLast? with
  | some x => rfl
  | none =>
    by_cases h : p.event = (e : Int) <;> simp [h]

theorem listed_pairs_succ (map : Nat → pruss_event_chnl) (i n : Nat) :
    listed_pairs map i (n + 1) = map i :: listed_pairs map (i + 1) n := by
  simp [listed_pairs, List.range'_succ]

/-- The event loop of the descriptor form: return code and table, slot by
slot. -/
theorem intrmap_events_spec (L : pruss_limits) (map : Nat → pruss_event_chnl) :
    ∀ (n i : Nat) (cfg : pruss_intc_config),
      cfg.sysev_to_ch.length = L.MAX_PRU_SYS_EVENTS →
      ((pru_handle_vendor_intrmap_events L map n i cfg).1 =
          if (listed_pairs map i n).all (pruss_event_chnl.in_bounds L) then 0 else -EINVAL) ∧
      (pru_handle_vendor_intrmap_events L map n i cfg).2.sysev_to_ch.length =
        L.MAX_PRU_SYS_EVENTS ∧
      (pru_handle_vendor_intrmap_events L map n i cfg).2.ch_to_host = cfg.ch_to_host ∧
      (∀ e : Nat, (pru_handle_vendor_intrmap_events L map n i cfg).2.sysev_to_ch[e]? =
          match last_pair_channel
              ((listed_pairs map i n).takeWhile (pruss_event_chnl.in_bounds L)) e with
          | some c => some c
          | none => cfg.sysev_to_ch[e]?) := by
  intro n
  induction n with
  | zero =>
    intro i cfg hs
    simp [pru_handle_vendor_intrmap_events, listed_pairs, last_pair_channel, hs]
  | succ n ih =>
    intro i cfg hs
    rw [listed_pairs_succ]
    by_cases hb : pruss_event_chnl.in_bounds L (map i) = true
    · have hb2 := hb
      simp only [pruss_event_chnl.in_bounds, Bool.and_eq_true, decide_eq_true_eq] at hb2
      obtain ⟨⟨⟨e0, e1⟩, c0⟩, c1⟩ := hb2
      have hloop : pru_handle_vendor_intrmap_events L map (n + 1) i cfg =
          pru_handle_vendor_intrmap_events L map n (i + 1)
            { cfg with sysev_to_ch := cfg.sysev_to_ch.set (map i).event.toNat (map i).chnl } := by
        rw [pru_handle_vendor_intrmap_events]
        have n1 : ¬ ((map i).event < 0 ∨ (map i).event ≥ (L.MAX_PRU_SYS_EVENTS : Int)) := by
          omega
        have n2 : ¬ ((map i).chnl < 0 ∨ (map i).chnl ≥ (L.MAX_PRU_CHANNELS : Int)) := by
          omega
        simp only [n1, n2, if_false]
      rw [hloop]
      obtain ⟨i1, i2, i3, i4⟩ := ih (i + 1)
        { cfg with sysev_to_ch := cfg.sysev_to_ch.set (map i).event.toNat (map i).chnl }
        (by simpa using hs)
      refine ⟨?_, i2, i3, ?_⟩
      · rw [i1]; simp [List.all_cons, hb]
      · intro e
        rw [i4 e, List.takeWhile_cons, if_pos hb, last_pair_channel_cons]
        cases last_pair_channel
            ((listed_pairs map (i + 1) n).takeWhile (pruss_event_chnl.in_bounds L)) e with
        | some x => rfl
        | none =>
          by_cases hee : (map i).event = (e : Int)
          · have h2 : (map i).event.toNat = e := by omega
            have h3 : e < cfg.sysev_to_ch.length := by omega
            simp [List.getElem?_set, hee, h2, h3]
          · have h2 : ¬ (map i).event.toNat = e := by omega
            simp [List.getElem?_set, hee, h2]
    · have hloop : pru_handle_vendor_intrmap_events L map (n + 1) i cfg = (-EINVAL, cfg) := by
        rw [pru_handle_vendor_intrmap_events]
        simp only [pruss_event_chnl.in_bounds, Bool.and_eq_true, decide_eq_true_eq] at hb
        by_cases n1 : (map i).event < 0 ∨ (map i).event ≥ (L.MAX_PRU_SYS_EVENTS : Int)
        · simp only [n1, if_true]
        · have n2 : (map i).chnl < 0 ∨ (map i).chnl ≥ (L.MAX_PRU_CHANNELS : Int) := by
            by_contra hcon
            apply hb
            omega
          simp only [n1, n2, if_true, if_false]
      rw [hloop]
      refine ⟨?_, hs, rfl, ?_⟩
      · simp [List.all_cons, hb]
      · intro e
        rw [List.takeWhile_cons, if_neg hb]
        rfl

theorem hosts_stop_zero (L : pruss_limits) (hmap : Nat → Int) (i : Nat) :
    hosts_stop L hmap i 0 = i := by
  simp [hosts_stop]

theorem hosts_stop_succ (L : pruss_limits) (hmap : Nat → Int) (i n : Nat) :
    hosts_stop L hmap i (n + 1) =
      if hmap i ≥ (L.MAX_PRU_HOST_INT : Int) then i else hosts_stop L hmap (i + 1) n := by
  unfold hosts_stop
  rw [List.range'_succ, List.find?_cons]
  by_cases h : hmap i ≥ (L.MAX_PRU_HOST_INT : Int)
  · simp [h]
  · simp only [h, decide_False, if_false]
    rw [Nat.add_right_comm, Nat.add_assoc]

theorem hosts_stop_bounds (L : pruss_limits) (hmap : Nat → Int) :
    ∀ (n i : Nat), i ≤ hosts_stop L hmap i n ∧ hosts_stop L hmap i n ≤ i + n := by
  intro n
  induction n with
  | zero => intro i; rw [hosts_stop_zero]; omega
  | succ n ih =>
    intro i
    rw [hosts_stop_succ]
    have := ih (i + 1)
    split_ifs <;> omega

/-- The channel loop of the descriptor form: return code and table, slot by
slot. -/
theorem intrmap_hosts_spec (L : pruss_limits) (hmap : Nat → Int) :
    ∀ (n i : Nat) (cfg : pruss_intc_config),
      cfg.ch_to_host.length = L.MAX_PRU_CHANNELS → i + n ≤ L.MAX_PRU_CHANNELS →
      ((pru_handle_vendor_intrmap_hosts L hmap n i cfg).1 =
          if hosts_stop L hmap i n = i + n then 0 else -EINVAL) ∧
      (pru_handle_vendor_intrmap_hosts L hmap n i cfg).2.sysev_to_ch = cfg.sysev_to_ch ∧
      (pru_handle_vendor_intrmap_hosts L hmap n i cfg).2.ch_to_host.length =
        L.MAX_PRU_CHANNELS ∧
      (∀ c : Nat, (pru_handle_vendor_intrmap_hosts L hmap n i cfg).2.ch_to_host[c]? =
          if i ≤ c ∧ c < hosts_stop L hmap i n ∧ 0 ≤ hmap c then some (hmap c)
          else cfg.ch_to_host[c]?) := by
  intro n
  induction n with
  | zero =>
    intro i cfg hc _
    rw [hosts_stop_zero]
    refine ⟨by simp [pru_handle_vendor_intrmap_hosts], rfl, hc, ?_⟩
    intro c
    rw [if_neg (by omega)]
    rfl
  | succ n ih =>
    intro i cfg hc hle
    have hb := hosts_stop_bounds L hmap n (i + 1)
    rw [hosts_stop_succ]
    by_cases hneg : hmap i < 0
    · have hng : ¬ hmap i ≥ (L.MAX_PRU_HOST_INT : Int) := by omega
      have hloop : pru_handle_vendor_intrmap_hosts L hmap (n + 1) i cfg =
          pru_handle_vendor_intrmap_hosts L hmap n (i + 1) cfg := by
        rw [pru_handle_vendor_intrmap_hosts]
        simp only [hneg, if_true]
      obtain ⟨i1, i2, i3, i4⟩ := ih (i + 1) cfg hc (by omega)
      rw [hloop, if_neg hng]
      refine ⟨?_, i2, i3, ?_⟩
      · rw [i1]
        have : i + 1 + n = i + (n + 1) := by omega
        rw [this]
      · intro c
        rw [i4 c]
        by_cases hci : c = i
        · subst hci
          rw [if_neg (by omega), if_neg (by omega)]
        · by_cases hcond : i + 1 ≤ c ∧ c < hosts_stop L hmap (i + 1) n ∧ 0 ≤ hmap c
          · rw [if_pos hcond, if_pos ⟨by omega, hcond.2.1, hcond.2.2⟩]
          · rw [if_neg hcond, if_neg]
            intro h
            exact hcond ⟨by omega, h.2.1, h.2.2⟩
    · by_cases hbig : hmap i ≥ (L.MAX_PRU_HOST_INT : Int)
      · have hloop : pru_handle_vendor_intrmap_hosts L hmap (n + 1) i cfg = (-EINVAL, cfg) := by
          rw [pru_handle_vendor_intrmap_hosts]
          simp only [hneg, hbig, if_true, if_false]
        rw [hloop, if_pos hbig]
        refine ⟨?_, rfl, hc, ?_⟩
        · rw [if_neg (by omega)]
        · intro c
          rw [if_neg (by omega)]
      · have hloop : pru_handle_vendor_intrmap_hosts L hmap (n + 1) i cfg =
            pru_handle_vendor_intrmap_hosts L hmap n (i + 1)
              { cfg with ch_to_host := cfg.ch_to_host.set i (hmap i) } := by
          rw [pru_handle_vendor_intrmap_hosts]
          simp only [hneg, hbig, if_false]
        obtain ⟨i1, i2, i3, i4⟩ := ih (i + 1)
          { cfg with ch_to_host := cfg.ch_to_host.set i (hmap i) } (by simpa using hc)
          (by omega)
        rw [hloop, if_neg hbig]
        refine ⟨?_, i2, i3, ?_⟩
        · rw [i1]
          have : i + 1 + n = i + (n + 1) := by omega
          rw [this]
        · intro c
          rw [i4 c]
          by_cases hci : c = i
          · subst hci
            rw [if_neg (by omega), if_pos ⟨le_refl _, by omega, by omega⟩]
            simp [List.getElem?_set, hc]
            omega
          · have hset : (cfg.ch_to_host.set i (hmap i))[c]? = cfg.ch_to_host[c]? := by
              simp [List.getElem?_set, Ne.symm hci]
            simp only [hset]
            by_cases hcond : i + 1 ≤ c ∧ c < hosts_stop L hmap (i + 1) n ∧ 0 ≤ hmap c
            · rw [if_pos hcond, if_pos ⟨by omega, hcond.2.1, hcond.2.2⟩]
            · rw [if_neg hcond, if_neg]
              intro h
              exact hcond ⟨by omega, h.2.1, h.2.2⟩

theorem hosts_stop_eq_iff (L : pruss_limits) (hmap : Nat → Int) :
    ∀ (n i : Nat), hosts_stop L hmap i n = i + n ↔
      ∀ c, i ≤ c → c < i + n → hmap c < (L.MAX_PRU_HOST_INT : Int) := by
  intro n
  induction n with
  | zero =>
    intro i
    rw [hosts_stop_zero]
    constructor
    · intro _ c h1 h2; omega
    · intro _; rfl
  | succ n ih =>
    intro i
    rw [hosts_stop_succ]
    have hb := hosts_stop_bounds L hmap n (i + 1)
    by_cases hbig : hmap i ≥ (L.MAX_PRU_HOST_INT : Int)
    · rw [if_pos hbig]
      constructor
      · intro h; omega
      · intro h
        have := h i (le_refl _) (by omega)
        omega
    · rw [if_neg hbig]
      have e1 : i + 1 + n = i + (n + 1) := by omega
      rw [← e1, ih (i + 1)]
      constructor
      · intro h c h1 h2
        by_cases hci : c = i
        · subst hci; omega
        · exact h c (by omega) h2
      · intro h c h1 h2
        exact h c (by omega) h2

/-- Where the version is 0, the pair count is in range and the pair array
resolves, the result of `pru_handle_vendor_intrmap` in full: return code,
calls made, table of the core slot by slot, controller. -/
theorem intrmap_reached_spec (L : pruss_limits) (cret : Int)
    (dmem : mem_target × Nat → Nat → pruss_event_chnl) (rsc : fw_rsc_vendor)
    (s : pru_state) (va : mem_target × Nat)
    (hver : rsc.st_ver = 0)
    (hsize : 0 ≤ rsc.event_chnl_map_size ∧
      rsc.event_chnl_map_size < (L.MAX_PRU_SYS_EVENTS : Int))
    (hres : pru_d_da_to_va s.pru s.pruss (rsc.event_chnl_map % 4294967296)
      (rsc.event_chnl_map_size * 2) = some va) :
    ((pru_handle_vendor_intrmap L cret dmem rsc s).1 =
      if (listed_pairs (dmem va) 0 rsc.event_chnl_map_size.toNat).all
            (pruss_event_chnl.in_bounds L) = true ∧
          hosts_stop L rsc.chnl_host_intr_map 0 L.MAX_PRU_CHANNELS = L.MAX_PRU_CHANNELS
      then cret else -EINVAL) ∧
    ((pru_handle_vendor_intrmap L cret dmem rsc s).2.2 =
      if (listed_pairs (dmem va) 0 rsc.event_chnl_map_size.toNat).all
            (pruss_event_chnl.in_bounds L) = true ∧
          hosts_stop L rsc.chnl_host_intr_map 0 L.MAX_PRU_CHANNELS = L.MAX_PRU_CHANNELS
      then [collab_call.intc_configure
        (pru_handle_vendor_intrmap L cret dmem rsc s).2.1.pru.intc_config] else []) ∧
    ((pru_handle_vendor_intrmap L cret dmem rsc s).2.1.pruss =
      if (listed_pairs (dmem va) 0 rsc.event_chnl_map_size.toNat).all
            (pruss_event_chnl.in_bounds L) = true ∧
          hosts_stop L rsc.chnl_host_intr_map 0 L.MAX_PRU_CHANNELS = L.MAX_PRU_CHANNELS ∧
          cret = 0
      then { s.pruss with
        intc := some (pru_handle_vendor_intrmap L cret dmem rsc s).2.1.pru.intc_config }
      else s.pruss) ∧
    (pru_handle_vendor_intrmap L cret dmem rsc s).2.1.pru.dt_irqs = s.pru.dt_irqs ∧
    (pru_handle_vendor_intrmap L cret dmem rsc s).2.1.pru.intc_config.sysev_to_ch.length =
      L.MAX_PRU_SYS_EVENTS ∧
    (pru_handle_vendor_intrmap L cret dmem rsc s).2.1.pru.intc_config.ch_to_host.length =
      L.MAX_PRU_CHANNELS ∧
    (∀ e, e < L.MAX_PRU_SYS_EVENTS →
      (pru_handle_vendor_intrmap L cret dmem rsc s).2.1.pru.intc_config.sysev_to_ch[e]? =
        some (slot_int (last_pair_channel
          ((listed_pairs (dmem va) 0 rsc.event_chnl_map_size.toNat).takeWhile
            (pruss_event_chnl.in_bounds L)) e))) ∧
    (∀ c, c < L.MAX_PRU_CHANNELS →
      (pru_handle_vendor_intrmap L cret dmem rsc s).2.1.pru.intc_config.ch_to_host[c]? =
        some (if (listed_pairs (dmem va) 0 rsc.event_chnl_map_size.toNat).all
              (pruss_event_chnl.in_bounds L) = true ∧
            c < hosts_stop L rsc.chnl_host_intr_map 0 L.MAX_PRU_CHANNELS ∧
            0 ≤ rsc.chnl_host_intr_map c
          then rsc.chnl_host_intr_map c else -1)) := by
  have hne : (-EINVAL : Int) ≠ 0 := by simp [EINVAL]
  obtain ⟨e1, e2, e3, e4⟩ := intrmap_events_spec L (dmem va)
    rsc.event_chnl_map_size.toNat 0 (intc_config_unmapped L) (by simp [intc_config_unmapped])
  have hsz : ¬ (rsc.event_chnl_map_size < 0 ∨
      rsc.event_chnl_map_size ≥ (L.MAX_PRU_SYS_EVENTS : Int)) := by omega
  have hsys : ∀ e, e < L.MAX_PRU_SYS_EVENTS →
      (pru_handle_vendor_intrmap_events L (dmem va) rsc.event_chnl_map_size.toNat 0
        (intc_config_unmapped L)).2.sysev_to_ch[e]? =
        some (slot_int (last_pair_channel
          ((listed_pairs (dmem va) 0 rsc.event_chnl_map_size.toNat).takeWhile
            (pruss_event_chnl.in_bounds L)) e)) := by
    intro e he
    rw [e4 e]
    cases last_pair_channel
        ((listed_pairs (dmem va) 0 rsc.event_chnl_map_size.toNat).takeWhile
          (pruss_event_chnl.in_bounds L)) e with
    | some x => rfl
    | none => simp [intc_config_unmapped, slot_int, he]
  unfold pru_handle_vendor_intrmap
  simp only [hver, ne_eq, not_true_eq_false, if_false, hsz, hres]
  by_cases hall : (listed_pairs (dmem va) 0 rsc.event_chnl_map_size.toNat).all
      (pruss_event_chnl.in_bounds L) = true
  · rw [hall, if_pos rfl] at e1
    obtain ⟨h1, h2, h3, h4⟩ := intrmap_hosts_spec L rsc.chnl_host_intr_map
      L.MAX_PRU_CHANNELS 0
      (pru_handle_vendor_intrmap_events L (dmem va) rsc.event_chnl_map_size.toNat 0
        (intc_config_unmapped L)).2
      (by rw [e3]; simp [intc_config_unmapped]) (by omega)
    simp only [Nat.zero_add] at h1
    have hch : ∀ c, c < L.MAX_PRU_CHANNELS →
        (pru_handle_vendor_intrmap_hosts L rsc.chnl_host_intr_map L.MAX_PRU_CHANNELS 0
          (pru_handle_vendor_intrmap_events L (dmem va) rsc.event_chnl_map_size.toNat 0
            (intc_config_unmapped L)).2).2.ch_to_host[c]? =
          some (if c < hosts_stop L rsc.chnl_host_intr_map 0 L.MAX_PRU_CHANNELS ∧
              0 ≤ rsc.chnl_host_intr_map c
            then rsc.chnl_host_intr_map c else -1) := by
      intro c hc
      rw [h4 c, e3]
      by_cases hcond : c < hosts_stop L rsc.chnl_host_intr_map 0 L.MAX_PRU_CHANNELS ∧
          0 ≤ rsc.chnl_host_intr_map c
      · rw [if_pos ⟨Nat.zero_le _, hcond⟩, if_pos hcond]
      · rw [if_neg (fun h => hcond h.2), if_neg hcond]
        simp [intc_config_unmapped, hc]
    simp only [e1, ne_eq, not_true_eq_false, if_false, hall, true_and]
    by_cases hstop : hosts_stop L rsc.chnl_host_intr_map 0 L.MAX_PRU_CHANNELS =
        L.MAX_PRU_CHANNELS
    · rw [if_pos hstop] at h1
      simp only [h1, ne_eq, not_true_eq_false, if_false, hstop, if_true, true_and]
      unfold pruss_intc_configure
      by_cases hc0 : cret = 0
      · simp only [hc0, if_true, and_self]
        refine ⟨trivial, trivial, trivial, trivial, ?_, h3, ?_, ?_⟩
        · rw [h2]; exact e2
        · intro e he; rw [h2]; exact hsys e he
        · intro c hc
          have := hch c hc
          rw [hstop] at this
          exact this
      · simp only [hc0, if_false, and_false]
        refine ⟨trivial, trivial, trivial, trivial, ?_, h3, ?_, ?_⟩
        · rw [h2]; exact e2
        · intro e he; rw [h2]; exact hsys e he
        · intro c hc
          have := hch c hc
          rw [hstop] at this
          exact this
    · rw [if_neg hstop] at h1
      simp only [h1, hne, ne_eq, not_false_eq_true, if_true, hstop, if_false, false_and]
      refine ⟨trivial, trivial, trivial, trivial, ?_, h3, ?_, ?_⟩
      · rw [h2]; exact e2
      · intro e he; rw [h2]; exact hsys e he
      · intro c hc; exact hch c hc
  · rw [if_neg hall] at e1
    simp only [e1, hne, ne_eq, not_false_eq_true, if_true, hall, Bool.false_eq_true,
      false_and, if_false]
    refine ⟨trivial, trivial, trivial, trivial, e2, ?_, hsys, ?_⟩
    · rw [e3]; simp [intc_config_unmapped]
    · intro c hc
      rw [e3]
      simp [intc_config_unmapped, hc]

theorem listed_pairs_all_iff (L : pruss_limits) (map : Nat → pruss_event_chnl) (n : Nat) :
    (listed_pairs map 0 n).all (pruss_event_chnl.in_bounds L) = true ↔
      ∀ i, i < n → pruss_event_chnl.in_bounds L (map i) = true := by
  unfold listed_pairs
  rw [List.all_eq_true]
  constructor
  · intro h i hi
    exact h (map i) (List.mem_map.2 ⟨i, by simp [List.mem_range']; omega, rfl⟩)
  · intro h p hp
    obtain ⟨i, hi, rfl⟩ := List.mem_map.1 hp
    apply h
    simp [List.mem_range'] at hi
    omega

/-- C18: for a descriptor of version 0 whose pair count is in range, whose
pair array resolves in data memory and whose fields are all within bounds,
`pru_handle_vendor_intrmap` hands the table to the controller, returns the
controller's code, and leaves a table in which `sysev_to_ch[e]` is the channel
of the last listed pair for event `e`, `ch_to_host[c]` is entry `c` of the
channel-to-host array when that entry is non-negative, and every other slot is
`-1`; nothing of the prior table enters. -/
theorem pru_handle_vendor_intrmap_builds_table (L : pruss_limits) (cret : Int)
    (dmem : mem_target × Nat → Nat → pruss_event_chnl) (rsc : fw_rsc_vendor)
    (s : pru_state) (va : mem_target × Nat)
    (hver : rsc.st_ver = 0)
    (hsize : 0 ≤ rsc.event_chnl_map_size ∧
      rsc.event_chnl_map_size < (L.MAX_PRU_SYS_EVENTS : Int))
    (hres : pru_d_da_to_va s.pru s.pruss (rsc.event_chnl_map % 4294967296)
      (rsc.event_chnl_map_size * 2) = some va)
    (hpairs : ∀ i, i < rsc.event_chnl_map_size.toNat →
      0 ≤ (dmem va i).event ∧ (dmem va i).event < (L.MAX_PRU_SYS_EVENTS : Int) ∧
      0 ≤ (dmem va i).chnl ∧ (dmem va i).chnl < (L.MAX_PRU_CHANNELS : Int))
    (hhosts : ∀ c, c < L.MAX_PRU_CHANNELS →
      rsc.chnl_host_intr_map c < (L.MAX_PRU_HOST_INT : Int)) :
    (pru_handle_vendor_intrmap L cret dmem rsc s).1 = cret ∧
    (pru_handle_vendor_intrmap L cret dmem rsc s).2.2 =
      [collab_call.intc_configure
        (pru_handle_vendor_intrmap L cret dmem rsc s).2.1.pru.intc_config] ∧
    (cret = 0 → (pru_handle_vendor_intrmap L cret dmem rsc s).2.1.pruss.intc =
      some (pru_handle_vendor_intrmap L cret dmem rsc s).2.1.pru.intc_config) ∧
    (pru_handle_vendor_intrmap L cret dmem rsc s).2.1.pru.intc_config.sysev_to_ch.length =
      L.MAX_PRU_SYS_EVENTS ∧
    (pru_handle_vendor_intrmap L cret dmem rsc s).2.1.pru.intc_config.ch_to_host.length =
      L.MAX_PRU_CHANNELS ∧
    (∀ e, e < L.MAX_PRU_SYS_EVENTS →
      (pru_handle_vendor_intrmap L cret dmem rsc s).2.1.pru.intc_config.sysev_to_ch[e]? =
        some (slot_int (last_pair_channel
          (listed_pairs (dmem va) 0 rsc.event_chnl_map_size.toNat) e))) ∧
    (∀ c, c < L.MAX_PRU_CHANNELS →
      (pru_handle_vendor_intrmap L cret dmem rsc s).2.1.pru.intc_config.ch_to_host[c]? =
        some (if 0 ≤ rsc.chnl_host_intr_map c then rsc.chnl_host_intr_map c else -1)) := by
  have hall : (listed_pairs (dmem va) 0 rsc.event_chnl_map_size.toNat).all
      (pruss_event_chnl.in_bounds L) = true := by
    rw [listed_pairs_all_iff]
    intro i hi
    obtain ⟨a, b, c, d⟩ := hpairs i hi
    simp [pruss_event_chnl.in_bounds, a, b, c, d]
  have hstop : hosts_stop L rsc.chnl_host_intr_map 0 L.MAX_PRU_CHANNELS =
      L.MAX_PRU_CHANNELS := by
    have := (hosts_stop_eq_iff L rsc.chnl_host_intr_map L.MAX_PRU_CHANNELS 0).2
      (fun c _ hc => hhosts c (by omega))
    simpa using this
  obtain ⟨r1, r2, r3, -, r5, r6, r7, r8⟩ :=
    intrmap_reached_spec L cret dmem rsc s va hver hsize hres
  rw [takeWhile_all _ _ hall] at r7
  refine ⟨?_, ?_, ?_, r5, r6, r7, ?_⟩
  · rw [r1, if_pos ⟨hall, hstop⟩]
  · rw [r2, if_pos ⟨hall, hstop⟩]
  · intro hc
    rw [r3, if_pos ⟨hall, hstop, hc⟩]
  · intro c hc
    rw [r8 c hc, hstop]
    by_cases h0 : 0 ≤ rsc.chnl_host_intr_map c
    · rw [if_pos ⟨hall, hc, h0⟩, if_pos h0]
    · rw [if_neg (fun h => h0 h.2.2), if_neg h0]

/-- C18 (witness): the example descriptor on the example core maps events 16
and 17 to channel 2 and channel 2 to host interrupt 4; every other slot is
unmapped. -/
theorem pru_handle_vendor_intrmap_builds_table_witness :
    (pru_handle_vendor_intrmap limits_spec 0 dmem_example rsc_example state_example).1 = 0 ∧
    (pru_handle_vendor_intrmap limits_spec 0 dmem_example rsc_example
      state_example).2.1.pru.intc_config.ch_to_host[2]? = some 4 ∧
    (pru_handle_vendor_intrmap limits_spec 0 dmem_example rsc_example
      state_example).2.1.pru.intc_config.ch_to_host[3]? = some (-1) := by
  have h := pru_handle_vendor_intrmap_builds_table limits_spec 0 dmem_example rsc_example
    state_example (mem_target.DRAM0, 256) (by decide) (by decide) (by decide)
    (by decide) (by decide)
  refine ⟨h.1, ?_, ?_⟩
  · rw [h.2.2.2.2.2.2 2 (by decide)]; decide
  · rw [h.2.2.2.2.2.2 3 (by decide)]; decide

/-- C17 (counterexample): the version-0 descriptor whose second pair names
system event 64 is refused with `-EINVAL` and nothing reaches the controller,
but the table of the core is not as before: the first pair has been written. -/
theorem pru_handle_vendor_intrmap_overwrites_table :
    (pru_handle_vendor_intrmap limits_spec 0 dmem_bad_event rsc_example state_example).1 =
      -EINVAL ∧
    (pru_handle_vendor_intrmap limits_spec 0 dmem_bad_event rsc_example state_example).2.2 =
      [] ∧
    (pru_handle_vendor_intrmap limits_spec 0 dmem_bad_event rsc_example
      state_example).2.1.pru.intc_config ≠ state_example.pru.intc_config ∧
    (pru_handle_vendor_intrmap limits_spec 0 dmem_bad_event rsc_example
      state_example).2.1.pru.intc_config.sysev_to_ch[16]? = some 2 ∧
    state_example.pru.intc_config.sysev_to_ch[16]? = some (-1) := by
  decide

/-- C17 (amended): a descriptor whose version is not 0, or whose pair list
(where the array resolves) has a pair out of bounds, or whose channel-to-host
array has an entry at or above `MAX_PRU_HOST_INT`, or whose pair count is
negative or at or above `MAX_PRU_SYS_EVENTS`, or whose pair array does not
resolve in data memory, makes `pru_handle_vendor_intrmap` fail with `-EINVAL`
without any call to the controller, whose state and `dt_irqs` stay as they
were.  For a version other than 0, for a pair count out of range and for a
pair array that does not resolve, the whole state, the table included, is as
before.  Where the loops are reached the table has been reset and refilled in
place: `sysev_to_ch` holds the pairs in front of the first out-of-bound pair,
and `ch_to_host` holds, when all pairs are within bounds, the non-negative
entries in front of the first entry at or above the bound; every other slot is
`-1`. -/
theorem pru_handle_vendor_intrmap_rejected (L : pruss_limits) (cret : Int)
    (dmem : mem_target × Nat → Nat → pruss_event_chnl) (rsc : fw_rsc_vendor)
    (s : pru_state)
    (hbad : rsc.st_ver ≠ 0 ∨
      (∃ va, pru_d_da_to_va s.pru s.pruss (rsc.event_chnl_map % 4294967296)
          (rsc.event_chnl_map_size * 2) = some va ∧
        ∃ i, i < rsc.event_chnl_map_size.toNat ∧
          pruss_event_chnl.in_bounds L (dmem va i) = false) ∨
      (∃ c, c < L.MAX_PRU_CHANNELS ∧
        rsc.chnl_host_intr_map c ≥ (L.MAX_PRU_HOST_INT : Int)) ∨
      (rsc.event_chnl_map_size < 0 ∨
        rsc.event_chnl_map_size ≥ (L.MAX_PRU_SYS_EVENTS : Int)) ∨
      pru_d_da_to_va s.pru s.pruss (rsc.event_chnl_map % 4294967296)
        (rsc.event_chnl_map_size * 2) = none) :
    (pru_handle_vendor_intrmap L cret dmem rsc s).1 = -EINVAL ∧
    (pru_handle_vendor_intrmap L cret dmem rsc s).2.2 = [] ∧
    (pru_handle_vendor_intrmap L cret dmem rsc s).2.1.pruss = s.pruss ∧
    (pru_handle_vendor_intrmap L cret dmem rsc s).2.1.pru.dt_irqs = s.pru.dt_irqs ∧
    (rsc.st_ver ≠ 0 → (pru_handle_vendor_intrmap L cret dmem rsc s).2.1 = s) ∧
    ((rsc.event_chnl_map_size < 0 ∨
        rsc.event_chnl_map_size ≥ (L.MAX_PRU_SYS_EVENTS : Int)) →
      (pru_handle_vendor_intrmap L cret dmem rsc s).2.1 = s) ∧
    (pru_d_da_to_va s.pru s.pruss (rsc.event_chnl_map % 4294967296)
        (rsc.event_chnl_map_size * 2) = none →
      (pru_handle_vendor_intrmap L cret dmem rsc s).2.1 = s) ∧
    (∀ va, rsc.st_ver = 0 →
      (0 ≤ rsc.event_chnl_map_size ∧
        rsc.event_chnl_map_size < (L.MAX_PRU_SYS_EVENTS : Int)) →
      pru_d_da_to_va s.pru s.pruss (rsc.event_chnl_map % 4294967296)
        (rsc.event_chnl_map_size * 2) = some va →
      (∀ e, e < L.MAX_PRU_SYS_EVENTS →
        (pru_handle_vendor_intrmap L cret dmem rsc s).2.1.pru.intc_config.sysev_to_ch[e]? =
          some (slot_int (last_pair_channel
            ((listed_pairs (dmem va) 0 rsc.event_chnl_map_size.toNat).takeWhile
              (pruss_event_chnl.in_bounds L)) e))) ∧
      (∀ c, c < L.MAX_PRU_CHANNELS →
        (pru_handle_vendor_intrmap L cret dmem rsc s).2.1.pru.intc_config.ch_to_host[c]? =
          some (if (listed_pairs (dmem va) 0 rsc.event_chnl_map_size.toNat).all
                (pruss_event_chnl.in_bounds L) = true ∧
              c < hosts_stop L rsc.chnl_host_intr_map 0 L.MAX_PRU_CHANNELS ∧
              0 ≤ rsc.chnl_host_intr_map c
            then rsc.chnl_host_intr_map c else -1))) := by
  have hearly : rsc.st_ver ≠ 0 ∨
      (rsc.event_chnl_map_size < 0 ∨
        rsc.event_chnl_map_size ≥ (L.MAX_PRU_SYS_EVENTS : Int)) ∨
      pru_d_da_to_va s.pru s.pruss (rsc.event_chnl_map % 4294967296)
        (rsc.event_chnl_map_size * 2) = none →
      pru_handle_vendor_intrmap L cret dmem rsc s = (-EINVAL, s, []) := by
    intro h
    unfold pru_handle_vendor_intrmap
    by_cases hv : rsc.st_ver ≠ 0
    · rw [if_pos hv]
    · rw [if_neg hv]
      by_cases hs : rsc.event_chnl_map_size < 0 ∨
          rsc.event_chnl_map_size ≥ (L.MAX_PRU_SYS_EVENTS : Int)
      · rw [if_pos hs]
      · rw [if_neg hs]
        rcases h with h | h | h
        · exact absurd h hv
        · exact absurd h hs
        · rw [h]
  by_cases hreach : rsc.st_ver = 0 ∧
      (0 ≤ rsc.event_chnl_map_size ∧
        rsc.event_chnl_map_size < (L.MAX_PRU_SYS_EVENTS : Int)) ∧
      ∃ va0, pru_d_da_to_va s.pru s.pruss (rsc.event_chnl_map % 4294967296)
        (rsc.event_chnl_map_size * 2) = some va0
  · obtain ⟨hver, hsize, va0, hres⟩ := hreach
    obtain ⟨r1, r2, r3, r4, -, -, r7, r8⟩ :=
      intrmap_reached_spec L cret dmem rsc s va0 hver hsize hres
    have hnot : ¬ ((listed_pairs (dmem va0) 0 rsc.event_chnl_map_size.toNat).all
          (pruss_event_chnl.in_bounds L) = true ∧
        hosts_stop L rsc.chnl_host_intr_map 0 L.MAX_PRU_CHANNELS = L.MAX_PRU_CHANNELS) := by
      rintro ⟨hall, hstop⟩
      rcases hbad with hb | ⟨va, hva, i, hi, hbi⟩ | ⟨c, hc, hbc⟩ | hsz | hnone
      · exact hb hver
      · rw [hres] at hva
        cases hva
        have := (listed_pairs_all_iff L (dmem va0) _).1 hall i hi
        rw [hbi] at this
        exact absurd this (by decide)
      · have := (hosts_stop_eq_iff L rsc.chnl_host_intr_map L.MAX_PRU_CHANNELS 0).1
          (by simpa using hstop) c (Nat.zero_le _) (by omega)
        omega
      · omega
      · rw [hres] at hnone
        exact absurd hnone (by simp)
    refine ⟨?_, ?_, ?_, r4, fun h => absurd hver h, fun h => by omega,
      fun h => by rw [hres] at h; exact absurd h (by simp), ?_⟩
    · rw [r1, if_neg hnot]
    · rw [r2, if_neg hnot]
    · rw [r3, if_neg (fun h => hnot ⟨h.1, h.2.1⟩)]
    · intro va _ _ hva
      rw [hres] at hva
      cases hva
      exact ⟨r7, r8⟩
  · have he : pru_handle_vendor_intrmap L cret dmem rsc s = (-EINVAL, s, []) := by
      apply hearly
      by_cases hv : rsc.st_ver = 0
      · by_cases hs : 0 ≤ rsc.event_chnl_map_size ∧
            rsc.event_chnl_map_size < (L.MAX_PRU_SYS_EVENTS : Int)
        · right; right
          cases hr : pru_d_da_to_va s.pru s.pruss (rsc.event_chnl_map % 4294967296)
              (rsc.event_chnl_map_size * 2) with
          | none => rfl
          | some va0 => exact absurd ⟨hv, hs, va0, hr⟩ hreach
        · right; left; omega
      · left; exact hv
    rw [he]
    refine ⟨rfl, rfl, rfl, rfl, fun _ => rfl, fun _ => rfl, fun _ => rfl, ?_⟩
    intro va hv hs hva
    exact absurd ⟨hv, hs, va, hva⟩ hreach

/-- C17 (witness): a descriptor of version 1, one announcing 64 pairs and
one whose pair array lies in no data window are refused with the state as it
was; the descriptor with the bad second pair is refused with the first pair
written and nothing committed. -/
theorem pru_handle_vendor_intrmap_rejected_witness :
    (pru_handle_vendor_intrmap limits_spec 0 dmem_example rsc_count_out_of_range
      state_example).2.1 = state_example ∧
    (pru_handle_vendor_intrmap limits_spec 0 dmem_example rsc_unresolvable
      state_example).2.1 = state_example ∧
    (pru_handle_vendor_intrmap limits_spec 0 dmem_example rsc_version_one state_example).2.1 =
      state_example ∧
    (pru_handle_vendor_intrmap limits_spec 0 dmem_bad_event rsc_example state_example).1 =
      -EINVAL ∧
    (pru_handle_vendor_intrmap limits_spec 0 dmem_bad_event rsc_example
      state_example).2.1.pruss = state_example.pruss :=
  ⟨(pru_handle_vendor_intrmap_rejected limits_spec 0 dmem_example rsc_count_out_of_range
      state_example (Or.inr (Or.inr (Or.inr (Or.inl (by decide)))))).2.2.2.2.2.1 (by decide),
   (pru_handle_vendor_intrmap_rejected limits_spec 0 dmem_example rsc_unresolvable
      state_example (Or.inr (Or.inr (Or.inr (Or.inr (by decide)))))).2.2.2.2.2.2.1
      (by decide),
   (pru_handle_vendor_intrmap_rejected limits_spec 0 dmem_example rsc_version_one
      state_example (Or.inl (by decide))).2.2.2.2.1 (by decide),
   (pru_handle_vendor_intrmap_rejected limits_spec 0 dmem_bad_event rsc_example
      state_example (Or.inr (Or.inl ⟨(mem_target.DRAM0, 256), by decide, 1, by decide,
        by decide⟩))).1,
   (pru_handle_vendor_intrmap_rejected limits_spec 0 dmem_bad_event rsc_example
      state_example (Or.inr (Or.inl ⟨(mem_target.DRAM0, 256), by decide, 1, by decide,
        by decide⟩))).2.2.1⟩

/-- C16 (counterexample): on the core that holds a flat-list table
(`dt_irqs = 12`) the interrupt-map resource is not refused:
`pru_rproc_handle_vendor_rsc` returns 0, makes no call and leaves the state
as it was. -/
theorem pru_rproc_handle_vendor_rsc_returns_success :
    state_flat_installed.pru.dt_irqs = 12 ∧
    rsc_example.st_type = 1 ∧
    pru_rproc_handle_vendor_rsc limits_spec 1 0 dmem_example rsc_example
        state_flat_installed = (0, state_flat_installed, []) := by
  decide

/-- C16 (amended): on a core with a flat-list table installed (`dt_irqs`
non-zero) `pru_rproc_handle_vendor_rsc` skips a descriptor-form interrupt map:
it returns 0, makes no call and leaves the state, the installed table
included, unchanged.  The descriptor is handed to `pru_handle_vendor_intrmap`
only when `dt_irqs` is zero; a resource of another type is refused with
`-EINVAL`. -/
theorem pru_rproc_handle_vendor_rsc_flat_first (L : pruss_limits) (PRUSS_RSC_INTRS : Nat)
    (cret : Int) (dmem : mem_target × Nat → Nat → pruss_event_chnl) (rsc : fw_rsc_vendor)
    (s : pru_state) :
    (rsc.st_type = PRUSS_RSC_INTRS → s.pru.dt_irqs ≠ 0 →
      pru_rproc_handle_vendor_rsc L PRUSS_RSC_INTRS cret dmem rsc s = (0, s, [])) ∧
    (rsc.st_type = PRUSS_RSC_INTRS → s.pru.dt_irqs = 0 →
      pru_rproc_handle_vendor_rsc L PRUSS_RSC_INTRS cret dmem rsc s =
        pru_handle_vendor_intrmap L cret dmem rsc s) ∧
    (rsc.st_type ≠ PRUSS_RSC_INTRS →
      pru_rproc_handle_vendor_rsc L PRUSS_RSC_INTRS cret dmem rsc s = (-EINVAL, s, [])) := by
  unfold pru_rproc_handle_vendor_rsc
  refine ⟨?_, ?_, ?_⟩
  · intro ht hd
    rw [if_pos ht, if_neg hd]
  · intro ht hd
    rw [if_pos ht, if_pos hd]
  · intro ht
    rw [if_neg ht]

/-- C16 (witness): the example descriptor is skipped on the core holding the
flat-list table and processed on the core that holds none. -/
theorem pru_rproc_handle_vendor_rsc_flat_first_witness :
    pru_rproc_handle_vendor_rsc limits_spec 1 0 dmem_example rsc_example
        state_flat_installed = (0, state_flat_installed, []) ∧
    pru_rproc_handle_vendor_rsc limits_spec 1 0 dmem_example rsc_example state_example =
      pru_handle_vendor_intrmap limits_spec 0 dmem_example rsc_example state_example :=
  ⟨(pru_rproc_handle_vendor_rsc_flat_first limits_spec 1 0 dmem_example rsc_example
      state_flat_installed).1 (by decide) (by decide),
   (pru_rproc_handle_vendor_rsc_flat_first limits_spec 1 0 dmem_example rsc_example
      state_example).2.1 (by decide) (by decide)⟩

theorem stop_dt_frame (m : pru_machine) (hdt : m.core.pru.dt_irqs ≠ 0) :
    (pru_rproc_stop m).2.1.core = m.core ∧
    (∀ cfg, collab_call.intc_configure cfg ∉ (pru_rproc_stop m).2.2 ∧
      collab_call.intc_unconfigure cfg ∉ (pru_rproc_stop m).2.2) := by
  unfold pru_rproc_stop
  simp only [hdt, if_false]
  split_ifs <;> simp [pru_control_write_reg]

theorem start_dt_frame (ret : Int) (m : pru_machine) (hdt : m.core.pru.dt_irqs ≠ 0) :
    (pru_rproc_start ret m).2.1.core = m.core ∧
    (∀ cfg, collab_call.intc_configure cfg ∉ (pru_rproc_start ret m).2.2 ∧
      collab_call.intc_unconfigure cfg ∉ (pru_rproc_start ret m).2.2) := by
  unfold pru_rproc_start pru_rproc_start_fail pru_rproc_start_run
  simp only [hdt, if_false]
  split_ifs <;> simp [pru_control_write_reg]

/-- C20 (counterexample): releasing the core that holds a committed flat-list
table (`dt_irqs = 12`) tears that table down: the controller holds it before
`pru_rproc_put` and nothing after. -/
theorem pru_rproc_put_tears_down_flat_table :
    state_flat_installed.pru.dt_irqs = 12 ∧
    state_flat_installed.pruss.intc = some state_flat_installed.pru.intc_config ∧
    (pru_rproc_put rets_ok.put state_flat_installed).pruss.intc = none := by
  decide

/-- C20 (amended): on a core whose table came from the flat list (`dt_irqs`
non-zero), start (its failure path included), stop and descriptor handling
neither rebuild nor tear down the table: they make no configure or unconfigure
call and leave the core state, table and controller included, as it was.
Release does tear it down: `pru_rproc_put` on the owned core calls
`pruss_intc_unconfigure` on that table and leaves the controller without a
table.  Tables of a core with `dt_irqs` zero are torn down by stop and by a
failed start, and not by release: `pru_rproc_put` then makes no call to the
controller and leaves the table it holds in place. -/
theorem pru_rproc_flat_table_lifetime (L : pruss_limits) (PRUSS_RSC_INTRS : Nat)
    (ret cret : Int) (dmem : mem_target × Nat → Nat → pruss_event_chnl)
    (rsc : fw_rsc_vendor) (p : put_rets) (m : pru_machine) :
    (m.core.pru.dt_irqs ≠ 0 →
      ((pru_rproc_start ret m).2.1.core = m.core ∧
        ∀ cfg, collab_call.intc_configure cfg ∉ (pru_rproc_start ret m).2.2 ∧
          collab_call.intc_unconfigure cfg ∉ (pru_rproc_start ret m).2.2) ∧
      ((pru_rproc_stop m).2.1.core = m.core ∧
        ∀ cfg, collab_call.intc_configure cfg ∉ (pru_rproc_stop m).2.2 ∧
          collab_call.intc_unconfigure cfg ∉ (pru_rproc_stop m).2.2) ∧
      ((pru_rproc_handle_vendor_rsc L PRUSS_RSC_INTRS cret dmem rsc m.core).2.1 = m.core ∧
        (pru_rproc_handle_vendor_rsc L PRUSS_RSC_INTRS cret dmem rsc m.core).2.2 = [])) ∧
    (m.core.pru.dt_irqs ≠ 0 → m.core.rproc.parent_name_has_pru = true →
      m.core.pru.client_np ≠ none →
      (pru_rproc_put p m.core).pruss.intc = none ∧
      (pru_rproc_put p m.core).pru.intc_config = m.core.pru.intc_config ∧
      pru_rproc_put_calls m.core = [collab_call.intc_unconfigure m.core.pru.intc_config]) ∧
    (m.core.pru.dt_irqs = 0 →
      collab_call.intc_unconfigure m.core.pru.intc_config ∈ (pru_rproc_stop m).2.2 ∧
      ((pru_rproc_start ret m).1 ≠ 0 →
        collab_call.intc_unconfigure m.core.pru.intc_config ∈
          (pru_rproc_start ret m).2.2) ∧
      pru_rproc_put_calls m.core = [] ∧
      (pru_rproc_put p m.core).pruss.intc = m.core.pruss.intc ∧
      (pru_rproc_put p m.core).pru.intc_config = m.core.pru.intc_config) := by
  refine ⟨?_, ?_, ?_⟩
  · intro hdt
    refine ⟨start_dt_frame ret m hdt, stop_dt_frame m hdt, ?_⟩
    unfold pru_rproc_handle_vendor_rsc
    split_ifs <;> simp
  · intro hdt hname howned
    obtain ⟨o, ho⟩ := Option.ne_none_iff_exists'.1 howned
    rw [put_owned p m.core o hname ho]
    simp [hdt, pru_rproc_put_calls, hname, ho]
  · intro hdt
    refine ⟨?_, ?_, ?_, ?_, (put_frame p m.core).1⟩
    · unfold pru_rproc_stop
      simp only [hdt, if_true]
      simp
    · unfold pru_rproc_start pru_rproc_start_fail pru_rproc_start_run
      simp only [hdt, if_true]
      split_ifs <;> simp
    · unfold pru_rproc_put_calls
      cases m.core.pru.client_np <;> simp [hdt]
    · by_cases hn : m.core.rproc.parent_name_has_pru = true
      · cases hc : m.core.pru.client_np with
        | none =>
          unfold pru_rproc_put
          simp [hn, hc]
        | some o =>
          rw [put_owned p m.core o hn hc]
          simp [hdt]
      · unfold pru_rproc_put
        simp [hn]

/-- C20 (witness): on the machine whose core holds the flat-list table a
failed start and a stop leave the core as it was, and the release leaves the
controller without a table.  On the owned core with `dt_irqs = 0` and a
committed descriptor table the release makes no call to the controller, which
keeps that table. -/
theorem pru_rproc_flat_table_lifetime_witness :
    (pru_rproc_start (-EBUSY) machine_flat_installed).2.1.core = machine_flat_installed.core ∧
    (pru_rproc_stop machine_flat_installed).2.1.core = machine_flat_installed.core ∧
    (pru_rproc_put rets_ok.put machine_flat_installed.core).pruss.intc = none ∧
    machine_owned_descriptor.core.pruss.intc =
      some machine_owned_descriptor.core.pru.intc_config ∧
    pru_rproc_put_calls machine_owned_descriptor.core = [] ∧
    (pru_rproc_put rets_ok.put machine_owned_descriptor.core).pruss.intc =
      machine_owned_descriptor.core.pruss.intc :=
  ⟨((pru_rproc_flat_table_lifetime limits_spec 1 (-EBUSY) 0 dmem_example rsc_example
      rets_ok.put machine_flat_installed).1 (by decide)).1.1,
   ((pru_rproc_flat_table_lifetime limits_spec 1 (-EBUSY) 0 dmem_example rsc_example
      rets_ok.put machine_flat_installed).1 (by decide)).2.1.1,
   ((pru_rproc_flat_table_lifetime limits_spec 1 (-EBUSY) 0 dmem_example rsc_example
      rets_ok.put machine_flat_installed).2.1 (by decide) (by decide) (by decide)).1,
   by decide,
   ((pru_rproc_flat_table_lifetime limits_spec 1 (-EBUSY) 0 dmem_example rsc_example
      rets_ok.put machine_owned_descriptor).2.2 (by decide)).2.2.1,
   ((pru_rproc_flat_table_lifetime limits_spec 1 (-EBUSY) 0 dmem_example rsc_example
      rets_ok.put machine_owned_descriptor).2.2 (by decide)).2.2.2.1⟩

/-! ## Release of an unowned core, concurrent acquisition, teardown, containment -/

theorem put_idem (p q : put_rets) (s : pru_state) :
    pru_rproc_put q (pru_rproc_put p s) = pru_rproc_put p s := by
  by_cases hn : s.rproc.parent_name_has_pru = true
  · cases hc : s.pru.client_np with
    | none =>
      have h1 : pru_rproc_put p s = s := by
        unfold pru_rproc_put; simp [hn, hc]
      rw [h1]
      unfold pru_rproc_put; simp [hn, hc]
    | some o =>
      rw [put_owned p s o hn hc]
      unfold pru_rproc_put
      simp [hn]
  · have h1 : pru_rproc_put p s = s := by
      unfold pru_rproc_put; simp [hn]
    rw [h1]
    unfold pru_rproc_put; simp [hn]

/-- C21: on a core that has no owner `pru_rproc_put` changes nothing: the
state after the call is the state before it, so the signal-routing selector,
the firmware name, the routing table, the controller configuration, the
reference count and the absent owner are as they were, and a second release
has the effect of the first. -/
theorem pru_rproc_put_unowned_noop (p q : put_rets) (s : pru_state)
    (h : s.pru.client_np = none) :
    pru_rproc_put p s = s ∧
    (pru_rproc_put p s).pruss.gpmux = s.pruss.gpmux ∧
    (pru_rproc_put p s).rproc.firmware = s.rproc.firmware ∧
    (pru_rproc_put p s).pru.intc_config = s.pru.intc_config ∧
    (pru_rproc_put p s).pruss.intc = s.pruss.intc ∧
    (pru_rproc_put p s).pru.client_np = none ∧
    pru_rproc_put q (pru_rproc_put p s) = pru_rproc_put p s := by
  have h1 : pru_rproc_put p s = s := by
    unfold pru_rproc_put
    by_cases hn : s.rproc.parent_name_has_pru = true <;> simp [hn, h]
  refine ⟨h1, ?_, ?_, ?_, ?_, ?_, put_idem p q s⟩ <;> rw [h1]
  exact h

/-- C21 (witness): the example core has no owner; releasing it, even with a
release whose write of the selector would be refused, leaves it as it is. -/
theorem pru_rproc_put_unowned_noop_witness :
    pru_rproc_put put_rets_no_restore state_example = state_example ∧
    pru_rproc_put rets_ok.put (pru_rproc_put put_rets_no_restore state_example) =
      pru_rproc_put put_rets_no_restore state_example :=
  ⟨(pru_rproc_put_unowned_noop put_rets_no_restore rets_ok.put state_example (by decide)).1,
   (pru_rproc_put_unowned_noop put_rets_no_restore rets_ok.put state_example
      (by decide)).2.2.2.2.2.2⟩

theorem start_ok_cases (ret : Int) (m : pru_machine) (hok : (pru_rproc_start ret m).1 = 0) :
    (pru_rproc_start ret m = pru_rproc_start_run [] m ∧
      ¬ (m.rvdevs ≠ 0 ∧ m.core.pru.mbox = false ∧ 0 < m.core.pru.irq_vring)) ∨
    (pru_rproc_start ret m =
        pru_rproc_start_run [collab_call.request_irq m.core.pru.irq_vring]
          { m with vring_handler := true } ∧
      m.rvdevs ≠ 0 ∧ m.core.pru.mbox = false ∧ 0 < m.core.pru.irq_vring) := by
  by_cases hr : m.rvdevs = 0
  · exact Or.inl ⟨start_no_rvdevs ret m hr, fun h => h.1 hr⟩
  · cases hmb : m.core.pru.mbox with
    | true => exact Or.inl ⟨start_mbox ret m hmb, fun h => by simp [hmb] at h⟩
    | false =>
      by_cases hl : m.core.pru.irq_vring ≤ 0 ∨ m.core.pru.irq_kick ≤ 0
      · exfalso
        rw [start_misconfigured ret m hr hmb hl, (start_fail_facts _ _ m).1] at hok
        simp [EINVAL] at hok
      · have hv : 0 < m.core.pru.irq_vring := by omega
        have hk : 0 < m.core.pru.irq_kick := by omega
        have hs := start_lines ret m hr hmb hv hk
        by_cases h0 : ret = 0
        · rw [if_neg (by simpa using h0)] at hs
          exact Or.inr ⟨hs, hr, rfl, hv⟩
        · exfalso
          rw [hs, if_pos h0, (start_fail_facts _ _ m).1] at hok
          exact h0 hok

theorem stop_after_run (calls : List collab_call) (m : pru_machine) :
    (pru_rproc_stop (pru_rproc_start_run calls m).2.1).2.2 = (pru_rproc_stop m).2.2 ∧
    (pru_rproc_stop (pru_rproc_start_run calls m).2.1).2.1.vring_handler =
      (pru_rproc_stop m).2.1.vring_handler := by
  unfold pru_rproc_stop pru_rproc_start_run
  constructor <;> (simp only [pru_control_write_reg]; split_ifs <;> rfl)

theorem stop_handler_facts (m : pru_machine) :
    ((m.rvdevs ≠ 0 ∧ m.core.pru.mbox = false ∧ 0 < m.core.pru.irq_vring) →
      (pru_rproc_stop m).2.1.vring_handler = false ∧
      ∀ irq, collab_call.free_irq irq ∈ (pru_rproc_stop m).2.2 ↔ irq = m.core.pru.irq_vring) ∧
    (¬ (m.rvdevs ≠ 0 ∧ m.core.pru.mbox = false ∧ 0 < m.core.pru.irq_vring) →
      (pru_rproc_stop m).2.1.vring_handler = m.vring_handler ∧
      ∀ irq, collab_call.free_irq irq ∉ (pru_rproc_stop m).2.2) := by
  unfold pru_rproc_stop
  constructor
  · rintro ⟨hr, hmb, hv⟩
    simp only [pru_control_write_reg]
    have hc : (m.rvdevs ≠ 0 && !m.core.pru.mbox && decide (m.core.pru.irq_vring > 0)) = true := by
      simp [hr, hmb, hv]
    rw [if_pos hc]
    constructor
    · split_ifs <;> rfl
    · intro irq
      split_ifs <;> simp [eq_comm]
  · intro hn
    simp only [pru_control_write_reg]
    have hc : ¬ (m.rvdevs ≠ 0 && !m.core.pru.mbox && decide (m.core.pru.irq_vring > 0)) = true := by
      intro h
      simp at h
      exact hn ⟨h.1.1, h.1.2, h.2⟩
    rw [if_neg hc]
    constructor
    · split_ifs <;> rfl
    · intro irq
      split_ifs <;> simp

/-- C26: after a successful `pru_rproc_start` the virtio-device list, the
mailbox channel and the two interrupt lines are as before, and the following
`pru_rproc_stop` removes the vring handler (`free_irq`) exactly when the start
installed it (`request_threaded_irq`), on the same line `irq_vring`; this is
the case exactly when there are virtio devices, no mailbox channel and
`irq_vring > 0`.  With no handler installed before the start, none is
installed after the stop. -/
theorem pru_rproc_start_stop_handler (ret : Int) (m : pru_machine)
    (hok : (pru_rproc_start ret m).1 = 0) :
    ((pru_rproc_start ret m).2.1.rvdevs = m.rvdevs ∧
      (pru_rproc_start ret m).2.1.core = m.core) ∧
    (∀ irq, collab_call.request_irq irq ∈ (pru_rproc_start ret m).2.2 ↔
      collab_call.free_irq irq ∈ (pru_rproc_stop (pru_rproc_start ret m).2.1).2.2) ∧
    (∀ irq, collab_call.request_irq irq ∈ (pru_rproc_start ret m).2.2 ↔
      (irq = m.core.pru.irq_vring ∧
        m.rvdevs ≠ 0 ∧ m.core.pru.mbox = false ∧ 0 < m.core.pru.irq_vring)) ∧
    (m.vring_handler = false →
      ((pru_rproc_start ret m).2.1.vring_handler = true ↔
        collab_call.request_irq m.core.pru.irq_vring ∈ (pru_rproc_start ret m).2.2) ∧
      (pru_rproc_stop (pru_rproc_start ret m).2.1).2.1.vring_handler = false) := by
  rcases start_ok_cases ret m hok with ⟨hs, hn⟩ | ⟨hs, hc⟩
  · rw [hs]
    have hst := (stop_handler_facts m).2 hn
    have har := stop_after_run [] m
    refine ⟨⟨rfl, rfl⟩, ?_, ?_, ?_⟩
    · intro irq
      rw [har.1]
      constructor
      · intro h
        simp [pru_rproc_start_run] at h
      · intro h
        exact absurd h (hst.2 irq)
    · intro irq
      constructor
      · intro h
        simp [pru_rproc_start_run] at h
      · intro h
        exact absurd h.2 hn
    · intro hv
      constructor
      · constructor
        · intro h
          have : m.vring_handler = true := h
          rw [hv] at this
          exact absurd this (by decide)
        · intro h
          simp [pru_rproc_start_run] at h
      · rw [har.2, hst.1, hv]
  · rw [hs]
    have hc2 : ({ m with vring_handler := true } : pru_machine).rvdevs ≠ 0 ∧
        ({ m with vring_handler := true } : pru_machine).core.pru.mbox = false ∧
        0 < ({ m with vring_handler := true } : pru_machine).core.pru.irq_vring := hc
    have hst := (stop_handler_facts { m with vring_handler := true }).1 hc2
    have har := stop_after_run [collab_call.request_irq m.core.pru.irq_vring]
      { m with vring_handler := true }
    refine ⟨⟨rfl, rfl⟩, ?_, ?_, ?_⟩
    · intro irq
      rw [har.1, hst.2 irq]
      simp [pru_rproc_start_run, eq_comm]
    · intro irq
      constructor
      · intro h
        refine ⟨?_, hc⟩
        simpa [pru_rproc_start_run] using h
      · intro h
        simp [pru_rproc_start_run, h.1]
    · intro _
      constructor
      · constructor
        · intro _
          simp [pru_rproc_start_run]
        · intro _
          rfl
      · rw [har.2, hst.1]

/-- C26 (witness): with vring line 50, kick line 51 and one virtio device the
start installs the handler on line 50 and the stop removes it; without virtio
devices neither call touches a handler. -/
theorem pru_rproc_start_stop_handler_witness :
    (collab_call.request_irq 50 ∈ (pru_rproc_start 0 machine_irq_lines).2.2 ↔
      collab_call.free_irq 50 ∈
        (pru_rproc_stop (pru_rproc_start 0 machine_irq_lines).2.1).2.2) ∧
    collab_call.request_irq 50 ∈ (pru_rproc_start 0 machine_irq_lines).2.2 ∧
    (pru_rproc_stop (pru_rproc_start 0 machine_irq_lines).2.1).2.1.vring_handler = false :=
  ⟨(pru_rproc_start_stop_handler 0 machine_irq_lines (by decide)).2.1 50,
   by decide,
   ((pru_rproc_start_stop_handler 0 machine_irq_lines (by decide)).2.2.2 (by decide)).2⟩

theorem d_da_to_va_contained (pru : pru_rproc) (ss : pruss) (da : Nat) (len : Int)
    (t : mem_target) (o : Nat)
    (hnw : (da : Int) + len < 4294967296)
    (hp : pru.pdram_da +
      (if pru.id = 1 then ss.mem_dram1 else ss.mem_dram0).size < 4294967296)
    (hs : pru.sdram_da +
      (if pru.id = 1 then ss.mem_dram0 else ss.mem_dram1).size < 4294967296)
    (hsh : pru.shrdram_da + ss.mem_shrd_ram2.size < 4294967296)
    (h : pru_d_da_to_va pru ss da len = some (t, o)) :
    0 < len ∧ (o : Int) + len ≤ (region_size pru ss t : Int) := by
  have hfm := pru_d_da_to_va_first_match pru ss da len hnw hp hs hsh
  by_cases hpos : 0 < len
  · refine ⟨hpos, ?_⟩
    rw [hfm.2 hpos] at h
    unfold range_within at h
    by_cases hid : pru.id = 1
    · simp only [hid, if_true] at h
      split_ifs at h with h1 h2 h3 <;>
        simp only [Option.some.injEq, Prod.mk.injEq] at h <;>
        obtain ⟨ht, ho⟩ := h <;> subst ht <;> subst ho <;>
        simp only [region_size] <;> omega
    · simp only [hid, if_false] at h
      split_ifs at h with h1 h2 h3 <;>
        simp only [Option.some.injEq, Prod.mk.injEq] at h <;>
        obtain ⟨ht, ho⟩ := h <;> subst ht <;> subst ho <;>
        simp only [region_size] <;> omega
  · rw [hfm.1 (by omega)] at h
    exact absurd h (by simp)

theorem i_da_to_va_contained (pru : pru_rproc) (ss : pruss) (da : Nat) (len : Int)
    (t : mem_target) (o : Nat)
    (hlen : len < 2147483648)
    (hfit : pru.iram_da + (pru.mem_regions PRU_MEM_IRAM).size < 4294967296)
    (h : pru_i_da_to_va pru da len = some (t, o)) :
    0 < len ∧ t = mem_target.IRAM ∧ (o : Int) + len ≤ (region_size pru ss t : Int) := by
  by_cases hpos : 0 < len
  · rw [pru_i_da_to_va_eq pru da len hlen hpos hfit] at h
    unfold range_within at h
    split_ifs at h with h1
    simp only [Option.some.injEq, Prod.mk.injEq] at h
    obtain ⟨ht, ho⟩ := h
    subst ht; subst ho
    refine ⟨hpos, rfl, ?_⟩
    simp only [region_size]
    omega
  · unfold pru_i_da_to_va at h
    simp [show len ≤ 0 by omega] at h

/-- C24: containment of translated ranges.  `pru_i_da_to_va` is safe: a range
it accepts lies inside the instruction RAM (`o + len <= size`), for every
address.  `pru_d_da_to_va` is safe for ranges with `da + len < 2^32`.  It is
not safe beyond: on a core with `pdram_da = 0` every range that wraps past
2^32 and ends, after the wrap, at or below the size of the primary bank is
accepted with offset `da`, although `da + len` exceeds the size of the bank;
so is the range at 0xFFFFF000 of length 0x2000 on the probed example core. -/
theorem pru_da_to_va_containment (pru : pru_rproc) (ss : pruss) (da : Nat) (len : Int)
    (t : mem_target) (o : Nat)
    (hlen : len < 2147483648)
    (hi : pru.iram_da + (pru.mem_regions PRU_MEM_IRAM).size < 4294967296)
    (hp : pru.pdram_da +
      (if pru.id = 1 then ss.mem_dram1 else ss.mem_dram0).size < 4294967296)
    (hs : pru.sdram_da +
      (if pru.id = 1 then ss.mem_dram0 else ss.mem_dram1).size < 4294967296)
    (hsh : pru.shrdram_da + ss.mem_shrd_ram2.size < 4294967296) :
    (pru_i_da_to_va pru da len = some (t, o) →
      0 < len ∧ (o : Int) + len ≤ (region_size pru ss t : Int)) ∧
    ((da : Int) + len < 4294967296 → pru_d_da_to_va pru ss da len = some (t, o) →
      0 < len ∧ (o : Int) + len ≤ (region_size pru ss t : Int)) ∧
    (pru.pdram_da = 0 → 0 < len → da < 4294967296 → 4294967296 ≤ (da : Int) + len →
      (da : Int) + len - 4294967296 ≤
        ((if pru.id = 1 then ss.mem_dram1 else ss.mem_dram0).size : Int) →
      pru_d_da_to_va pru ss da len =
        some (if pru.id = 1 then mem_target.DRAM1 else mem_target.DRAM0, da) ∧
      ¬ ((da : Int) + len ≤
        (region_size pru ss (if pru.id = 1 then mem_target.DRAM1 else mem_target.DRAM0) : Int))) ∧
    (pru_d_da_to_va pru0_probed pruss_example 0xFFFFF000 0x2000 =
        some (mem_target.DRAM0, 0xFFFFF000) ∧
      ¬ ((0xFFFFF000 : Int) + 0x2000 ≤
        (region_size pru0_probed pruss_example mem_target.DRAM0 : Int))) := by
  refine ⟨?_, ?_, ?_, by decide⟩
  · intro h
    have := i_da_to_va_contained pru ss da len t o hlen hi h
    exact ⟨this.1, this.2.2⟩
  · intro hnw h
    exact d_da_to_va_contained pru ss da len t o hnw hp hs hsh h
  · intro h0 hpos hda hw hend
    have hsum : u32_add_int da len = Int.toNat ((da : Int) + len - 4294967296) := by
      unfold u32_add_int
      congr 1
      omega
    constructor
    · unfold pru_d_da_to_va
      rw [if_neg (by omega)]
      by_cases hid : pru.id = 1
      · simp only [hid, if_true] at hend hp ⊢
        rw [if_pos]
        · simp [h0]
        · refine ⟨by omega, ?_⟩
          rw [hsum]
          unfold region_end
          rw [Nat.mod_eq_of_lt hp]
          omega
      · simp only [hid, if_false] at hend hp ⊢
        rw [if_pos]
        · simp [h0]
        · refine ⟨by omega, ?_⟩
          rw [hsum]
          unfold region_end
          rw [Nat.mod_eq_of_lt hp]
          omega
    · by_cases hid : pru.id = 1
      · simp only [hid, if_true, region_size] at hend hp ⊢
        omega
      · simp only [hid, if_false, region_size] at hend hp ⊢
        omega

/-- C24 (witness): on the probed example core the instruction range at 0x100
of length 16 is accepted and lies inside the 8 KiB instruction RAM; the data
range at 0xFFFFFFF0 of length 0x20 wraps to 0x10 and is accepted as Data RAM 0
at offset 0xFFFFFFF0. -/
theorem pru_da_to_va_containment_witness :
    (0 < (16 : Int) ∧
      ((0x100 : Nat) : Int) + 16 ≤
        (region_size pru0_probed pruss_example mem_target.IRAM : Int)) ∧
    pru_d_da_to_va pru0_probed pruss_example 0xFFFFFFF0 0x20 =
      some (mem_target.DRAM0, 0xFFFFFFF0) :=
  ⟨(pru_da_to_va_containment pru0_probed pruss_example 0x100 16 mem_target.IRAM 0x100
      (by decide) (by decide) (by decide) (by decide) (by decide)).1 (by decide),
   ((pru_da_to_va_containment pru0_probed pruss_example 0xFFFFFFF0 0x20 mem_target.DRAM0 0
      (by decide) (by decide) (by decide) (by decide) (by decide)).2.2.1
      (by decide) (by decide) (by decide) (by decide) (by decide)).1⟩

theorem get_race_run_append (L : pruss_limits) (qa qb : get_call) (xs ys : List Bool)
    (c : get_race) :
    get_race_run L qa qb (xs ++ ys) c = get_race_run L qa qb ys (get_race_run L qa qb xs c) := by
  induction xs generalizing c with
  | nil => rfl
  | cons t ts ih => exact ih _

/-- Run alone from its first line, the stepwise call returns what
`pru_rproc_get` returns and leaves the state `pru_rproc_get` leaves. -/
theorem get_race_alone (L : pruss_limits) (qa qb : get_call) (s : pru_state) :
    (get_race_run L qa qb (List.replicate 11 false) (get_race_init s)).pc_a =
      get_pc.returned (pru_rproc_get L qa.rets qa.np qa.index s).1 ∧
    (get_race_run L qa qb (List.replicate 11 false) (get_race_init s)).shared =
      (pru_rproc_get L qa.rets qa.np qa.index s).2 ∧
    (get_race_run L qa qb (List.replicate 11 false) (get_race_init s)).lock = none := by
  simp only [List.replicate, get_race_run, get_race_init]
  unfold pru_rproc_get
  rcases hl : __pru_rproc_get qa.np qa.index s with ⟨r0, s0⟩
  cases r0 with
  | error e =>
    simp [get_race_step, pru_rproc_get_step, hl]
  | ok u =>
    have hp : s0.rproc.parent_name_has_pru = true := by
      have h1 : (__pru_rproc_get qa.np qa.index s).1 = .ok () := by rw [hl]
      have h2 := lookup_ok_facts qa.np qa.index s h1
      rw [h2.2.2] at hl
      simp only [Prod.mk.injEq] at hl
      rw [← hl.2]
      exact h2.2.1
    cases hc : s0.pru.client_np with
    | some o =>
      simp [get_race_step, pru_rproc_get_step, hl, hc]
    | none =>
      simp only [get_race_step, pru_rproc_get_step, hl, hc, Bool.false_eq_true, if_false]
      by_cases hb : (pru_rproc_get_body L qa.rets qa.np qa.index
          { s0 with pru := { s0.pru with client_np := some qa.np.addr } }).1 = 0
      · simp [hb]
      · have hbp := (body_frame L qa.rets qa.np qa.index
          { s0 with pru := { s0.pru with client_np := some qa.np.addr } })
        simp only [ne_eq, hb, not_false_eq_true, if_true]
        simp only [hbp.2.1, hp, hbp.1, Bool.not_true, Bool.false_eq_true, if_false]
        simp [pru_rproc_put, hbp.2.1, hp, hbp.1]

theorem get_step_parent (L : pruss_limits) (q : get_call) (me : Bool) (pc pc1 : get_pc)
    (s s1 : pru_state) (l l1 : Option Bool)
    (h : pru_rproc_get_step L q me pc s l = some (pc1, s1, l1)) :
    s1.rproc.parent_name_has_pru = s.rproc.parent_name_has_pru ∧
    (pc = get_pc.lookup → pc1.in_progress = true → s.rproc.parent_name_has_pru = true) := by
  cases pc with
  | lookup =>
    unfold pru_rproc_get_step at h
    rcases hl : __pru_rproc_get q.np q.index s with ⟨r0, s0⟩
    rw [hl] at h
    cases r0 with
    | error e =>
      simp only [Option.some.injEq, Prod.mk.injEq] at h
      obtain ⟨h1, h2, _⟩ := h
      subst h1; subst h2
      refine ⟨?_, fun _ hp => by simp [get_pc.in_progress] at hp⟩
      have : s0 = (__pru_rproc_get q.np q.index s).2 := by rw [hl]
      rw [this]
      unfold __pru_rproc_get
      split
      · rfl
      · split_ifs <;> simp [get_device]
    | ok u =>
      simp only [Option.some.injEq, Prod.mk.injEq] at h
      obtain ⟨h1, h2, _⟩ := h
      subst h1; subst h2
      have h1 : (__pru_rproc_get q.np q.index s).1 = .ok () := by rw [hl]
      have h2 := lookup_ok_facts q.np q.index s h1
      rw [h2.2.2] at hl
      simp only [Prod.mk.injEq] at hl
      rw [← hl.2]
      exact ⟨rfl, fun _ _ => h2.2.1⟩
  | body =>
    simp only [pru_rproc_get_step] at h
    have hb := (body_frame L q.rets q.np q.index s).2.1
    split_ifs at h <;>
      (simp only [Option.some.injEq, Prod.mk.injEq] at h
       obtain ⟨_, h2, _⟩ := h
       subst h2
       exact ⟨hb, fun hx => by simp at hx⟩)
  | put_config e =>
    simp only [pru_rproc_get_step] at h
    refine ⟨?_, fun hx => by simp at hx⟩
    by_cases hp : s.rproc.parent_name_has_pru = true
    · cases hc : s.pru.client_np with
      | none =>
        simp only [hp, hc, Bool.not_true, Bool.false_eq_true, if_false, Option.some.injEq,
          Prod.mk.injEq] at h
        rw [← h.2.1]
      | some o =>
        simp only [hp, hc, Bool.not_true, Bool.false_eq_true, if_false, Option.some.injEq,
          Prod.mk.injEq] at h
        rw [← h.2.1]
        simp only [pru_rproc_set_firmware, rproc_set_firmware, pruss_cfg_set_gpmux,
          pruss_intc_unconfigure]
        split_ifs <;> rfl
    · simp only [hp, Bool.not_false, if_true, Option.some.injEq, Prod.mk.injEq] at h
      rw [← h.2.1]
  | lock =>
    cases l <;> simp [pru_rproc_get_step] at h
    obtain ⟨_, h2, _⟩ := h
    subst h2; exact ⟨rfl, fun hx => by simp at hx⟩
  | put_lock e =>
    cases l <;> simp [pru_rproc_get_step] at h
    obtain ⟨_, h2, _⟩ := h
    subst h2; exact ⟨rfl, fun hx => by simp at hx⟩
  | test =>
    simp only [pru_rproc_get_step] at h
    refine ⟨?_, fun hx => by simp at hx⟩
    cases hc : s.pru.client_np <;> rw [hc] at h <;>
      simp only [Option.some.injEq, Prod.mk.injEq] at h <;> rw [← h.2.1]
  | returned r => simp [pru_rproc_get_step] at h
  | busy_unlock | busy_put | set_owner | unlock | put_clear e | put_unlock e | put_ref e =>
    simp only [pru_rproc_get_step, Option.some.injEq, Prod.mk.injEq] at h
    obtain ⟨_, h2, _⟩ := h
    subst h2
    exact ⟨by simp [put_device], fun hx => by simp at hx⟩

theorem get_race_inv_step_a (L : pruss_limits) (qa qb : get_call) (c : get_race)
    (h : get_race_inv qa qb c) : get_race_inv qa qb (get_race_step L qa qb false c) := by
  unfold get_race_step
  simp only [Bool.false_eq_true, if_false]
  cases hst : pru_rproc_get_step L qa false c.pc_a c.shared c.lock with
  | none => exact h
  | some r =>
    obtain ⟨pc1, s1, l1⟩ := r
    have hpar := get_step_parent L qa false c.pc_a pc1 c.shared s1 c.lock l1 hst
    obtain ⟨s, l, pa, pb⟩ := c
    simp only at hst hpar ⊢
    unfold get_race_inv at h ⊢
    simp only at h ⊢
    obtain ⟨h1, h2, h3, h4, h5, h6, h7, h8, h9, h10⟩ := h
    cases pa with
    | lookup =>
      unfold pru_rproc_get_step at hst
      rcases hl : __pru_rproc_get qa.np qa.index s with ⟨r0, s0⟩
      rw [hl] at hst
      have hs0 : s0.pru = s.pru := by
        have : s0 = (__pru_rproc_get qa.np qa.index s).2 := by rw [hl]
        rw [this]
        unfold __pru_rproc_get
        split
        · rfl
        · split_ifs <;> simp [get_device]
      cases r0 with
      | error e =>
        simp only [Option.some.injEq, Prod.mk.injEq] at hst
        obtain ⟨e1, e2, e3⟩ := hst
        subst e1; subst e2; subst e3
        simp_all [get_pc.holds_lock, get_pc.is_owner, get_pc.in_progress]
      | ok u =>
        simp only [Option.some.injEq, Prod.mk.injEq] at hst
        obtain ⟨e1, e2, e3⟩ := hst
        subst e1; subst e2; subst e3
        simp_all [get_pc.holds_lock, get_pc.is_owner, get_pc.in_progress]
    | lock =>
      cases l with
      | some o => simp [pru_rproc_get_step] at hst
      | none =>
        simp only [pru_rproc_get_step, Option.some.injEq, Prod.mk.injEq] at hst
        obtain ⟨e1, e2, e3⟩ := hst
        subst e1; subst e2; subst e3
        simp_all [get_pc.holds_lock, get_pc.is_owner, get_pc.in_progress]
    | put_lock e =>
      cases l with
      | some o => simp [pru_rproc_get_step] at hst
      | none =>
        simp only [pru_rproc_get_step, Option.some.injEq, Prod.mk.injEq] at hst
        obtain ⟨e1, e2, e3⟩ := hst
        subst e1; subst e2; subst e3
        simp_all [get_pc.holds_lock, get_pc.is_owner, get_pc.in_progress]
    | test =>
      cases hc : s.pru.client_np with
      | none =>
        simp only [pru_rproc_get_step, hc, Option.some.injEq, Prod.mk.injEq] at hst
        obtain ⟨e1, e2, e3⟩ := hst
        subst e1; subst e2; subst e3
        have hb : pb.is_owner = false := by
          cases hbo : pb.is_owner
          · rfl
          · rw [h4 hbo] at hc
            exact absurd hc (by simp)
        simp_all [get_pc.holds_lock, get_pc.is_owner, get_pc.in_progress]
      | some o =>
        simp only [pru_rproc_get_step, hc, Option.some.injEq, Prod.mk.injEq] at hst
        obtain ⟨e1, e2, e3⟩ := hst
        subst e1; subst e2; subst e3
        simp_all [get_pc.holds_lock, get_pc.is_owner, get_pc.in_progress]
    | returned r => simp [pru_rproc_get_step] at hst
    | body =>
      simp only [pru_rproc_get_step] at hst
      have hb := (body_frame L qa.rets qa.np qa.index s).1
      split_ifs at hst <;>
        (simp only [Option.some.injEq, Prod.mk.injEq] at hst
         obtain ⟨e1, e2, e3⟩ := hst
         subst e1; subst e2; subst e3
         simp_all [get_pc.holds_lock, get_pc.is_owner, get_pc.in_progress])
    | put_config e =>
      have hp : s.rproc.parent_name_has_pru = true := h9 rfl
      have hc : s.pru.client_np = some qa.np.addr := h3 rfl
      simp only [pru_rproc_get_step, hp, hc, Bool.not_true, Bool.false_eq_true, if_false,
        Option.some.injEq, Prod.mk.injEq] at hst
      obtain ⟨e1, e2, e3⟩ := hst
      subst e1; subst e3
      have hs1 : s1.pru.client_np = s.pru.client_np := by
        rw [← e2]
        simp only [pru_rproc_set_firmware, rproc_set_firmware, pruss_cfg_set_gpmux,
          pruss_intc_unconfigure]
        split_ifs <;> rfl
      simp_all [get_pc.holds_lock, get_pc.is_owner, get_pc.in_progress]
    | set_owner =>
      simp only [pru_rproc_get_step, Option.some.injEq, Prod.mk.injEq] at hst
      obtain ⟨e1, e2, e3⟩ := hst
      subst e1; subst e2; subst e3
      have hpb : pb ≠ get_pc.set_owner := by
        intro hx
        subst hx
        have hl := h1.2 rfl
        have hl2 := h2.2 rfl
        rw [hl] at hl2
        exact absurd hl2 (by decide)
      simp_all [get_pc.holds_lock, get_pc.is_owner, get_pc.in_progress]
    | busy_unlock | busy_put | unlock | put_clear e | put_unlock e | put_ref e =>
      simp only [pru_rproc_get_step, Option.some.injEq, Prod.mk.injEq] at hst
      obtain ⟨e1, e2, e3⟩ := hst
      subst e1; subst e2; subst e3
      simp_all [get_pc.holds_lock, get_pc.is_owner, get_pc.in_progress, put_device]
theorem get_race_inv_step_b (L : pruss_limits) (qa qb : get_call) (c : get_race)
    (h : get_race_inv qa qb c) : get_race_inv qa qb (get_race_step L qa qb true c) := by
  unfold get_race_step
  simp only [if_true]
  cases hst : pru_rproc_get_step L qb true c.pc_b c.shared c.lock with
  | none => exact h
  | some r =>
    obtain ⟨pc1, s1, l1⟩ := r
    have hpar := get_step_parent L qb true c.pc_b pc1 c.shared s1 c.lock l1 hst
    obtain ⟨s, l, pa, pb⟩ := c
    simp only at hst hpar ⊢
    unfold get_race_inv at h ⊢
    simp only at h ⊢
    obtain ⟨h1, h2, h3, h4, h5, h6, h7, h8, h9, h10⟩ := h
    cases pb with
    | lookup =>
      unfold pru_rproc_get_step at hst
      rcases hl : __pru_rproc_get qb.np qb.index s with ⟨r0, s0⟩
      rw [hl] at hst
      have hs0 : s0.pru = s.pru := by
        have : s0 = (__pru_rproc_get qb.np qb.index s).2 := by rw [hl]
        rw [this]
        unfold __pru_rproc_get
        split
        · rfl
        · split_ifs <;> simp [get_device]
      cases r0 with
      | error e =>
        simp only [Option.some.injEq, Prod.mk.injEq] at hst
        obtain ⟨e1, e2, e3⟩ := hst
        subst e1; subst e2; subst e3
        simp_all [get_pc.holds_lock, get_pc.is_owner, get_pc.in_progress]
      | ok u =>
        simp only [Option.some.injEq, Prod.mk.injEq] at hst
        obtain ⟨e1, e2, e3⟩ := hst
        subst e1; subst e2; subst e3
        simp_all [get_pc.holds_lock, get_pc.is_owner, get_pc.in_progress]
    | lock =>
      cases l with
      | some o => simp [pru_rproc_get_step] at hst
      | none =>
        simp only [pru_rproc_get_step, Option.some.injEq, Prod.mk.injEq] at hst
        obtain ⟨e1, e2, e3⟩ := hst
        subst e1; subst e2; subst e3
        simp_all [get_pc.holds_lock, get_pc.is_owner, get_pc.in_progress]
    | put_lock e =>
      cases l with
      | some o => simp [pru_rproc_get_step] at hst
      | none =>
        simp only [pru_rproc_get_step, Option.some.injEq, Prod.mk.injEq] at hst
        obtain ⟨e1, e2, e3⟩ := hst
        subst e1; subst e2; subst e3
        simp_all [get_pc.holds_lock, get_pc.is_owner, get_pc.in_progress]
    | test =>
      cases hc : s.pru.client_np with
      | none =>
        simp only [pru_rproc_get_step, hc, Option.some.injEq, Prod.mk.injEq] at hst
        obtain ⟨e1, e2, e3⟩ := hst
        subst e1; subst e2; subst e3
        have hb : pa.is_owner = false := by
          cases hbo : pa.is_owner
          · rfl
          · rw [h3 hbo] at hc
            exact absurd hc (by simp)
        simp_all [get_pc.holds_lock, get_pc.is_owner, get_pc.in_progress]
      | some o =>
        simp only [pru_rproc_get_step, hc, Option.some.injEq, Prod.mk.injEq] at hst
        obtain ⟨e1, e2, e3⟩ := hst
        subst e1; subst e2; subst e3
        simp_all [get_pc.holds_lock, get_pc.is_owner, get_pc.in_progress]
    | returned r => simp [pru_rproc_get_step] at hst
    | body =>
      simp only [pru_rproc_get_step] at hst
      have hb := (body_frame L qb.rets qb.np qb.index s).1
      split_ifs at hst <;>
        (simp only [Option.some.injEq, Prod.mk.injEq] at hst
         obtain ⟨e1, e2, e3⟩ := hst
         subst e1; subst e2; subst e3
         simp_all [get_pc.holds_lock, get_pc.is_owner, get_pc.in_progress])
    | put_config e =>
      have hp : s.rproc.parent_name_has_pru = true := h10 rfl
      have hc : s.pru.client_np = some qb.np.addr := h4 rfl
      simp only [pru_rproc_get_step, hp, hc, Bool.not_true, Bool.false_eq_true, if_false,
        Option.some.injEq, Prod.mk.injEq] at hst
      obtain ⟨e1, e2, e3⟩ := hst
      subst e1; subst e3
      have hs1 : s1.pru.client_np = s.pru.client_np := by
        rw [← e2]
        simp only [pru_rproc_set_firmware, rproc_set_firmware, pruss_cfg_set_gpmux,
          pruss_intc_unconfigure]
        split_ifs <;> rfl
      simp_all [get_pc.holds_lock, get_pc.is_owner, get_pc.in_progress]
    | set_owner =>
      simp only [pru_rproc_get_step, Option.some.injEq, Prod.mk.injEq] at hst
      obtain ⟨e1, e2, e3⟩ := hst
      subst e1; subst e2; subst e3
      have hpb : pa ≠ get_pc.set_owner := by
        intro hx
        subst hx
        have hl := h1.2 rfl
        have hl2 := h2.2 rfl
        rw [hl] at hl2
        exact absurd hl2 (by decide)
      simp_all [get_pc.holds_lock, get_pc.is_owner, get_pc.in_progress]
    | busy_unlock | busy_put | unlock | put_clear e | put_unlock e | put_ref e =>
      simp only [pru_rproc_get_step, Option.some.injEq, Prod.mk.injEq] at hst
      obtain ⟨e1, e2, e3⟩ := hst
      subst e1; subst e2; subst e3
      simp_all [get_pc.holds_lock, get_pc.is_owner, get_pc.in_progress, put_device]

theorem get_race_ok_step_a (L : pruss_limits) (qa qb : get_call) (c : get_race) (s0 : pru_state)
    (hla : (__pru_rproc_get qa.np qa.index s0).1 = .ok ())
    (hba : (pru_rproc_get_body L qa.rets qa.np qa.index s0).1 = 0)
    (h : get_race_inv qa qb c) (hj : get_race_inv_ok c) :
    get_race_inv_ok (get_race_step L qa qb false c) := by
  unfold get_race_step
  simp only [Bool.false_eq_true, if_false]
  cases hst : pru_rproc_get_step L qa false c.pc_a c.shared c.lock with
  | none => exact hj
  | some r =>
    obtain ⟨pc1, s1, l1⟩ := r
    have hpar := get_step_parent L qa false c.pc_a pc1 c.shared s1 c.lock l1 hst
    obtain ⟨s, l, pa, pb⟩ := c
    simp only at hst hpar ⊢
    unfold get_race_inv at h
    unfold get_race_inv_ok at hj ⊢
    simp only at h hj ⊢
    obtain ⟨h1, h2, h3, h4, h5, h6, h7, h8, h9, h10⟩ := h
    obtain ⟨j0, j1, j2, j3, j4⟩ := hj
    have hpar1 : s1.rproc.parent_name_has_pru = true := by rw [hpar.1]; exact j0
    cases pa with
    | lookup =>
      have hl : (__pru_rproc_get qa.np qa.index s).1 = .ok () := by
        rw [lookup_congr qa.np qa.index s0 s
          (by rw [j0, (lookup_ok_facts qa.np qa.index s0 hla).2.1])]
        exact hla
      have hl2 := (lookup_ok_facts qa.np qa.index s hl).2.2
      simp only [pru_rproc_get_step, hl2, Option.some.injEq, Prod.mk.injEq] at hst
      obtain ⟨e1, e2, e3⟩ := hst
      subst e1; subst e2; subst e3
      simp_all [get_pc.is_busy, get_pc.is_owner, get_pc.no_failure]
    | lock =>
      cases l with
      | some o => simp [pru_rproc_get_step] at hst
      | none =>
        simp only [pru_rproc_get_step, Option.some.injEq, Prod.mk.injEq] at hst
        obtain ⟨e1, e2, e3⟩ := hst
        subst e1; subst e2; subst e3
        simp_all [get_pc.is_busy, get_pc.is_owner, get_pc.no_failure]
    | put_lock e => simp [get_pc.no_failure] at j1
    | put_config e => simp [get_pc.no_failure] at j1
    | put_clear e => simp [get_pc.no_failure] at j1
    | put_unlock e => simp [get_pc.no_failure] at j1
    | put_ref e => simp [get_pc.no_failure] at j1
    | test =>
      cases hc : s.pru.client_np with
      | none =>
        simp only [pru_rproc_get_step, hc, Option.some.injEq, Prod.mk.injEq] at hst
        obtain ⟨e1, e2, e3⟩ := hst
        subst e1; subst e2; subst e3
        have hb : pb.is_owner = false := by
          cases hbo : pb.is_owner
          · rfl
          · rw [h4 hbo] at hc
            exact absurd hc (by simp)
        have hbb : pb.is_busy = false := by
          cases hbb : pb.is_busy
          · rfl
          · have := j4 hbb
            simp [get_pc.is_owner] at this
        simp_all [get_pc.is_busy, get_pc.is_owner, get_pc.no_failure]
      | some o =>
        simp only [pru_rproc_get_step, hc, Option.some.injEq, Prod.mk.injEq] at hst
        obtain ⟨e1, e2, e3⟩ := hst
        subst e1; subst e2; subst e3
        have hb : pb.is_owner = true := by
          cases hbo : pb.is_owner
          · have := h5 rfl hbo
            rw [this] at hc
            exact absurd hc (by simp)
          · rfl
        have hbb : pb.is_busy = false := by
          cases hbb : pb.is_busy
          · rfl
          · have := j4 hbb
            simp [get_pc.is_owner] at this
        simp_all [get_pc.is_busy, get_pc.is_owner, get_pc.no_failure]
    | returned r => simp [pru_rproc_get_step] at hst
    | body =>
      have hb0 : (pru_rproc_get_body L qa.rets qa.np qa.index s).1 = 0 :=
        (body_code_indep L qa.rets qa.np qa.index s s0).trans hba
      simp only [pru_rproc_get_step, hb0, ne_eq, not_true_eq_false, if_false,
        Option.some.injEq, Prod.mk.injEq] at hst
      obtain ⟨e1, e2, e3⟩ := hst
      subst e1; subst e2; subst e3
      simp_all [get_pc.is_busy, get_pc.is_owner, get_pc.no_failure]
    | busy_unlock | busy_put | set_owner | unlock =>
      simp only [pru_rproc_get_step, Option.some.injEq, Prod.mk.injEq] at hst
      obtain ⟨e1, e2, e3⟩ := hst
      subst e1; subst e2; subst e3
      simp_all [get_pc.is_busy, get_pc.is_owner, get_pc.no_failure, put_device]
theorem get_race_ok_step_b (L : pruss_limits) (qa qb : get_call) (c : get_race) (s0 : pru_state)
    (hlb : (__pru_rproc_get qb.np qb.index s0).1 = .ok ())
    (hbb0 : (pru_rproc_get_body L qb.rets qb.np qb.index s0).1 = 0)
    (h : get_race_inv qa qb c) (hj : get_race_inv_ok c) :
    get_race_inv_ok (get_race_step L qa qb true c) := by
  unfold get_race_step
  simp only [if_true]
  cases hst : pru_rproc_get_step L qb true c.pc_b c.shared c.lock with
  | none => exact hj
  | some r =>
    obtain ⟨pc1, s1, l1⟩ := r
    have hpar := get_step_parent L qb true c.pc_b pc1 c.shared s1 c.lock l1 hst
    obtain ⟨s, l, pa, pb⟩ := c
    simp only at hst hpar ⊢
    unfold get_race_inv at h
    unfold get_race_inv_ok at hj ⊢
    simp only at h hj ⊢
    obtain ⟨h1, h2, h3, h4, h5, h6, h7, h8, h9, h10⟩ := h
    obtain ⟨j0, j1, j2, j3, j4⟩ := hj
    have hpar1 : s1.rproc.parent_name_has_pru = true := by rw [hpar.1]; exact j0
    cases pb with
    | lookup =>
      have hl : (__pru_rproc_get qb.np qb.index s).1 = .ok () := by
        rw [lookup_congr qb.np qb.index s0 s
          (by rw [j0, (lookup_ok_facts qb.np qb.index s0 hlb).2.1])]
        exact hlb
      have hl2 := (lookup_ok_facts qb.np qb.index s hl).2.2
      simp only [pru_rproc_get_step, hl2, Option.some.injEq, Prod.mk.injEq] at hst
      obtain ⟨e1, e2, e3⟩ := hst
      subst e1; subst e2; subst e3
      simp_all [get_pc.is_busy, get_pc.is_owner, get_pc.no_failure]
    | lock =>
      cases l with
      | some o => simp [pru_rproc_get_step] at hst
      | none =>
        simp only [pru_rproc_get_step, Option.some.injEq, Prod.mk.injEq] at hst
        obtain ⟨e1, e2, e3⟩ := hst
        subst e1; subst e2; subst e3
        simp_all [get_pc.is_busy, get_pc.is_owner, get_pc.no_failure]
    | put_lock e => simp [get_pc.no_failure] at j2
    | put_config e => simp [get_pc.no_failure] at j2
    | put_clear e => simp [get_pc.no_failure] at j2
    | put_unlock e => simp [get_pc.no_failure] at j2
    | put_ref e => simp [get_pc.no_failure] at j2
    | test =>
      cases hc : s.pru.client_np with
      | none =>
        simp only [pru_rproc_get_step, hc, Option.some.injEq, Prod.mk.injEq] at hst
        obtain ⟨e1, e2, e3⟩ := hst
        subst e1; subst e2; subst e3
        have hb : pa.is_owner = false := by
          cases hbo : pa.is_owner
          · rfl
          · rw [h3 hbo] at hc
            exact absurd hc (by simp)
        have hbb : pa.is_busy = false := by
          cases hbb : pa.is_busy
          · rfl
          · have := j3 hbb
            simp [get_pc.is_owner] at this
        simp_all [get_pc.is_busy, get_pc.is_owner, get_pc.no_failure]
      | some o =>
        simp only [pru_rproc_get_step, hc, Option.some.injEq, Prod.mk.injEq] at hst
        obtain ⟨e1, e2, e3⟩ := hst
        subst e1; subst e2; subst e3
        have hb : pa.is_owner = true := by
          cases hbo : pa.is_owner
          · have := h5 hbo rfl
            rw [this] at hc
            exact absurd hc (by simp)
          · rfl
        have hbb : pa.is_busy = false := by
          cases hbb : pa.is_busy
          · rfl
          · have := j3 hbb
            simp [get_pc.is_owner] at this
        simp_all [get_pc.is_busy, get_pc.is_owner, get_pc.no_failure]
    | returned r => simp [pru_rproc_get_step] at hst
    | body =>
      have hb0 : (pru_rproc_get_body L qb.rets qb.np qb.index s).1 = 0 :=
        (body_code_indep L qb.rets qb.np qb.index s s0).trans hbb0
      simp only [pru_rproc_get_step, hb0, ne_eq, not_true_eq_false, if_false,
        Option.some.injEq, Prod.mk.injEq] at hst
      obtain ⟨e1, e2, e3⟩ := hst
      subst e1; subst e2; subst e3
      simp_all [get_pc.is_busy, get_pc.is_owner, get_pc.no_failure]
    | busy_unlock | busy_put | set_owner | unlock =>
      simp only [pru_rproc_get_step, Option.some.injEq, Prod.mk.injEq] at hst
      obtain ⟨e1, e2, e3⟩ := hst
      subst e1; subst e2; subst e3
      simp_all [get_pc.is_busy, get_pc.is_owner, get_pc.no_failure, put_device]

theorem get_race_inv_init (qa qb : get_call) (s : pru_state) (hf : s.pru.client_np = none) :
    get_race_inv qa qb (get_race_init s) := by
  simp [get_race_inv, get_race_init, get_pc.holds_lock, get_pc.is_owner, get_pc.in_progress, hf]

theorem get_race_inv_run (L : pruss_limits) (qa qb : get_call) (sched : List Bool) :
    ∀ c, get_race_inv qa qb c → get_race_inv qa qb (get_race_run L qa qb sched c) := by
  induction sched with
  | nil => intro c h; exact h
  | cons t ts ih =>
    intro c h
    apply ih
    cases t
    · exact get_race_inv_step_a L qa qb c h
    · exact get_race_inv_step_b L qa qb c h

theorem get_race_ok_run (L : pruss_limits) (qa qb : get_call) (s0 : pru_state)
    (hla : (__pru_rproc_get qa.np qa.index s0).1 = .ok ())
    (hba : (pru_rproc_get_body L qa.rets qa.np qa.index s0).1 = 0)
    (hlb : (__pru_rproc_get qb.np qb.index s0).1 = .ok ())
    (hbb : (pru_rproc_get_body L qb.rets qb.np qb.index s0).1 = 0)
    (sched : List Bool) :
    ∀ c, get_race_inv qa qb c → get_race_inv_ok c →
      get_race_inv_ok (get_race_run L qa qb sched c) := by
  induction sched with
  | nil => intro c _ hj; exact hj
  | cons t ts ih =>
    intro c h hj
    cases t
    · exact ih _ (get_race_inv_step_a L qa qb c h)
        (get_race_ok_step_a L qa qb c s0 hla hba h hj)
    · exact ih _ (get_race_inv_step_b L qa qb c h)
        (get_race_ok_step_b L qa qb c s0 hlb hbb h hj)

theorem get_step_progress (L : pruss_limits) (q : get_call) (me : Bool) (pc : get_pc)
    (s : pru_state) (l : Option Bool) (hl : pc.holds_lock = false → l = none)
    (hr : pc.is_returned = false) :
    ∃ pc1 s1 l1, pru_rproc_get_step L q me pc s l = some (pc1, s1, l1) ∧
      pc1.steps_left < pc.steps_left := by
  cases pc with
  | lookup =>
    unfold pru_rproc_get_step
    rcases __pru_rproc_get q.np q.index s with ⟨r0, s0⟩
    cases r0 <;> exact ⟨_, _, _, rfl, by simp [get_pc.steps_left]⟩
  | lock =>
    rw [hl rfl]
    exact ⟨_, _, _, rfl, by simp [get_pc.steps_left]⟩
  | put_lock e =>
    rw [hl rfl]
    exact ⟨_, _, _, rfl, by simp [get_pc.steps_left]⟩
  | test =>
    unfold pru_rproc_get_step
    cases s.pru.client_np <;> exact ⟨_, _, _, rfl, by simp [get_pc.steps_left]⟩
  | body =>
    simp only [pru_rproc_get_step]
    split_ifs <;> exact ⟨_, _, _, rfl, by simp [get_pc.steps_left]⟩
  | put_config e =>
    simp only [pru_rproc_get_step]
    cases (!s.rproc.parent_name_has_pru)
    · cases s.pru.client_np <;> exact ⟨_, _, _, rfl, by simp [get_pc.steps_left]⟩
    · exact ⟨_, _, _, rfl, by simp [get_pc.steps_left]⟩
  | returned r => simp [get_pc.is_returned] at hr
  | busy_unlock | busy_put | set_owner | unlock | put_clear e | put_unlock e | put_ref e =>
    exact ⟨_, _, _, rfl, by simp [get_pc.steps_left]⟩

theorem get_race_lock_free (qa qb : get_call) (c : get_race) (h : get_race_inv qa qb c)
    (ha : c.pc_a.holds_lock = false) (hb : c.pc_b.holds_lock = false) : c.lock = none := by
  obtain ⟨h1, h2, _⟩ := h
  cases hl : c.lock with
  | none => rfl
  | some t =>
    cases t
    · rw [h1.1 hl] at ha; exact absurd ha (by decide)
    · rw [h2.1 hl] at hb; exact absurd hb (by decide)

theorem get_race_finish_a (L : pruss_limits) (qa qb : get_call) :
    ∀ (n : Nat) (c : get_race), get_race_inv qa qb c → c.pc_b.holds_lock = false →
      c.pc_a.steps_left ≤ n →
      (get_race_run L qa qb (List.replicate n false) c).pc_a.is_returned = true ∧
      (get_race_run L qa qb (List.replicate n false) c).pc_b = c.pc_b ∧
      get_race_inv qa qb (get_race_run L qa qb (List.replicate n false) c) := by
  intro n
  induction n with
  | zero =>
    intro c h _ hn
    refine ⟨?_, rfl, h⟩
    simp only [List.replicate, get_race_run]
    cases hp : c.pc_a <;> rw [hp] at hn <;> simp [get_pc.steps_left] at hn
    rfl
  | succ n ih =>
    intro c h hb hn
    simp only [List.replicate, get_race_run]
    have hinv := get_race_inv_step_a L qa qb c h
    have hpb : (get_race_step L qa qb false c).pc_b = c.pc_b := by
      unfold get_race_step
      simp only [Bool.false_eq_true, if_false]
      split <;> rfl
    have hlt : (get_race_step L qa qb false c).pc_a.steps_left ≤ n := by
      cases hr : c.pc_a.is_returned
      · obtain ⟨pc1, s1, l1, hs, hlt⟩ := get_step_progress L qa false c.pc_a c.shared c.lock
          (fun ha => get_race_lock_free qa qb c h ha hb) hr
        unfold get_race_step
        simp only [Bool.false_eq_true, if_false, hs]
        omega
      · unfold get_race_step
        simp only [Bool.false_eq_true, if_false]
        cases hp : c.pc_a <;> rw [hp] at hr <;> simp [get_pc.is_returned] at hr
        simp [pru_rproc_get_step, hp, get_pc.steps_left]
    have := ih (get_race_step L qa qb false c) hinv (by rw [hpb]; exact hb) hlt
    rw [hpb] at this
    exact this

theorem get_race_finish_b (L : pruss_limits) (qa qb : get_call) :
    ∀ (n : Nat) (c : get_race), get_race_inv qa qb c → c.pc_a.holds_lock = false →
      c.pc_b.steps_left ≤ n →
      (get_race_run L qa qb (List.replicate n true) c).pc_b.is_returned = true ∧
      (get_race_run L qa qb (List.replicate n true) c).pc_a = c.pc_a ∧
      get_race_inv qa qb (get_race_run L qa qb (List.replicate n true) c) := by
  intro n
  induction n with
  | zero =>
    intro c h _ hn
    refine ⟨?_, rfl, h⟩
    simp only [List.replicate, get_race_run]
    cases hp : c.pc_b <;> rw [hp] at hn <;> simp [get_pc.steps_left] at hn
    rfl
  | succ n ih =>
    intro c h hb hn
    simp only [List.replicate, get_race_run]
    have hinv := get_race_inv_step_b L qa qb c h
    have hpb : (get_race_step L qa qb true c).pc_a = c.pc_a := by
      unfold get_race_step
      simp only [if_true]
      split <;> rfl
    have hlt : (get_race_step L qa qb true c).pc_b.steps_left ≤ n := by
      cases hr : c.pc_b.is_returned
      · obtain ⟨pc1, s1, l1, hs, hlt⟩ := get_step_progress L qb true c.pc_b c.shared c.lock
          (fun ha => get_race_lock_free qa qb c h hb ha) hr
        unfold get_race_step
        simp only [if_true, hs]
        omega
      · unfold get_race_step
        simp only [if_true]
        cases hp : c.pc_b <;> rw [hp] at hr <;> simp [get_pc.is_returned] at hr
        simp [pru_rproc_get_step, hp, get_pc.steps_left]
    have := ih (get_race_step L qa qb true c) hinv (by rw [hpb]; exact hb) hlt
    rw [hpb] at this
    exact this

theorem get_ok_facts (L : pruss_limits) (r : get_rets) (np : device_node) (index : Int)
    (s : pru_state) (h : (pru_rproc_get L r np index s).1 = .ok ()) :
    (__pru_rproc_get np index s).1 = .ok () ∧ s.pru.client_np = none ∧
      (pru_rproc_get_body L r np index s).1 = 0 := by
  have hl : (__pru_rproc_get np index s).1 = .ok () := by
    unfold pru_rproc_get at h
    rcases hl : __pru_rproc_get np index s with ⟨r0, s0⟩
    rw [hl] at h
    cases r0 with
    | error e => simp at h
    | ok u => rfl
  have hf : s.pru.client_np = none := by
    unfold pru_rproc_get at h
    rw [(lookup_ok_facts np index s hl).2.2] at h
    cases hc : s.pru.client_np with
    | none => rfl
    | some o =>
      have : (get_device s).pru.client_np = some o := hc
      simp [this] at h
  refine ⟨hl, hf, ?_⟩
  rw [get_unowned_eq L r np index s hl hf] at h
  rw [body_code_indep L r np index s (state_owned np s)]
  by_contra hb
  rw [if_pos hb] at h
  simp at h

theorem get_race_ok_init (s : pru_state) (hp : s.rproc.parent_name_has_pru = true) :
    get_race_inv_ok (get_race_init s) := by
  simp [get_race_inv_ok, get_race_init, get_pc.no_failure, get_pc.is_busy, hp]

theorem get_race_at_most_one (L : pruss_limits) (qa qb : get_call) (s : pru_state)
    (hfree : s.pru.client_np = none) (sched : List Bool) :
    ¬ ((get_race_run L qa qb sched (get_race_init s)).pc_a = get_pc.returned (.ok ()) ∧
      (get_race_run L qa qb sched (get_race_init s)).pc_b = get_pc.returned (.ok ())) := by
  have h := get_race_inv_run L qa qb sched _ (get_race_inv_init qa qb s hfree)
  rintro ⟨ha, hb⟩
  have h6 := h.2.2.2.2.2.1
  rw [ha, hb] at h6
  exact absurd (h6 rfl) (by decide)

theorem get_race_can_finish (L : pruss_limits) (qa qb : get_call) (c : get_race)
    (h : get_race_inv qa qb c) :
    ∃ ext, (get_race_run L qa qb ext c).pc_a.is_returned = true ∧
      (get_race_run L qa qb ext c).pc_b.is_returned = true := by
  have hret : ∀ pc : get_pc, pc.is_returned = true → pc.holds_lock = false := by
    intro pc hp
    cases pc
    all_goals first | rfl | simp [get_pc.is_returned] at hp
  have hle : ∀ pc : get_pc, pc.steps_left ≤ 11 := by
    intro pc
    cases pc <;> simp [get_pc.steps_left]
  cases hb : c.pc_b.holds_lock
  · refine ⟨List.replicate 11 false ++ List.replicate 11 true, ?_⟩
    rw [get_race_run_append]
    obtain ⟨f1, f2, f3⟩ := get_race_finish_a L qa qb 11 c h hb (hle _)
    obtain ⟨g1, g2, _⟩ := get_race_finish_b L qa qb 11 _ f3 (hret _ f1) (hle _)
    rw [g2]
    exact ⟨f1, g1⟩
  · have ha : c.pc_a.holds_lock = false := by
      cases ha : c.pc_a.holds_lock
      · rfl
      · have l1 := h.1.2 ha
        have l2 := h.2.1.2 hb
        rw [l1] at l2
        exact absurd l2 (by decide)
    refine ⟨List.replicate 11 true ++ List.replicate 11 false, ?_⟩
    rw [get_race_run_append]
    obtain ⟨f1, f2, f3⟩ := get_race_finish_b L qa qb 11 c h ha (hle _)
    obtain ⟨g1, g2, _⟩ := get_race_finish_a L qa qb 11 _ f3 (hret _ f1) (hle _)
    rw [g2]
    exact ⟨g1, f1⟩

theorem get_race_alone_b (L : pruss_limits) (qa qb : get_call) (s : pru_state) :
    (get_race_run L qa qb (List.replicate 11 true) (get_race_init s)).pc_b =
      get_pc.returned (pru_rproc_get L qb.rets qb.np qb.index s).1 ∧
    (get_race_run L qa qb (List.replicate 11 true) (get_race_init s)).shared =
      (pru_rproc_get L qb.rets qb.np qb.index s).2 ∧
    (get_race_run L qa qb (List.replicate 11 true) (get_race_init s)).lock = none := by
  simp only [List.replicate, get_race_run, get_race_init]
  unfold pru_rproc_get
  rcases hl : __pru_rproc_get qb.np qb.index s with ⟨r0, s0⟩
  cases r0 with
  | error e =>
    simp [get_race_step, pru_rproc_get_step, hl]
  | ok u =>
    have hp : s0.rproc.parent_name_has_pru = true := by
      have h1 : (__pru_rproc_get qb.np qb.index s).1 = .ok () := by rw [hl]
      have h2 := lookup_ok_facts qb.np qb.index s h1
      rw [h2.2.2] at hl
      simp only [Prod.mk.injEq] at hl
      rw [← hl.2]
      exact h2.2.1
    cases hc : s0.pru.client_np with
    | some o =>
      simp [get_race_step, pru_rproc_get_step, hl, hc]
    | none =>
      simp only [get_race_step, pru_rproc_get_step, hl, hc, if_true]
      by_cases hb : (pru_rproc_get_body L qb.rets qb.np qb.index
          { s0 with pru := { s0.pru with client_np := some qb.np.addr } }).1 = 0
      · simp [hb]
      · have hbp := (body_frame L qb.rets qb.np qb.index
          { s0 with pru := { s0.pru with client_np := some qb.np.addr } })
        simp only [ne_eq, hb, not_false_eq_true, if_true]
        simp only [hbp.2.1, hp, hbp.1, Bool.not_true, Bool.false_eq_true, if_false]
        simp [pru_rproc_put, hbp.2.1, hp, hbp.1]

/-- C22 (counterexample): the client with the bad second tuple and the client
at 8192 call for the unowned example core; the second call succeeds when it
runs alone.  In the interleaving in which the first call records itself as
owner, the second then runs to its end, and the first then meets the bad
tuple and releases the core, the first returns `-EINVAL`, the second `-EBUSY`,
and the core has no owner: neither call has succeeded. -/
theorem pru_rproc_get_race_neither_succeeds :
    state_example.pru.client_np = none ∧
    (pru_rproc_get limits_spec call_no_map.rets call_no_map.np call_no_map.index
      state_example).1 = .ok () ∧
    (get_race_run limits_spec call_bad_event call_no_map
      [false, false, false, false, false, true, true, true, true, true,
        false, false, false, false, false, false]
      (get_race_init state_example)).pc_a = get_pc.returned (.error (-EINVAL)) ∧
    (get_race_run limits_spec call_bad_event call_no_map
      [false, false, false, false, false, true, true, true, true, true,
        false, false, false, false, false, false]
      (get_race_init state_example)).pc_b = get_pc.returned (.error (-EBUSY)) ∧
    (get_race_run limits_spec call_bad_event call_no_map
      [false, false, false, false, false, true, true, true, true, true,
        false, false, false, false, false, false]
      (get_race_init state_example)).shared.pru.client_np = none := by
  decide

/-- C22 (amended): two calls of `pru_rproc_get` on one unowned core, run step
by step in any interleaving (the schedule names the thread that moves; a
thread waiting for `pru->lock` does not move).  At no point have both calls
returned the handle, and every interleaving can be continued until both calls
have returned.  When each of the two calls succeeds if it runs alone on that
core, then in every interleaving, once both have returned, one has returned
the handle, its client is the recorded owner, and the other has returned
`-EBUSY`.  A call run alone in steps returns what `pru_rproc_get` returns and
leaves the state `pru_rproc_get` leaves. -/
theorem pru_rproc_get_race (L : pruss_limits) (qa qb : get_call) (s : pru_state)
    (hfree : s.pru.client_np = none) (sched : List Bool) :
    ¬ ((get_race_run L qa qb sched (get_race_init s)).pc_a = get_pc.returned (.ok ()) ∧
      (get_race_run L qa qb sched (get_race_init s)).pc_b = get_pc.returned (.ok ())) ∧
    (∃ ext,
      (get_race_run L qa qb (sched ++ ext) (get_race_init s)).pc_a.is_returned = true ∧
      (get_race_run L qa qb (sched ++ ext) (get_race_init s)).pc_b.is_returned = true) ∧
    ((pru_rproc_get L qa.rets qa.np qa.index s).1 = .ok () →
      (pru_rproc_get L qb.rets qb.np qb.index s).1 = .ok () →
      ∀ ra rb,
        (get_race_run L qa qb sched (get_race_init s)).pc_a = get_pc.returned ra →
        (get_race_run L qa qb sched (get_race_init s)).pc_b = get_pc.returned rb →
        (ra = .ok () ∧ rb = .error (-EBUSY) ∧
          (get_race_run L qa qb sched (get_race_init s)).shared.pru.client_np =
            some qa.np.addr) ∨
        (ra = .error (-EBUSY) ∧ rb = .ok () ∧
          (get_race_run L qa qb sched (get_race_init s)).shared.pru.client_np =
            some qb.np.addr)) ∧
    ((get_race_run L qa qb (List.replicate 11 false) (get_race_init s)).pc_a =
        get_pc.returned (pru_rproc_get L qa.rets qa.np qa.index s).1 ∧
      (get_race_run L qa qb (List.replicate 11 false) (get_race_init s)).shared =
        (pru_rproc_get L qa.rets qa.np qa.index s).2) ∧
    ((get_race_run L qa qb (List.replicate 11 true) (get_race_init s)).pc_b =
        get_pc.returned (pru_rproc_get L qb.rets qb.np qb.index s).1 ∧
      (get_race_run L qa qb (List.replicate 11 true) (get_race_init s)).shared =
        (pru_rproc_get L qb.rets qb.np qb.index s).2) := by
  have hinv := get_race_inv_run L qa qb sched _ (get_race_inv_init qa qb s hfree)
  refine ⟨get_race_at_most_one L qa qb s hfree sched, ?_, ?_,
    ⟨(get_race_alone L qa qb s).1, (get_race_alone L qa qb s).2.1⟩,
    ⟨(get_race_alone_b L qa qb s).1, (get_race_alone_b L qa qb s).2.1⟩⟩
  · rw [show (∃ ext,
      (get_race_run L qa qb (sched ++ ext) (get_race_init s)).pc_a.is_returned = true ∧
      (get_race_run L qa qb (sched ++ ext) (get_race_init s)).pc_b.is_returned = true) ↔
      (∃ ext,
      (get_race_run L qa qb ext (get_race_run L qa qb sched (get_race_init s))).pc_a.is_returned
        = true ∧
      (get_race_run L qa qb ext (get_race_run L qa qb sched (get_race_init s))).pc_b.is_returned
        = true) by simp only [get_race_run_append]]
    exact get_race_can_finish L qa qb _ hinv
  · intro ha hb ra rb hra hrb
    obtain ⟨hla, _, hba⟩ := get_ok_facts L qa.rets qa.np qa.index s ha
    obtain ⟨hlb, _, hbb⟩ := get_ok_facts L qb.rets qb.np qb.index s hb
    have hok := get_race_ok_run L qa qb s hla hba hlb hbb sched _
      (get_race_inv_init qa qb s hfree)
      (get_race_ok_init s (lookup_ok_facts qa.np qa.index s hla).2.1)
    obtain ⟨_, _, h3, h4, _, h6, _⟩ := hinv
    obtain ⟨_, j1, j2, j3, j4⟩ := hok
    rw [hra] at h3 h6 j1 j3 j4
    rw [hrb] at h4 h6 j2 j3 j4
    cases ra with
    | ok u =>
      cases rb with
      | ok v =>
        have h6b := h6 rfl
        simp [get_pc.is_owner] at h6b
      | error e =>
        left
        refine ⟨rfl, ?_, h3 rfl⟩
        simp only [get_pc.no_failure, decide_eq_true_eq] at j2
        rw [j2]
    | error e =>
      cases rb with
      | ok v =>
        right
        refine ⟨?_, rfl, h4 rfl⟩
        simp only [get_pc.no_failure, decide_eq_true_eq] at j1
        rw [j1]
      | error e2 =>
        exact absurd (j3 rfl) (by simp [get_pc.is_owner])

/-- C22 (witness): the example client and the client at 8192 call for the
example core.  In the interleaving in which the second call takes the lock
while the first waits for it, the first returns `-EBUSY`, the second returns
the handle and 8192 is the recorded owner.  In the interleaving in which the
first call runs to its end before the second starts, the first returns the
handle and the second `-EBUSY`. -/
theorem pru_rproc_get_race_witness :
    (get_race_run limits_spec call_example call_no_map
      [true, true, false, false, true, true, true, false, false, false, false, true]
      (get_race_init state_example)).pc_a = get_pc.returned (.error (-EBUSY)) ∧
    (get_race_run limits_spec call_example call_no_map
      [true, true, false, false, true, true, true, false, false, false, false, true]
      (get_race_init state_example)).pc_b = get_pc.returned (.ok ()) ∧
    (((.error (-EBUSY) : Except Int Unit) = .ok () ∧
        (.ok () : Except Int Unit) = .error (-EBUSY) ∧
        (get_race_run limits_spec call_example call_no_map
          [true, true, false, false, true, true, true, false, false, false, false, true]
          (get_race_init state_example)).shared.pru.client_np = some call_example.np.addr) ∨
      ((.error (-EBUSY) : Except Int Unit) = .error (-EBUSY) ∧
        (.ok () : Except Int Unit) = .ok () ∧
        (get_race_run limits_spec call_example call_no_map
          [true, true, false, false, true, true, true, false, false, false, false, true]
          (get_race_init state_example)).shared.pru.client_np = some call_no_map.np.addr)) ∧
    (get_race_run limits_spec call_example call_no_map
      (List.replicate 11 false ++ List.replicate 11 true)
      (get_race_init state_example)).pc_a = get_pc.returned (.ok ()) ∧
    (get_race_run limits_spec call_example call_no_map
      (List.replicate 11 false ++ List.replicate 11 true)
      (get_race_init state_example)).pc_b = get_pc.returned (.error (-EBUSY)) :=
  ⟨by decide, by decide,
   (pru_rproc_get_race limits_spec call_example call_no_map state_example (by decide)
      [true, true, false, false, true, true, true, false, false, false, false, true]).2.2.1
      (by decide) (by decide) _ _ (by decide) (by decide),
   by decide, by decide⟩

/-- C23: teardown calls that reverse no committed table.  On the example core,
which never had a table (`dt_irqs = 0`, nothing in the controller), a
successful start makes no call and the following stop tears down the table of
the core; so does the failed start of the machine with a virtio device and no
transport.  An acquire whose table the controller refuses tears that table
down on its error path.  After a committed descriptor and a refused second
one, the controller holds the first table and the stop names the overwritten
one.  On a core with `dt_irqs = 0` the stop tears down whatever the controller
holds; when the controller holds the table of the core, as after the
committed example descriptor, the stop names exactly that table and the
controller holds none afterwards. -/
theorem pru_rproc_teardown_without_commit :
    (machine_no_devices.core.pru.dt_irqs = 0 ∧
      machine_no_devices.core.pruss.intc = none ∧
      (pru_rproc_start 0 machine_no_devices).1 = 0 ∧
      (pru_rproc_start 0 machine_no_devices).2.2 = [] ∧
      (pru_rproc_stop (pru_rproc_start 0 machine_no_devices).2.1).2.2 =
        [collab_call.intc_unconfigure pru0_probed.intc_config]) ∧
    ((pru_rproc_start 0 machine_example).1 = -EINVAL ∧
      (pru_rproc_start 0 machine_example).2.2 =
        [collab_call.intc_unconfigure pru0_probed.intc_config]) ∧
    (pru_rproc_get limits_spec rets_commit_refused client_example 0 state_example =
        (.error (-EINVAL), pru_rproc_put rets_commit_refused.put
          (pru_rproc_get_body limits_spec rets_commit_refused client_example 0
            (state_owned client_example state_example)).2) ∧
      (pru_rproc_get_body limits_spec rets_commit_refused client_example 0
        (state_owned client_example state_example)).2.pruss.intc = none ∧
      pru_rproc_put_calls (pru_rproc_get_body limits_spec rets_commit_refused client_example 0
        (state_owned client_example state_example)).2 =
        [collab_call.intc_unconfigure state_flat_installed.pru.intc_config]) ∧
    (state_descriptor_installed.pruss.intc = some state_descriptor_installed.pru.intc_config ∧
      state_descriptor_refused.pruss.intc = some state_descriptor_installed.pru.intc_config ∧
      state_descriptor_refused.pru.intc_config ≠ state_descriptor_installed.pru.intc_config ∧
      (pru_rproc_stop { machine_no_devices with core := state_descriptor_refused }).2.2 =
        [collab_call.intc_unconfigure state_descriptor_refused.pru.intc_config]) ∧
    (∀ m : pru_machine, m.core.pru.dt_irqs = 0 →
      collab_call.intc_unconfigure m.core.pru.intc_config ∈ (pru_rproc_stop m).2.2 ∧
      (pru_rproc_stop m).2.1.core.pruss.intc = none) ∧
    ((pru_rproc_stop { machine_no_devices with core := state_descriptor_installed }).2.2 =
        [collab_call.intc_unconfigure state_descriptor_installed.pru.intc_config] ∧
      (pru_rproc_stop
        { machine_no_devices with core := state_descriptor_installed }).2.1.core.pruss.intc =
        none) := by
  refine ⟨by decide, by decide, by decide, by decide, ?_, by decide⟩
  intro m hdt
  unfold pru_rproc_stop
  simp only [hdt, if_true]
  constructor
  · simp
  · simp only [pruss_intc_unconfigure]

/-- C25: `pru_rproc_put` leaves `dt_irqs` as it is.  After the example client
has installed its flat-list table (`dt_irqs = 12`) and released the core,
the marker is still 12; it stays 12 when the client without interrupt map
acquires the core; the descriptor handed in for that owner is skipped with
result 0 and nothing reaches the controller, while on a core that never had a
flat list the same descriptor is committed; and the release of the second
owner tears down the table of the first client. -/
theorem pru_rproc_put_keeps_flat_marker :
    (∀ (p : put_rets) (s : pru_state), (pru_rproc_put p s).pru.dt_irqs = s.pru.dt_irqs) ∧
    (state_flat_installed.pru.dt_irqs = 12 ∧
      state_flat_released.pru.client_np = none ∧
      state_flat_released.pruss.intc = none ∧
      state_flat_released.pru.dt_irqs = 12) ∧
    ((pru_rproc_get limits_spec rets_ok client_no_map 0 state_flat_released).1 = .ok () ∧
      state_second_owner.pru.client_np = some 8192 ∧
      state_second_owner.pru.dt_irqs = 12) ∧
    (pru_rproc_handle_vendor_rsc limits_spec 1 0 dmem_example rsc_example state_second_owner =
        (0, state_second_owner, []) ∧
      state_second_owner.pruss.intc = none) ∧
    ((pru_rproc_handle_vendor_rsc limits_spec 1 0 dmem_example rsc_example
        (pru_rproc_get limits_spec rets_ok client_no_map 0 state_example).2).1 = 0 ∧
      (pru_rproc_handle_vendor_rsc limits_spec 1 0 dmem_example rsc_example
        (pru_rproc_get limits_spec rets_ok client_no_map 0 state_example).2).2.1.pruss.intc =
        some state_descriptor_installed.pru.intc_config) ∧
    pru_rproc_put_calls state_second_owner =
      [collab_call.intc_unconfigure state_flat_installed.pru.intc_config] := by
  refine ⟨fun p s => (put_frame p s).2.1, by decide, by decide, by decide, by decide,
    by decide⟩

end PruRproc
